import Mathlib

/-!
# kube-compose: the `up` orchestrator

A shallow embedding of `internal/app/up/up.go` (the pod watch reducer, the
dependency-gated pod launcher, the pod that `createPod` builds, the virtual-IP
wait and the image resolver) and of `getEnvIDFlag` in `cmd/common.go`, with
models of the compose-file loader (`pkg/docker/compose/config`) and of the
service table and its filter (`internal/app/config`), together with the
theorems that settle the specification's claims about them.

Conventions of the embedding

* Go maps keyed by name are association lists; the order of a list stands for
  one possible iteration order of the map, so a statement quantified over all
  states covers every iteration order.
* An `*app` pointer is represented by the key of the app in `upRunner.apps`
  (`app.name()`), because `initApps` stores every app under that key.
* A function that mutates the runner returns the final runner next to its
  result, also when the result is an error or a runtime panic.
* Terminal output (`fmt.Printf`) and the log-streaming goroutines' bodies are
  not modelled; the bookkeeping that starts them is.
-/

set_option autoImplicit false
set_option linter.dupNamespace false

namespace KubeCompose

/-! ## Cluster API objects (the fields `up.go` reads or sets) -/

/-- The constant `v1.PodReady`. -/
def PodReady : String := "Ready"

/-- The constant `v1.ConditionTrue`. -/
def ConditionTrue : String := "True"

structure PodCondition where
  Type_ : String
  Status : String
  deriving DecidableEq, Repr

structure ContainerStateWaiting where
  Reason : String := ""
  Message : String := ""
  deriving DecidableEq, Repr

structure ContainerStateRunning where
  StartedAt : Nat := 0
  deriving DecidableEq, Repr

structure ContainerStateTerminated where
  ExitCode : Int := 0
  Signal : Int := 0
  Reason : String := ""
  Message : String := ""
  deriving DecidableEq, Repr

/-- The struct `v1.ContainerState`: three optional members (nil pointers are `none`). -/
structure ContainerState where
  Waiting : Option ContainerStateWaiting := none
  Running : Option ContainerStateRunning := none
  Terminated : Option ContainerStateTerminated := none
  deriving DecidableEq, Repr

structure ContainerStatus where
  Name : String
  State : ContainerState := {}
  deriving DecidableEq, Repr

structure ObjectMeta where
  Name : String := ""
  Labels : List (String × String) := []
  deriving DecidableEq, Repr

structure PodStatus where
  Conditions : List PodCondition := []
  ContainerStatuses : List ContainerStatus := []
  deriving DecidableEq, Repr

/-- The struct `v1.HostAlias`. -/
structure HostAlias where
  IP : String
  Hostnames : List String
  deriving DecidableEq, Repr

/-- The struct `v1.Probe` (the fields the translation of a healthcheck sets). -/
structure Probe where
  ExecCommand : List String := []
  InitialDelaySeconds : Nat := 0
  PeriodSeconds : Nat := 0
  TimeoutSeconds : Nat := 0
  FailureThreshold : Nat := 0
  deriving DecidableEq, Repr

/-- The constant `v1.PullAlways` (`v1.PullPolicy` is a string type). -/
def PullAlways : String := "Always"

/-- The struct `v1.ContainerPort` (the fields `createPod` sets). -/
structure ContainerPort where
  ContainerPort : Nat := 0
  Protocol : String := ""
  deriving DecidableEq, Repr

/-- The struct `v1.EnvVar` (the fields `createPod` sets). -/
structure EnvVar where
  Name : String := ""
  Value : String := ""
  deriving DecidableEq, Repr

/-- The struct `v1.Container` (the fields `createPod` sets, and `Args`, which it leaves
unset). A slice that is nil is the empty list; a pointer that is nil is `none`. -/
structure Container where
  Args : List String := []
  Command : List String := []
  Env : List EnvVar := []
  Image : String := ""
  ImagePullPolicy : String := ""
  Name : String := ""
  Ports : List ContainerPort := []
  ReadinessProbe : Option Probe := none
  WorkingDir : String := ""
  deriving DecidableEq, Repr

/-- The struct `v1.PodSecurityContext` (the fields `createPod` sets); both are `*int64`. -/
structure PodSecurityContext where
  RunAsUser : Option Int := none
  RunAsGroup : Option Int := none
  deriving DecidableEq, Repr

/-- The struct `v1.PodSpec` (the fields `createPod` sets); `AutomountServiceAccountToken` is a
`*bool` and `SecurityContext` a pointer. -/
structure PodSpec where
  AutomountServiceAccountToken : Option Bool := none
  Containers : List Container := []
  HostAliases : List HostAlias := []
  RestartPolicy : String := ""
  SecurityContext : Option PodSecurityContext := none
  deriving DecidableEq, Repr

structure Pod where
  ObjectMeta : ObjectMeta := {}
  Spec : PodSpec := {}
  Status : PodStatus := {}
  deriving DecidableEq, Repr

/-- The struct `v1.ServiceSpec` (the fields `up.go` reads); `Type_` is a string type. -/
structure ServiceSpec where
  Type_ : String := "ClusterIP"
  ClusterIP : String := ""
  deriving DecidableEq, Repr

/-- The struct `v1.Service`, the cluster object that gives a compose service its virtual IP. -/
structure V1Service where
  ObjectMeta : ObjectMeta := {}
  Spec : ServiceSpec := {}
  deriving DecidableEq, Repr

/-- The struct `v1.ServiceList`. -/
structure ServiceList where
  Items : List V1Service := []
  ResourceVersion : String := ""
  deriving DecidableEq, Repr

/-! ## Pod status -/

/-- Modelled from the spec: the type `podStatus` is declared in a file that is not part of the
sources at hand; the spec gives its values and their order,
`maxObservedPodStatus ∈ {Other<Started<Completed<Ready}`, and `Other` is the zero value a
fresh app starts with. -/
inductive podStatus where
  | podStatusOther
  | podStatusStarted
  | podStatusCompleted
  | podStatusReady
  deriving DecidableEq, Repr

open podStatus

/-- Modelled from the spec: the integer behind a `podStatus`, which realises the order
`Other < Started < Completed < Ready`. -/
def podStatus.toNat : podStatus → Nat
  | podStatusOther => 0
  | podStatusStarted => 1
  | podStatusCompleted => 2
  | podStatusReady => 3

instance : LT podStatus := ⟨fun a b => a.toNat < b.toNat⟩

instance : LE podStatus := ⟨fun a b => a.toNat ≤ b.toNat⟩

instance (a b : podStatus) : Decidable (a < b) := inferInstanceAs (Decidable (a.toNat < b.toNat))

instance (a b : podStatus) : Decidable (a ≤ b) := inferInstanceAs (Decidable (a.toNat ≤ b.toNat))

/-- The larger of two statuses. -/
def podStatus.max (a b : podStatus) : podStatus := if a < b then b else a

/-! ## Errors and results -/

/-- The errors `up.go` produces itself, and `external` for an error handed up by a
collaborator (cluster client, container daemon, label helpers). -/
inductive UpError where
  /-- "aborting because container %s of pod %s terminated (code=%d,signal=%d,reason=%s): %s" -/
  | containerTerminated (containerName podName : String) (exitCode signal : Int)
      (reason message : String)
  /-- "aborting because container %s of pod %s could not pull image: %s" -/
  | errImagePull (containerName podName message : String)
  /-- The value of `k8smeta.ErrorResourcesModifiedExternally()`. -/
  | resourcesModifiedExternally
  /-- "got unexpected error event from channel: %+v" -/
  | unexpectedEvent
  /-- "channel unexpectedly closed" -/
  | channelClosed
  | external (msg : String)
  /-- "docker compose service %s has no image or its image is the empty string, and building
  images is not supported" -/
  | noImage (appName : String)
  /-- "could not find image %#v locally, and building images is not supported" -/
  | imageNotFoundLocally (sourceImage : String)
  /-- "could get ID of image %#v, this is either a bug or images were removed by an external
  process (please try again)" -/
  | imageIDNotFound (sourceImage : String)
  /-- "image reference %#v is likely unstable, please enable pushing of images or use named
  image references to improve consistency across hosts" -/
  | imageUnstable (sourceImage : String)
  /-- The value of `errors.Wrap(cause, message)`; the message is kept without the quoting that
  the verb `%#v` adds. -/
  | wrapped (message : String) (cause : UpError)
  deriving DecidableEq, Repr

/-- Outcome of a Go call: a value with a nil error, a non-nil error, or a runtime panic
(nil pointer dereference, failed type assertion). -/
inductive Result (α : Type) where
  | ok (v : α)
  | err (e : UpError)
  | panic
  deriving DecidableEq, Repr

/-! ## `isPodReady`, `parsePodStatus` -/

/-- The loop of `isPodReady`. -/
def isPodReadyLoop : List PodCondition → Bool
  | [] => false
  | condition :: rest =>
    if condition.Type_ = PodReady ∧ condition.Status = ConditionTrue then true
    else isPodReadyLoop rest

def isPodReady (pod : Pod) : Bool :=
  isPodReadyLoop pod.Status.Conditions

def parsePodStatusTerminatedContainer (podName containerName : String)
    (t : ContainerStateTerminated) : Except UpError podStatus :=
  if t.Reason ≠ "Completed" then
    .error (.containerTerminated containerName podName t.ExitCode t.Signal t.Reason t.Message)
  else
    .ok podStatusCompleted

/-- The loop of `parsePodStatus` over `pod.Status.ContainerStatuses`: `Sum.inl r` when the loop
body returns `r`, `Sum.inr runningCount` when the loop runs to its end. -/
def parsePodStatusLoop (podName : String) :
    List ContainerStatus → Nat → Except UpError podStatus ⊕ Nat
  | [], runningCount => .inr runningCount
  | containerStatus :: rest, runningCount =>
    match containerStatus.State.Terminated with
    | some t => .inl (parsePodStatusTerminatedContainer podName containerStatus.Name t)
    | none =>
      let next := parsePodStatusLoop podName rest
        (if containerStatus.State.Running.isSome then runningCount + 1 else runningCount)
      match containerStatus.State.Waiting with
      | some w =>
        if w.Reason = "ErrImagePull" then
          .inl (.error (.errImagePull containerStatus.Name podName w.Message))
        else next
      | none => next

def parsePodStatus (pod : Pod) : Except UpError podStatus :=
  if isPodReady pod then .ok podStatusReady
  else
    match parsePodStatusLoop pod.ObjectMeta.Name pod.Status.ContainerStatuses 0 with
    | .inl r => r
    | .inr runningCount =>
      if runningCount = pod.Status.ContainerStatuses.length then .ok podStatusStarted
      else .ok podStatusOther

/-! ## Vocabulary of the claims about `parsePodStatus` -/

/-- The pod has a condition `Ready` with status `True`. -/
def hasReadyTrueCondition (pod : Pod) : Prop :=
  ∃ c ∈ pod.Status.Conditions, c.Type_ = "Ready" ∧ c.Status = "True"

/-- The container is terminated. -/
def ContainerStatus.isTerminated (cs : ContainerStatus) : Prop :=
  cs.State.Terminated.isSome = true

/-- The container is terminated with the given reason. -/
def ContainerStatus.terminatedWith (cs : ContainerStatus) (reason : String) : Prop :=
  ∃ t, cs.State.Terminated = some t ∧ t.Reason = reason

/-- The container is terminated with a reason other than `"Completed"`. -/
def ContainerStatus.terminatedNotCompleted (cs : ContainerStatus) : Prop :=
  ∃ t, cs.State.Terminated = some t ∧ t.Reason ≠ "Completed"

/-- The container is waiting with reason `"ErrImagePull"`. -/
def ContainerStatus.waitingErrImagePull (cs : ContainerStatus) : Prop :=
  ∃ w, cs.State.Waiting = some w ∧ w.Reason = "ErrImagePull"

/-- The container is running. -/
def ContainerStatus.isRunning (cs : ContainerStatus) : Prop :=
  cs.State.Running.isSome = true

/-- Number of running containers in a list of container statuses. -/
def runningContainers (l : List ContainerStatus) : Nat :=
  (l.filter (fun cs => cs.State.Running.isSome)).length

/-! ## Configuration (`internal/app/config`, `pkg/docker/compose/config`) -/

inductive ServiceHealthiness where
  | ServiceStarted
  | ServiceHealthy
  deriving DecidableEq, Repr

open ServiceHealthiness

structure Port where
  Port : Nat := 0
  Protocol : String := "tcp"
  deriving DecidableEq, Repr

/-- Modelled from the spec: the struct `dockerComposeConfig.Healthcheck`, declared outside the
files embedded here: "test-command, interval, timeout, retries, start-period as durations".
The durations are kept in whole seconds. -/
structure Healthcheck where
  Test : List String := []
  Interval : Nat := 0
  Timeout : Nat := 0
  Retries : Nat := 0
  StartPeriod : Nat := 0
  deriving DecidableEq, Repr

/-- The struct `dockerComposeConfig.Service`. A key of the Go map `DependsOn` is a pointer to
another docker-compose service; here it is the name under which that service is owned by the
`Config`. `User` is a `*string`. `Environment` is a Go map from name to value, listed in the
order in which a `range` over it visits its keys; a slice that is nil is the empty list. -/
structure DockerComposeService where
  DependsOn : List (String × ServiceHealthiness) := []
  Command : List String := []
  Entrypoint : List String := []
  Environment : List (String × String) := []
  Image : String := ""
  Restart : String := ""
  WorkingDir : String := ""
  Healthcheck : Option Healthcheck := none
  HealthcheckDisabled : Bool := false
  User : Option String := none
  deriving DecidableEq, Repr

/-- The struct `config.Service`. -/
structure Service where
  Name : String
  NameEscaped : String := ""
  Ports : List Port := []
  DockerComposeService : DockerComposeService := {}
  matchesFilter : Bool := false
  deriving DecidableEq, Repr

/-- The struct behind `cfg.PushImages`. -/
structure PushImagesConfig where
  DockerRegistry : String := ""
  deriving DecidableEq, Repr

/-- The struct behind `cfg.KubeConfig` (the field `up.go` reads). -/
structure KubeConfig where
  BearerToken : String := ""
  deriving DecidableEq, Repr

/-- The struct `config.Config`; `Services` is the Go map from name to service; `PushImages`
and `KubeConfig` are pointers. -/
structure Config where
  Services : List Service := []
  EnvironmentID : String := ""
  EnvironmentLabel : String := "env-id"
  Namespace : String := ""
  PushImages : Option PushImagesConfig := none
  KubeConfig : Option KubeConfig := none
  deriving DecidableEq, Repr

/-- Modelled from the spec: `Config.MatchesFilter`, whose source is not at hand: "`MatchesFilter(s)`
is the membership test" of the filter set, kept as the mark `matchesFilter` on the service. -/
def Config.MatchesFilter (_cfg : Config) (service : Service) : Bool :=
  service.matchesFilter

/-- Modelled from the spec: `Config.FindService`, whose source is not at hand: it resolves a
docker-compose service to the `Service` that owns it ("a single `Service` object is owned by
exactly one name in exactly one `Config`"), and is nil when no service of the config owns it. -/
def Config.FindService (cfg : Config) (dcService : String) : Option Service :=
  cfg.Services.find? (fun s => s.Name = dcService)

/-- Modelled from the spec: `k8smeta.FindFromObjectMeta`, whose source is not at hand. Every
cluster object carries the labels `<EnvironmentLabel>=<EnvironmentID>` and
`service=<serviceNameEscaped>`; the function "reverses labels to a `Service`, or returns `nil`
if it belongs to a foreign fleet. Any object that carries the fleet label but an unknown
service label signals external tampering". -/
def FindFromObjectMeta (cfg : Config) (objectMeta : ObjectMeta) : Except UpError (Option Service) :=
  if objectMeta.Labels.lookup cfg.EnvironmentLabel = some cfg.EnvironmentID then
    match objectMeta.Labels.lookup "service" with
    | none => .error .resourcesModifiedExternally
    | some escaped =>
      match cfg.Services.find? (fun s => s.NameEscaped = escaped) with
      | some service => .ok (some service)
      | none => .error .resourcesModifiedExternally
  else .ok none

/-- Modelled from the spec: `k8smeta.InitObjectMeta`, whose source is not at hand: "Every
cluster object gets: Name: `<envID>-<serviceNameEscaped>` ...; Labels include
`<EnvironmentLabel>=<EnvironmentID>` ... and `service=<serviceNameEscaped>`". -/
def InitObjectMeta (cfg : Config) (composeService : Service) : ObjectMeta :=
  { Name := cfg.EnvironmentID ++ "-" ++ composeService.NameEscaped,
    Labels := [(cfg.EnvironmentLabel, cfg.EnvironmentID), ("service", composeService.NameEscaped)] }

/-! ## The runner's state -/

structure Userinfo where
  UID : Option Int := none
  GID : Option Int := none
  Group : String := ""
  deriving DecidableEq, Repr

/-- The struct `appImageInfo`; `onceDone` is the state of the `sync.Once` guard. -/
structure appImageInfo where
  err : Option UpError := none
  onceDone : Bool := false
  podImage : String := ""
  sourceImageID : String := ""
  user : Option Userinfo := none
  imageHealthcheck : Option Healthcheck := none
  deriving DecidableEq, Repr

structure app where
  composeService : Service
  serviceClusterIP : String := ""
  imageInfo : appImageInfo := {}
  maxObservedPodStatus : podStatus := podStatusOther
  containersForWhichWeAreStreamingLogs : List String := []
  color : Nat := 0
  deriving DecidableEq, Repr

def app.name (a : app) : String :=
  a.composeService.Name

def app.hasService (a : app) : Bool :=
  a.composeService.Ports.length > 0

/-- The struct `hostAliases`; `onceDone` is the state of the `sync.Once` guard. -/
structure hostAliases where
  v : List HostAlias := []
  onceDone : Bool := false
  err : Option UpError := none
  deriving DecidableEq, Repr

structure Options where
  Detach : Bool := false
  RunAsUser : Bool := false
  deriving DecidableEq, Repr

/-- The struct `dockerTypes.ImageSummary` (the fields read when a local image is resolved). -/
structure ImageSummary where
  ID : String := ""
  RepoTags : List String := []
  RepoDigests : List String := []
  deriving DecidableEq, Repr

/-- The struct `localImagesCache`. `imageIDSet` is a `*digestset.Set`, given by the digests it
holds; `once` is a `*sync.Once`: `none` is the nil pointer, `some done` a guard that has
(`true`) or has not (`false`) run. -/
structure localImagesCache where
  imageIDSet : Option (List String) := none
  images : List ImageSummary := []
  once : Option Bool := none
  err : Option UpError := none
  deriving DecidableEq, Repr

/-- A request sent to the container daemon or to the cluster, or the receipt of one event from
the service watch channel. -/
inductive Request where
  | imageList
  | imagePull (ref : String)
  | imageInspect (image : String)
  | imageTag (source target : String)
  | imagePush (ref : String)
  | resolveLocalImageAfterPull (digest : String)
  | userinfoFromImage (image : String)
  | serviceCreate (appName : String)
  | serviceList
  | serviceWatch
  | serviceWatchReceive
  deriving DecidableEq, Repr

/-- One invocation of `createPod`: the app it was invoked for and the app table and config it
was invoked in. -/
structure createPodCall where
  appName : String
  apps : List app
  cfg : Config
  deriving DecidableEq, Repr

/-- The struct `upRunner`. `apps` is the Go map from name to `*app`; the sets
`appsThatNeedToBeReady` and `appsToBeStarted` (Go maps keyed by `*app`) list the names of their
members; `completedChannels` counts the channels appended so far. `createPodCalls` is not a
field of the source: it records the history of `createPod` invocations, oldest first, and no
function reads it. `requests` is not a field of the source either: it records, oldest first,
the requests made by the image resolver and the virtual-IP wait, and no function reads it. The
default of `localImagesCache` is the cache as `Run` sets it up, with a fresh guard. -/
structure upRunner where
  apps : List app := []
  appsThatNeedToBeReady : List String := []
  appsToBeStarted : List String := []
  cfg : Config := {}
  completedChannels : Nat := 0
  hostAliases : hostAliases := {}
  maxServiceNameLength : Nat := 0
  opts : Options := {}
  createPodCalls : List createPodCall := []
  localImagesCache : localImagesCache := { once := some false }
  requests : List Request := []
  deriving DecidableEq, Repr

/-- The map read `apps[name]`: nil (`none`) when the key is absent. -/
def findApp (apps : List app) (name : String) : Option app :=
  apps.find? (fun a => a.name = name)

/-- A write through the pointer of the app stored under `a.name()`. -/
def setApp : List app → app → List app
  | [], _ => []
  | b :: rest, a => if b.name = a.name then a :: rest else b :: setApp rest a

/-- The map write `set[name] = true`. -/
def setAdd (set : List String) (name : String) : List String :=
  if name ∈ set then set else set ++ [name]

/-! ## The collaborators -/

/-- Answer of the cluster to `k8sPodClient.Create`. -/
inductive CreateResponse where
  | created
  | alreadyExists
  | failed (e : UpError)
  deriving DecidableEq, Repr

/-- The constants `k8swatch.Added`, `k8swatch.Modified`, `k8swatch.Deleted` (`EventType` is a
string type). -/
def Added : String := "ADDED"

def Modified : String := "MODIFIED"

def Deleted : String := "DELETED"

/-- The dynamic type of `event.Object`. -/
inductive EventObject where
  | pod (p : Pod)
  | status (message : String)
  | service (s : V1Service)
  deriving DecidableEq, Repr

structure Event where
  Type_ : String
  Object : EventObject
  deriving DecidableEq, Repr

/-- A parsed image reference (`dockerRef.Reference`): whether its dynamic type implements
`dockerRef.Named`, and the value of its method `String()`. -/
structure Reference where
  isNamed : Bool := false
  str : String := ""
  deriving DecidableEq, Repr

/-- The struct `dockerTypes.ImageInspect` (the field `up.go` reads): `Config` is a pointer, and
`ConfigUser` is `Config.User` when it is not nil. -/
structure ImageInspect where
  ConfigUser : Option String := none
  deriving DecidableEq, Repr

/-- The container daemon and the helpers of the image resolver that are declared outside the
files embedded here, each given by what it returns: `imageList`, `imageInspectWithRaw` and
`imageTag` are the answers of the daemon; `validDigest` tells whether `digestset.Set.Add`
accepts an image id; the other fields are the functions of the same names
(`pullImageWithLogging appName ref`, `pushImageWithLogging appName image bearerToken`). -/
structure Docker where
  imageList : Except UpError (List ImageSummary) := .ok []
  validDigest : String → Bool := fun _ => true
  parseAnyReferenceWithSet : String → Option (List String) → Except UpError Reference :=
    fun image _ => .ok { isNamed := true, str := image }
  resolveLocalImageID : Reference → Option (List String) → List ImageSummary → String :=
    fun _ _ _ => ""
  pullImageWithLogging : String → String → Except UpError String := fun _ _ => .ok ""
  resolveLocalImageAfterPull : Reference → String → String × String × Option UpError :=
    fun _ _ => ("", "", none)
  imageInspectWithRaw : String → Except UpError (ImageInspect × String) := fun _ => .ok ({}, "")
  imageTag : String → String → Option UpError := fun _ _ => none
  pushImageWithLogging : String → String → String → Except UpError String := fun _ _ _ => .ok ""
  inspectImageRawParseHealthcheck : String → Except UpError (Option Healthcheck) :=
    fun _ => .ok none
  parseUserinfo : String → Except UpError Userinfo := fun _ => .ok {}
  getUserinfoFromImage : String → Userinfo → Except UpError Userinfo := fun _ user => .ok user

/-- What the container daemon and the cluster answer during one run. Image resolution and the
virtual-IP exchange are summarised by their results: `getAppImageInfo name` is the `imageInfo`
record (with its `err`) that `getAppImageInfo` leaves on the app, `serviceClusterIPs name` the
cluster IP that the service list/watch stores on the app (if any), `podAliases` and
`podAliasesErr` the result of `createServicesAndGetPodHostAliases`. `podWatch` is the events
delivered by the watch channel before it is closed; `podCreate` is the answer of
`k8sPodClient.Create` to the pod it is given; `newClientset` and `newEnvClient` are the
errors of `kubernetes.NewForConfig` and `dockerClient.NewEnvClient`. For the functions of the
virtual-IP wait themselves, `serviceCreate`, `serviceList` and `serviceWatch` are the answers
of `k8sServiceClient.Create`, `.List` and `.Watch` (the events delivered before the channel is
closed), and `docker` is the container daemon for the functions of the image resolver. -/
structure World where
  getAppImageInfo : String → appImageInfo := fun _ => {}
  serviceClusterIPs : String → Option String := fun _ => none
  podAliases : List HostAlias := []
  podAliasesErr : Option UpError := none
  podCreate : Pod → CreateResponse := fun _ => .created
  podList : Except UpError (List Pod) := .ok []
  podWatch : Except UpError (List Event) := .ok []
  newClientset : Option UpError := none
  newEnvClient : Option UpError := none
  serviceCreate : String → CreateResponse := fun _ => .created
  serviceList : Except UpError ServiceList := .ok {}
  serviceWatch : Except UpError (List Event) := .ok []
  docker : Docker := {}

/-! ## `initApps`, `initAppsToBeStarted` -/

def colorSupported : List Nat := [409600, 147456, 344064, 81920, 212992, 278528, 475136]

/-- The loop of `initApps`: `u.apps[app.name()] = app` for a fresh app per service. -/
def initAppsLoop : List Service → List app → List app
  | [], apps => apps
  | composeService :: rest, apps =>
    let a : app := { composeService := composeService }
    initAppsLoop rest (if (findApp apps a.name).isSome then setApp apps a else apps ++ [a])

def initApps (u : upRunner) : upRunner :=
  { u with apps := initAppsLoop u.cfg.Services [], appsThatNeedToBeReady := [] }

/-- The loop of `initAppsToBeStarted` over the apps, carrying `colorIndex`. -/
def initAppsToBeStartedLoop : List app → Nat → upRunner → upRunner
  | [], _, u => u
  | a :: rest, colorIndex, u =>
    if !u.cfg.MatchesFilter a.composeService then initAppsToBeStartedLoop rest colorIndex u
    else
      let u1 := { u with appsToBeStarted := setAdd u.appsToBeStarted a.name }
      let colored := colorIndex < colorSupported.length
      let u2 := if colored then
          { u1 with apps := setApp u1.apps { a with color := colorSupported.getD colorIndex 0 } }
        else u1
      let colorIndex := if colored then colorIndex + 1 else 0
      let u3 := if a.name.utf8ByteSize > u2.maxServiceNameLength then
          { u2 with maxServiceNameLength := a.name.utf8ByteSize }
        else u2
      initAppsToBeStartedLoop rest colorIndex u3

def initAppsToBeStarted (u : upRunner) : upRunner :=
  initAppsToBeStartedLoop u.apps 0 { u with appsToBeStarted := [] }

/-! ## `findAppFromObjectMeta`, `updateAppMaxObservedPodStatus` -/

/-- The result is the pointer read from `u.apps` (nil is `none`). When `FindFromObjectMeta`
returns a nil service and a nil error, `composeService.Name` dereferences the nil pointer. -/
def findAppFromObjectMeta (u : upRunner) (objectMeta : ObjectMeta) : Result (Option app) :=
  match FindFromObjectMeta u.cfg objectMeta with
  | .error e => .err e
  | .ok none => .panic
  | .ok (some composeService) => .ok (findApp u.apps composeService.Name)

/-- The log-streaming loop of `updateAppMaxObservedPodStatus`: the app with the container
names added, and the number of completed-channels appended. Starting the goroutine
`streamPodLogs` has no other effect on the runner. -/
def streamLogsLoop : List ContainerStatus → app → Nat → app × Nat
  | [], a, completedChannels => (a, completedChannels)
  | containerStatus :: rest, a, completedChannels =>
    if containerStatus.Name ∉ a.containersForWhichWeAreStreamingLogs
        ∧ containerStatus.State.Running.isSome then
      streamLogsLoop rest
        { a with containersForWhichWeAreStreamingLogs :=
            containerStatus.Name :: a.containersForWhichWeAreStreamingLogs }
        (completedChannels + 1)
    else streamLogsLoop rest a completedChannels

def updateAppMaxObservedPodStatus (u : upRunner) (pod : Pod) : Result Unit × upRunner :=
  match findAppFromObjectMeta u pod.ObjectMeta with
  | .err e => (.err e, u)
  | .panic => (.panic, u)
  | .ok none => (.ok (), u)
  | .ok (some a) =>
    let (a1, completedChannels) :=
      if !u.opts.Detach then streamLogsLoop pod.Status.ContainerStatuses a u.completedChannels
      else (a, u.completedChannels)
    let u1 := { u with apps := setApp u.apps a1, completedChannels := completedChannels }
    match parsePodStatus pod with
    | .error e => (.err e, u1)
    | .ok s =>
      if s > a1.maxObservedPodStatus then
        (.ok (), { u1 with apps := setApp u1.apps { a1 with maxObservedPodStatus := s } })
      else (.ok (), u1)

/-! ## `getRestartPolicyforService`, `GetReadinessProbe` -/

/-- The constants `v1.RestartPolicyNever`, `v1.RestartPolicyAlways` and
`v1.RestartPolicyOnFailure` (`v1.RestartPolicy` is a string type). -/
def RestartPolicyNever : String := "Never"

def RestartPolicyAlways : String := "Always"

def RestartPolicyOnFailure : String := "OnFailure"

def getRestartPolicyforService (a : app) : String :=
  if a.composeService.DockerComposeService.Restart = "no" then RestartPolicyNever
  else if a.composeService.DockerComposeService.Restart = "always" then RestartPolicyAlways
  else if a.composeService.DockerComposeService.Restart = "on-failure" then RestartPolicyOnFailure
  else RestartPolicyNever

/-- Modelled from the spec: `createReadinessProbeFromDockerHealthcheck`, declared outside the
files embedded here: "`CMD`/`CMD-SHELL` → exec probe; timings map to
`initialDelay=startPeriod`, `periodSeconds=interval`, `timeoutSeconds=timeout`,
`failureThreshold=retries`". A `CMD` test runs its arguments; a `CMD-SHELL` test runs its
arguments through `/bin/sh -c`. -/
def createReadinessProbeFromDockerHealthcheck (healthcheck : Healthcheck) : Option Probe :=
  some
    { ExecCommand :=
        match healthcheck.Test with
        | "CMD" :: args => args
        | "CMD-SHELL" :: args => "/bin/sh" :: "-c" :: args
        | test => test,
      InitialDelaySeconds := healthcheck.StartPeriod,
      PeriodSeconds := healthcheck.Interval,
      TimeoutSeconds := healthcheck.Timeout,
      FailureThreshold := healthcheck.Retries }

/-- The method `GetReadinessProbe`; nil is `none`. -/
def app.GetReadinessProbe (a : app) : Option Probe :=
  if !a.composeService.DockerComposeService.HealthcheckDisabled then
    match a.composeService.DockerComposeService.Healthcheck with
    | some healthcheck => createReadinessProbeFromDockerHealthcheck healthcheck
    | none =>
      match a.imageInfo.imageHealthcheck with
      | some healthcheck => createReadinessProbeFromDockerHealthcheck healthcheck
      | none => none
  else none

/-! ## `createPod` -/

/-- The call `app.imageInfo.once.Do(...)` followed by the read of `app.imageInfo.err`. The
goroutines that `run` starts for the same guard are modelled at this point, where the main
task synchronises with them. -/
def getAppImageInfoOnce (w : World) (u : upRunner) (a : app) : Option UpError × upRunner :=
  if a.imageInfo.onceDone then (a.imageInfo.err, u)
  else
    let info := { w.getAppImageInfo a.name with onceDone := true }
    (info.err, { u with apps := setApp u.apps { a with imageInfo := info } })

def createServicesAndGetPodHostAliasesOnce (w : World) (u : upRunner) :
    List HostAlias × Option UpError × upRunner :=
  if u.hostAliases.onceDone then (u.hostAliases.v, u.hostAliases.err, u)
  else
    let apps := u.apps.map (fun a =>
      match w.serviceClusterIPs a.name with
      | some ip => { a with serviceClusterIP := ip }
      | none => a)
    (w.podAliases, w.podAliasesErr,
      { u with apps := apps,
               hostAliases := { v := w.podAliases, onceDone := true, err := w.podAliasesErr } })

/-- The function `strings.ToUpper` of the Go library on ASCII text (the protocol of a port is
`tcp` or `udp`): each of the letters `a` to `z` becomes its capital, every other character is
kept. -/
def ToUpper (s : String) : String :=
  String.mk (s.data.map Char.toUpper)

/-- The loop of `createPod` that fills `containerPorts`. -/
def createPodContainerPorts (ports : List Port) : List ContainerPort :=
  ports.map (fun port => { ContainerPort := port.Port, Protocol := ToUpper port.Protocol })

/-- The loop of `createPod` that fills `envVars` (nil when the map is empty). -/
def createPodEnvVars (environment : List (String × String)) : List EnvVar :=
  environment.map (fun entry => { Name := entry.1, Value := entry.2 })

/-- The security context of `createPod`: the outer `none` is the dereference of a nil
`app.imageInfo.user` when the option `RunAsUser` is on, the inner `none` the nil pointer. -/
def createPodSecurityContext (opts : Options) (a : app) : Option (Option PodSecurityContext) :=
  if opts.RunAsUser then
    match a.imageInfo.user with
    | none => none
    | some user => some (some { RunAsUser := user.UID, RunAsGroup := user.GID })
  else some none

/-- The part of `createPod` before the call of `k8sPodClient.Create`, for the app stored under
`name`: its result is the pod handed to that call. The fields of the app are read through the
pointer at the point where the source reads them; a name without an app cannot arise from the
source and is treated as a dereference of an invalid pointer. -/
def createPodObject (w : World) (u : upRunner) (name : String) : Result Pod × upRunner :=
  match findApp u.apps name with
  | none => (.panic, u)
  | some a =>
    match getAppImageInfoOnce w u a with
    | (some e, u1) => (.err e, u1)
    | (none, u1) =>
      match findApp u1.apps name with
      | none => (.panic, u1)
      | some a1 =>
        let readinessProbe := a1.GetReadinessProbe
        let containerPorts := createPodContainerPorts a1.composeService.Ports
        let envVars := createPodEnvVars a1.composeService.DockerComposeService.Environment
        match createServicesAndGetPodHostAliasesOnce w u1 with
        | (_, some e, u2) => (.err e, u2)
        | (hostAliases, none, u2) =>
          match findApp u2.apps name with
          | none => (.panic, u2)
          | some a2 =>
            match createPodSecurityContext u2.opts a2 with
            | none => (.panic, u2)
            | some securityContext =>
              (.ok
                { Spec :=
                    { AutomountServiceAccountToken := some false,
                      Containers := [
                        { Command := a2.composeService.DockerComposeService.Entrypoint,
                          Env := envVars,
                          Image := a2.imageInfo.podImage,
                          ImagePullPolicy := PullAlways,
                          Name := a2.composeService.NameEscaped,
                          Ports := containerPorts,
                          ReadinessProbe := readinessProbe,
                          WorkingDir := a2.composeService.DockerComposeService.WorkingDir }],
                      HostAliases := hostAliases,
                      RestartPolicy := getRestartPolicyforService a2,
                      SecurityContext := securityContext },
                  ObjectMeta := InitObjectMeta u2.cfg a2.composeService },
                u2)

/-- The function `createPod` for the app stored under `name`. The pod that the cluster returns
is only printed by the callers, so the result carries no value. The first step records the
invocation. -/
def createPod (w : World) (u : upRunner) (name : String) : Result Unit × upRunner :=
  let u0 := { u with createPodCalls := u.createPodCalls ++ [⟨name, u.apps, u.cfg⟩] }
  match createPodObject w u0 name with
  | (.panic, u2) => (.panic, u2)
  | (.err e, u2) => (.err e, u2)
  | (.ok pod, u2) =>
    match w.podCreate pod with
    | .failed e => (.err e, u2)
    | .alreadyExists =>
      (.ok (), { u2 with appsThatNeedToBeReady := setAdd u2.appsThatNeedToBeReady name })
    | .created =>
      (.ok (), { u2 with appsThatNeedToBeReady := setAdd u2.appsThatNeedToBeReady name })

/-! ## `createPodsIfNeeded`, `runStartInitialPods` -/

/-- The inner loop of `createPodsIfNeeded` over `DependsOn`, carrying the flag `createPod`.
`composeService.Name` and `app2.maxObservedPodStatus` dereference pointers that are nil when
the lookup before them finds nothing. -/
def createPodsIfNeededDependsOn (u : upRunner) :
    List (String × ServiceHealthiness) → Bool → Result Bool
  | [], createPod => .ok createPod
  | (dcService, healthiness) :: rest, createPod =>
    match u.cfg.FindService dcService with
    | none => .panic
    | some composeService =>
      match findApp u.apps composeService.Name with
      | none => .panic
      | some app2 =>
        if healthiness = ServiceHealthy then
          createPodsIfNeededDependsOn u rest
            (if app2.maxObservedPodStatus ≠ podStatusReady then false else createPod)
        else
          createPodsIfNeededDependsOn u rest
            (if app2.maxObservedPodStatus ≠ podStatusStarted then false else createPod)

/-- The outer loop of `createPodsIfNeeded` over the keys of `appsToBeStarted`. A key is a
pointer to a live app; a name without an app cannot arise from the source and is treated as a
dereference of an invalid pointer. -/
def createPodsIfNeededLoop (w : World) : List String → upRunner → Result Unit × upRunner
  | [], u => (.ok (), u)
  | name :: rest, u =>
    match findApp u.apps name with
    | none => (.panic, u)
    | some app1 =>
      match createPodsIfNeededDependsOn u app1.composeService.DockerComposeService.DependsOn true with
      | .panic => (.panic, u)
      | .err e => (.err e, u)
      | .ok false => createPodsIfNeededLoop w rest u
      | .ok true =>
        match createPod w u name with
        | (.ok _, u1) =>
          createPodsIfNeededLoop w rest { u1 with appsToBeStarted := u1.appsToBeStarted.erase name }
        | (.err e, u1) => (.err e, u1)
        | (.panic, u1) => (.panic, u1)

def createPodsIfNeeded (w : World) (u : upRunner) : Result Unit × upRunner :=
  createPodsIfNeededLoop w u.appsToBeStarted u

/-- The loop of `runStartInitialPods` over the keys of `appsToBeStarted`. -/
def runStartInitialPodsLoop (w : World) : List String → upRunner → Result Unit × upRunner
  | [], u => (.ok (), u)
  | name :: rest, u =>
    match findApp u.apps name with
    | none => (.panic, u)
    | some a =>
      if a.composeService.DockerComposeService.DependsOn.length ≠ 0 then
        runStartInitialPodsLoop w rest u
      else
        match createPod w u name with
        | (.ok _, u1) =>
          runStartInitialPodsLoop w rest { u1 with appsToBeStarted := u1.appsToBeStarted.erase name }
        | (.err e, u1) => (.err e, u1)
        | (.panic, u1) => (.panic, u1)

def runStartInitialPods (w : World) (u : upRunner) : Result Unit × upRunner :=
  runStartInitialPodsLoop w u.appsToBeStarted u

/-! ## The pod watch reducer -/

/-- The loop of `checkIfPodsReady` over the keys of `appsThatNeedToBeReady`, carrying
`allPodsReady`. A key is a pointer to a live app; for a name without an app (which cannot
arise from the source) the flag is left as it is. -/
def checkIfPodsReadyLoop (apps : List app) : List String → Bool → Bool
  | [], allPodsReady => allPodsReady
  | name :: rest, allPodsReady =>
    match findApp apps name with
    | none => checkIfPodsReadyLoop apps rest allPodsReady
    | some a =>
      checkIfPodsReadyLoop apps rest
        (if a.maxObservedPodStatus < podStatusReady then false else allPodsReady)

def checkIfPodsReady (u : upRunner) : Bool :=
  checkIfPodsReadyLoop u.apps u.appsThatNeedToBeReady true

/-- The loop of `runListPodsAndCreateThemIfNeeded` over `podList.Items`. -/
def updateAppMaxObservedPodStatusAll : List Pod → upRunner → Result Unit × upRunner
  | [], u => (.ok (), u)
  | pod :: rest, u =>
    match updateAppMaxObservedPodStatus u pod with
    | (.ok _, u1) => updateAppMaxObservedPodStatusAll rest u1
    | (.err e, u1) => (.err e, u1)
    | (.panic, u1) => (.panic, u1)

/-- The function `runListPodsAndCreateThemIfNeeded`; the resource version it returns is only
passed on to the watch request and is left out. -/
def runListPodsAndCreateThemIfNeeded (w : World) (u : upRunner) : Result Unit × upRunner :=
  match w.podList with
  | .error e => (.err e, u)
  | .ok items =>
    match updateAppMaxObservedPodStatusAll items u with
    | (.ok _, u1) => createPodsIfNeeded w u1
    | (.err e, u1) => (.err e, u1)
    | (.panic, u1) => (.panic, u1)

/-- The function `runWatchPodsEvent`. The type assertion `event.Object.(*v1.Pod)` panics when
the object is not a pod. -/
def runWatchPodsEvent (w : World) (u : upRunner) (event : Event) : Result Unit × upRunner :=
  if event.Type_ = Added ∨ event.Type_ = Modified then
    match event.Object with
    | .status _ => (.panic, u)
    | .service _ => (.panic, u)
    | .pod pod =>
      match updateAppMaxObservedPodStatus u pod with
      | (.ok _, u1) => createPodsIfNeeded w u1
      | (.err e, u1) => (.err e, u1)
      | (.panic, u1) => (.panic, u1)
  else if event.Type_ = Deleted then
    match event.Object with
    | .status _ => (.panic, u)
    | .service _ => (.panic, u)
    | .pod pod =>
      match findAppFromObjectMeta u pod.ObjectMeta with
      | .err e => (.err e, u)
      | .panic => (.panic, u)
      | .ok (some _) => (.err .resourcesModifiedExternally, u)
      | .ok none => createPodsIfNeeded w u
  else (.err .unexpectedEvent, u)

/-- The receive loop of `runWatchPods` over the events the channel delivers before it is
closed. -/
def runWatchPodsLoop (w : World) : List Event → upRunner → Result Unit × upRunner
  | [], u => (.err .channelClosed, u)
  | event :: rest, u =>
    match runWatchPodsEvent w u event with
    | (.ok _, u1) => if checkIfPodsReady u1 then (.ok (), u1) else runWatchPodsLoop w rest u1
    | (.err e, u1) => (.err e, u1)
    | (.panic, u1) => (.panic, u1)

def runWatchPods (w : World) (u : upRunner) : Result Unit × upRunner :=
  if checkIfPodsReady u then (.ok (), u)
  else
    match w.podWatch with
    | .error e => (.err e, u)
    | .ok events => runWatchPodsLoop w events u

/-- The function `run` from `initApps` to the return of `runWatchPods`, for a runner as `Run`
builds it. The final wait on the completed-channels is left out. -/
def run (w : World) (cfg : Config) (opts : Options) : Result Unit × upRunner :=
  let u := initAppsToBeStarted (initApps { cfg := cfg, opts := opts })
  match w.newClientset with
  | some e => (.err e, u)
  | none =>
    match w.newEnvClient with
    | some e => (.err e, u)
    | none =>
      match runStartInitialPods w u with
      | (.ok _, u1) =>
        match runListPodsAndCreateThemIfNeeded w u1 with
        | (.ok _, u2) => runWatchPods w u2
        | (.err e, u2) => (.err e, u2)
        | (.panic, u2) => (.panic, u2)
      | (.err e, u1) => (.err e, u1)
      | (.panic, u1) => (.panic, u1)

/-! ## Concrete pods, configurations and runs -/

/-- A pod whose first container completed and whose second container failed. -/
def podCompletedThenFailed : Pod :=
  { ObjectMeta := { Name := "test-job" },
    Status := { ContainerStatuses := [
      { Name := "init", State := { Terminated := some { Reason := "Completed" } } },
      { Name := "main", State := { Terminated := some { ExitCode := 1, Reason := "Error" } } }] } }

/-- A pod whose first container cannot pull its image and whose second container completed. -/
def podErrImagePullThenCompleted : Pod :=
  { ObjectMeta := { Name := "test-job" },
    Status := { ContainerStatuses := [
      { Name := "main", State := { Waiting := some { Reason := "ErrImagePull" } } },
      { Name := "helper", State := { Terminated := some { Reason := "Completed" } } }] } }

/-- A ready pod whose container has terminated with an error in the meantime. -/
def podReadyButFailed : Pod :=
  { ObjectMeta := { Name := "test-db" },
    Status := { Conditions := [⟨"Initialized", "True"⟩, ⟨"Ready", "True"⟩],
                ContainerStatuses := [
      { Name := "db", State := { Terminated := some { ExitCode := 1, Reason := "Error" } } }] } }

/-- A pod with one running and one waiting container. -/
def podPartlyRunning : Pod :=
  { ObjectMeta := { Name := "test-db" },
    Status := { Conditions := [⟨"Ready", "False"⟩],
                ContainerStatuses := [
      { Name := "db", State := { Running := some {} } },
      { Name := "sidecar", State := { Waiting := some { Reason := "ContainerCreating" } } }] } }

/-- The service `db`, without dependencies. -/
def serviceDb : Service :=
  { Name := "db", NameEscaped := "db", matchesFilter := true,
    DockerComposeService := { Image := "postgres:11" } }

/-- The service `web`, with `depends_on: db (started)`. -/
def serviceWeb : Service :=
  { Name := "web", NameEscaped := "web", matchesFilter := true,
    DockerComposeService := { Image := "nginx:1", DependsOn := [("db", ServiceStarted)] } }

/-- A compose project of two services, `web` depending on `db` with condition `started`,
both selected by the filter. -/
def cfgWebDb : Config :=
  { Services := [serviceDb, serviceWeb], EnvironmentID := "test" }

/-- The metadata `InitObjectMeta` gives the pod of `db` in environment `test`. -/
def metaDb : ObjectMeta :=
  { Name := "test-db", Labels := [("env-id", "test"), ("service", "db")] }

/-- The pod of `db` right after its creation: the container is waiting. -/
def podDbPending : Pod :=
  { ObjectMeta := metaDb,
    Status := { ContainerStatuses := [
      { Name := "db", State := { Waiting := some { Reason := "ContainerCreating" } } }] } }

/-- The pod of `db` with its container running. -/
def podDbRunning : Pod :=
  { ObjectMeta := metaDb,
    Status := { Conditions := [⟨"Ready", "False"⟩],
                ContainerStatuses := [{ Name := "db", State := { Running := some {} } }] } }

/-- The pod of `db` with its container running and the condition `Ready=True`. -/
def podDbReady : Pod :=
  { ObjectMeta := metaDb,
    Status := { Conditions := [⟨"Ready", "True"⟩],
                ContainerStatuses := [{ Name := "db", State := { Running := some {} } }] } }

/-- A pod of another fleet: it carries no label of environment `test`. -/
def podForeign : Pod :=
  { ObjectMeta := { Name := "other-db", Labels := [("env-id", "other"), ("service", "db")] },
    Status := { Conditions := [⟨"Ready", "True"⟩] } }

/-- A runner state of `cfgWebDb` in which `db` has been launched and observed `Ready`, and
`web` waits to be launched. -/
def runnerDbReady : upRunner :=
  { cfg := cfgWebDb,
    apps := [{ composeService := serviceDb, maxObservedPodStatus := podStatusReady },
             { composeService := serviceWeb }],
    appsThatNeedToBeReady := ["db"],
    appsToBeStarted := ["web"] }

/-- A runner state of `cfgWebDb` in which `db` has been launched and observed `Started`, and
`web` waits to be launched. -/
def runnerDbStarted : upRunner :=
  { cfg := cfgWebDb,
    apps := [{ composeService := serviceDb, maxObservedPodStatus := podStatusStarted },
             { composeService := serviceWeb }],
    appsThatNeedToBeReady := ["db"],
    appsToBeStarted := ["web"] }

/-- A cluster in which every creation succeeds, the pod list is empty at first, and the watch
reports the pod of `db` as pending and then, in one update, as running and ready. -/
def worldDbReadyAtOnce : World :=
  { podWatch := .ok [⟨Added, .pod podDbPending⟩, ⟨Modified, .pod podDbReady⟩] }

/-- A pod whose first container is still being created, whose second container was killed, and
whose third container completed. -/
def podCreatingThenFailed : Pod :=
  { ObjectMeta := { Name := "test-job" },
    Status := { ContainerStatuses := [
      { Name := "helper", State := { Waiting := some { Reason := "ContainerCreating" } } },
      { Name := "main", State := { Terminated := some { ExitCode := 137, Reason := "OOMKilled" } } },
      { Name := "late", State := { Terminated := some { Reason := "Completed" } } }] } }

/-- A pod whose first container is still being created, whose second container completed, and
whose third container cannot pull its image. -/
def podCompletedThenErrImagePull : Pod :=
  { ObjectMeta := { Name := "test-job" },
    Status := { ContainerStatuses := [
      { Name := "main", State := { Waiting := some { Reason := "ContainerCreating" } } },
      { Name := "helper", State := { Terminated := some { Reason := "Completed" } } },
      { Name := "late", State := { Waiting := some { Reason := "ErrImagePull" } } }] } }

/-! ## Vocabulary of the claims about the runner -/

/-- The `maxObservedPodStatus` of the app stored under `name`, if there is one. -/
def statusOf (u : upRunner) (name : String) : Option podStatus :=
  (findApp u.apps name).map (fun a => a.maxObservedPodStatus)

/-- The pod belongs to the app stored under `name`: `findAppFromObjectMeta` returns that app. -/
def podOfApp (u : upRunner) (pod : Pod) (name : String) : Prop :=
  ∃ a, findAppFromObjectMeta u pod.ObjectMeta = .ok (some a) ∧ a.name = name

/-- The dependency condition of the launch gate, read in the app table `apps`: every
dependency resolves to an app, a dependency declared `healthy` has `maxObservedPodStatus =
Ready`, and a dependency declared `started` has `maxObservedPodStatus ≥ Started`. -/
def dependenciesMet (cfg : Config) (apps : List app)
    (dependsOn : List (String × ServiceHealthiness)) : Prop :=
  ∀ d ∈ dependsOn, ∃ composeService app2,
    cfg.FindService d.1 = some composeService ∧
    findApp apps composeService.Name = some app2 ∧
    (d.2 = ServiceHealthy → app2.maxObservedPodStatus = podStatusReady) ∧
    (d.2 = ServiceStarted → podStatusStarted ≤ app2.maxObservedPodStatus)

/-- The invocation of `createPod` happened in a state in which the dependencies of its app
were met. -/
def createPodCall.dependenciesMet (c : createPodCall) : Prop :=
  ∃ a, findApp c.apps c.appName = some a ∧
    KubeCompose.dependenciesMet c.cfg c.apps a.composeService.DockerComposeService.DependsOn

/-- The invocation of `createPod` was for an app with an empty `depends_on`. -/
def createPodCall.noDependsOn (c : createPodCall) : Prop :=
  ∃ a, findApp c.apps c.appName = some a ∧ a.composeService.DockerComposeService.DependsOn = []

/-- The runner `u2` continues `u1`: its history of `createPod` invocations is the history of
`u1` followed by invocations that all satisfy `P`. -/
def Continues (P : createPodCall → Prop) (u1 u2 : upRunner) : Prop :=
  ∃ new, u2.createPodCalls = u1.createPodCalls ++ new ∧ ∀ c ∈ new, P c

/-- The states a run of the up runner for `cfg` and `opts` in the world `w` can pass through.
Iterating a Go map visits its keys in an unspecified order, which `reorder` accounts for; the
other constructors are the steps of `run`. -/
inductive Reachable (w : World) (cfg : Config) (opts : Options) : upRunner → Prop where
  | init : Reachable w cfg opts (initAppsToBeStarted (initApps { cfg := cfg, opts := opts }))
  | reorder (u : upRunner) (toBeStarted needToBeReady : List String) :
      Reachable w cfg opts u → toBeStarted.Perm u.appsToBeStarted →
      needToBeReady.Perm u.appsThatNeedToBeReady →
      Reachable w cfg opts
        { u with appsToBeStarted := toBeStarted, appsThatNeedToBeReady := needToBeReady }
  | startInitialPods (u : upRunner) :
      Reachable w cfg opts u → Reachable w cfg opts (runStartInitialPods w u).2
  | updateStatus (u : upRunner) (pod : Pod) :
      Reachable w cfg opts u → Reachable w cfg opts (updateAppMaxObservedPodStatus u pod).2
  | createPods (u : upRunner) :
      Reachable w cfg opts u → Reachable w cfg opts (createPodsIfNeeded w u).2
  | watchEvent (u : upRunner) (event : Event) :
      Reachable w cfg opts u → Reachable w cfg opts (runWatchPodsEvent w u event).2

/-- The metadata `InitObjectMeta` gives the pod of `web` in environment `test`. -/
def metaWeb : ObjectMeta :=
  { Name := "test-web", Labels := [("env-id", "test"), ("service", "web")] }

/-- The pod of `web` with its container running and the condition `Ready=True`. -/
def podWebReady : Pod :=
  { ObjectMeta := metaWeb,
    Status := { Conditions := [⟨"Ready", "True"⟩],
                ContainerStatuses := [{ Name := "web", State := { Running := some {} } }] } }

/-- A cluster in which every creation succeeds, the pod list is empty at first, and the watch
reports the pod of `db` as pending, then running, then ready, and then the pod of `web` as
ready. -/
def worldDbStartedThenReady : World :=
  { podWatch := .ok [⟨Added, .pod podDbPending⟩, ⟨Modified, .pod podDbRunning⟩,
      ⟨Modified, .pod podDbReady⟩, ⟨Added, .pod podWebReady⟩] }

/-! ## More concrete apps and configurations -/

/-- An app whose compose service declares a healthcheck and whose image has another one. -/
def appWithTwoHealthchecks : app :=
  { composeService :=
      { Name := "db",
        DockerComposeService :=
          { Restart := "on-failure",
            Healthcheck := some { Test := ["CMD", "pg_isready"], Interval := 5, Retries := 3 } } },
    imageInfo := { imageHealthcheck := some { Test := ["CMD-SHELL", "true"], Interval := 30 } } }

/-- A compose project of nine services without dependencies, all selected by the filter. -/
def cfgNine : Config :=
  { Services := ["s1", "s2", "s3", "s4", "s5", "s6", "s7", "s8", "s9"].map
      (fun name => { Name := name, NameEscaped := name, matchesFilter := true }),
    EnvironmentID := "test" }

/-! ## The virtual-IP wait -/

/-- The function `waitForServiceClusterIPUpdate`. The source also returns the app next to a
wrong-type error; every caller discards it. -/
def waitForServiceClusterIPUpdate (u : upRunner) (service : V1Service) :
    Result (Option app) × upRunner :=
  match findAppFromObjectMeta u service.ObjectMeta with
  | .err e => (.err e, u)
  | .panic => (.panic, u)
  | .ok none => (.ok none, u)
  | .ok (some a) =>
    if service.Spec.Type_ ≠ "ClusterIP" then (.err .resourcesModifiedExternally, u)
    else
      (.ok (some { a with serviceClusterIP := service.Spec.ClusterIP }),
        { u with apps := setApp u.apps { a with serviceClusterIP := service.Spec.ClusterIP } })

/-- The loop of `waitForServiceClusterIPCountRemaining`, carrying `remaining`. -/
def waitForServiceClusterIPCountRemainingLoop : List app → Nat → Nat
  | [], remaining => remaining
  | a :: rest, remaining =>
    waitForServiceClusterIPCountRemainingLoop rest
      (if a.hasService ∧ a.serviceClusterIP = "" then remaining + 1 else remaining)

def waitForServiceClusterIPCountRemaining (u : upRunner) : Nat :=
  waitForServiceClusterIPCountRemainingLoop u.apps 0

/-- The loop of `waitForServiceClusterIPList` over `serviceList.Items`. -/
def waitForServiceClusterIPListLoop : List V1Service → upRunner → Result Unit × upRunner
  | [], u => (.ok (), u)
  | service :: rest, u =>
    match waitForServiceClusterIPUpdate u service with
    | (.ok _, u1) => waitForServiceClusterIPListLoop rest u1
    | (.err e, u1) => (.err e, u1)
    | (.panic, u1) => (.panic, u1)

/-- The function `waitForServiceClusterIPList`; `expected` is a Go `int`. -/
def waitForServiceClusterIPList (w : World) (u : upRunner) (expected : Int) :
    Result String × upRunner :=
  let u0 := { u with requests := u.requests ++ [.serviceList] }
  match w.serviceList with
  | .error e => (.err e, u0)
  | .ok serviceList =>
    if (serviceList.Items.length : Int) < expected then (.err .resourcesModifiedExternally, u0)
    else
      match waitForServiceClusterIPListLoop serviceList.Items u0 with
      | (.ok _, u1) => (.ok serviceList.ResourceVersion, u1)
      | (.err e, u1) => (.err e, u1)
      | (.panic, u1) => (.panic, u1)

/-- The function `waitForServiceClusterIPWatchEvent`. The type assertion
`event.Object.(*v1.Service)` panics when the object is not a service. -/
def waitForServiceClusterIPWatchEvent (u : upRunner) (event : Event) : Result Unit × upRunner :=
  if event.Type_ = Added ∨ event.Type_ = Modified then
    match event.Object with
    | .status _ => (.panic, u)
    | .pod _ => (.panic, u)
    | .service service =>
      match waitForServiceClusterIPUpdate u service with
      | (.ok _, u1) => (.ok (), u1)
      | (.err e, u1) => (.err e, u1)
      | (.panic, u1) => (.panic, u1)
  else if event.Type_ = Deleted then
    match event.Object with
    | .status _ => (.panic, u)
    | .pod _ => (.panic, u)
    | .service service =>
      match findAppFromObjectMeta u service.ObjectMeta with
      | .err e => (.err e, u)
      | .panic => (.panic, u)
      | .ok (some _) => (.err .resourcesModifiedExternally, u)
      | .ok none => (.ok (), u)
  else (.err .unexpectedEvent, u)

/-- The function `waitForServiceClusterIPWatch` (`expected` is only printed): the receive loop
over the events the channel delivers before it is closed, carrying `remaining`. -/
def waitForServiceClusterIPWatch : List Event → Nat → upRunner → Result Unit × upRunner
  | [], _, u => (.err .channelClosed, u)
  | event :: rest, remaining, u =>
    match waitForServiceClusterIPWatchEvent
        { u with requests := u.requests ++ [.serviceWatchReceive] } event with
    | (.ok _, u1) =>
      if waitForServiceClusterIPCountRemaining u1 ≠ remaining then
        if waitForServiceClusterIPCountRemaining u1 = 0 then (.ok (), u1)
        else waitForServiceClusterIPWatch rest (waitForServiceClusterIPCountRemaining u1) u1
      else waitForServiceClusterIPWatch rest remaining u1
    | (.err e, u1) => (.err e, u1)
    | (.panic, u1) => (.panic, u1)

/-- The function `waitForServiceClusterIP`. As in the source, `remaining` is counted before
the list phase. -/
def waitForServiceClusterIP (w : World) (u : upRunner) (expected : Int) :
    Result Unit × upRunner :=
  let remaining := waitForServiceClusterIPCountRemaining u
  match waitForServiceClusterIPList w u expected with
  | (.err e, u1) => (.err e, u1)
  | (.panic, u1) => (.panic, u1)
  | (.ok _, u1) =>
    if remaining = 0 then (.ok (), u1)
    else
      let u2 := { u1 with requests := u1.requests ++ [.serviceWatch] }
      match w.serviceWatch with
      | .error e => (.err e, u2)
      | .ok events => waitForServiceClusterIPWatch events remaining u2

/-- The fill loop of `getPodHostAliasesCore` over the apps, carrying the index `i` and the
slice; `none` is the panic of an index out of range. -/
def getPodHostAliasesCoreLoop : List app → Nat → List HostAlias → Option (List HostAlias)
  | [], _, hostAliases => some hostAliases
  | a :: rest, i, hostAliases =>
    if a.hasService then
      if i < hostAliases.length then
        getPodHostAliasesCoreLoop rest (i + 1) (hostAliases.set i ⟨a.serviceClusterIP, [a.name]⟩)
      else none
    else getPodHostAliasesCoreLoop rest i hostAliases

/-- The function `getPodHostAliasesCore`. `make` panics on a negative length. -/
def getPodHostAliasesCore (w : World) (u : upRunner) (expectedServiceCount : Int) :
    Result (List HostAlias) × upRunner :=
  match waitForServiceClusterIP w u expectedServiceCount with
  | (.err e, u1) => (.err e, u1)
  | (.panic, u1) => (.panic, u1)
  | (.ok _, u1) =>
    if expectedServiceCount < 0 then (.panic, u1)
    else
      match getPodHostAliasesCoreLoop u1.apps 0
          (List.replicate expectedServiceCount.toNat ⟨"", []⟩) with
      | none => (.panic, u1)
      | some hostAliases => (.ok hostAliases, u1)

/-- The loop of `createServicesAndGetPodHostAliases` over the apps, carrying
`expectedServiceCount`. The service object it builds is handed to the cluster and not kept. -/
def createServicesLoop (w : World) : List app → Int → upRunner → Result Int × upRunner
  | [], expectedServiceCount, u => (.ok expectedServiceCount, u)
  | a :: rest, expectedServiceCount, u =>
    if !a.hasService then createServicesLoop w rest expectedServiceCount u
    else
      match w.serviceCreate a.name with
      | .failed e => (.err e, { u with requests := u.requests ++ [.serviceCreate a.name] })
      | .alreadyExists =>
        createServicesLoop w rest (expectedServiceCount + 1)
          { u with requests := u.requests ++ [.serviceCreate a.name] }
      | .created =>
        createServicesLoop w rest (expectedServiceCount + 1)
          { u with requests := u.requests ++ [.serviceCreate a.name] }

def createServicesAndGetPodHostAliases (w : World) (u : upRunner) :
    Result (List HostAlias) × upRunner :=
  match createServicesLoop w u.apps 0 u with
  | (.err e, u1) => (.err e, u1)
  | (.panic, u1) => (.panic, u1)
  | (.ok expectedServiceCount, u1) =>
    if expectedServiceCount = 0 then (.ok [], u1)
    else getPodHostAliasesCore w u1 expectedServiceCount

/-- The `serviceClusterIP` of the app stored under `name`, if there is one. -/
def clusterIPOf (u : upRunner) (name : String) : Option String :=
  (findApp u.apps name).map (fun a => a.serviceClusterIP)

/-- The host-alias entry of an app. -/
def hostAliasOf (a : app) : HostAlias :=
  ⟨a.serviceClusterIP, [a.name]⟩

/-- The service `db` with one port. -/
def serviceDbPort : Service :=
  { Name := "db", NameEscaped := "db", matchesFilter := true, Ports := [{ Port := 5432 }],
    DockerComposeService := { Image := "postgres:11" } }

/-- The service `web` with one port, with `depends_on: db (healthy)`. -/
def serviceWebPort : Service :=
  { Name := "web", NameEscaped := "web", matchesFilter := true, Ports := [{ Port := 80 }],
    DockerComposeService := { Image := "nginx:1", DependsOn := [("db", ServiceHealthy)] } }

/-- The service `job`, without ports. -/
def serviceJob : Service :=
  { Name := "job", NameEscaped := "job", matchesFilter := true,
    DockerComposeService := { Image := "busybox:1" } }

/-- A compose project in which `db` and `web` declare a port and `job` does not. -/
def cfgPorts : Config :=
  { Services := [serviceDbPort, serviceJob, serviceWebPort], EnvironmentID := "test" }

/-- The runner of `cfgPorts` after `initApps`: no app has a cluster IP. -/
def runnerPorts : upRunner :=
  { cfg := cfgPorts,
    apps := [{ composeService := serviceDbPort }, { composeService := serviceJob },
             { composeService := serviceWebPort }] }

/-- The virtual-IP object of `db` in environment `test`, with the given cluster IP. -/
def v1ServiceDb (clusterIP : String) : V1Service :=
  { ObjectMeta := metaDb, Spec := { ClusterIP := clusterIP } }

/-- The virtual-IP object of `web` in environment `test`, with the given cluster IP. -/
def v1ServiceWeb (clusterIP : String) : V1Service :=
  { ObjectMeta := metaWeb, Spec := { ClusterIP := clusterIP } }

/-- A cluster whose service list holds both objects with their cluster IPs assigned, and whose
service watch delivers nothing before it is closed. -/
def worldListAssignsAll : World :=
  { serviceList := .ok { Items := [v1ServiceDb "10.0.0.1", v1ServiceWeb "10.0.0.2"],
                         ResourceVersion := "7" } }

/-- A cluster whose service list holds both objects with their cluster IPs assigned, and whose
service watch then delivers an unrelated update of the object of `db`. -/
def worldListAssignsAllThenEvent : World :=
  { serviceList := .ok { Items := [v1ServiceDb "10.0.0.1", v1ServiceWeb "10.0.0.2"],
                         ResourceVersion := "7" },
    serviceWatch := .ok [⟨Modified, .service (v1ServiceDb "10.0.0.1")⟩] }

/-- A cluster whose service list holds both objects, the one of `web` without a cluster IP, and
whose service watch then reports the assignment of the cluster IP of `web`. -/
def worldListThenWatch : World :=
  { serviceList := .ok { Items := [v1ServiceDb "10.0.0.1", v1ServiceWeb ""],
                         ResourceVersion := "7" },
    serviceWatch := .ok [⟨Modified, .service (v1ServiceWeb "10.0.0.2")⟩] }

/-- A cluster whose service list holds only the object of `db`. -/
def worldListShort : World :=
  { serviceList := .ok { Items := [v1ServiceDb "10.0.0.1"], ResourceVersion := "7" } }

/-! ## The image resolver -/

/-- The loop of `initLocalImages` that fills the digest set; `Add` refuses an invalid digest
and keeps one copy of each, and its error is discarded. -/
def imageIDSetLoop (w : World) : List ImageSummary → List String → List String
  | [], imageIDSet => imageIDSet
  | image :: rest, imageIDSet =>
    imageIDSetLoop w rest
      (if w.docker.validDigest image.ID ∧ image.ID ∉ imageIDSet then imageIDSet ++ [image.ID]
       else imageIDSet)

/-- The function `initLocalImages`. Calling `Do` through a nil `*sync.Once` panics. The struct
literal assigned inside the guarded function names no `once`, so it stores the nil pointer. -/
def initLocalImages (w : World) (u : upRunner) : Result Unit × upRunner :=
  match u.localImagesCache.once with
  | none => (.panic, u)
  | some true =>
    match u.localImagesCache.err with
    | some e => (.err e, u)
    | none => (.ok (), u)
  | some false =>
    match w.docker.imageList with
    | .error e =>
      (.err e,
        { u with requests := u.requests ++ [.imageList],
                 localImagesCache := { imageIDSet := none, images := [], err := some e } })
    | .ok imageSummarySlice =>
      (.ok (),
        { u with requests := u.requests ++ [.imageList],
                 localImagesCache :=
                   { imageIDSet := some (imageIDSetLoop w imageSummarySlice []),
                     images := imageSummarySlice, err := none } })

def getLocalImageIDSet (w : World) (u : upRunner) : Result (Option (List String)) × upRunner :=
  match initLocalImages w u with
  | (.err e, u1) => (.err e, u1)
  | (.panic, u1) => (.panic, u1)
  | (.ok _, u1) => (.ok u1.localImagesCache.imageIDSet, u1)

/-- The function `getAppImageInfoEnsureSourceImageID`. The app record is passed in and returned
next to the runner: it stands for the object behind the pointer `a`, which the function
mutates. -/
def getAppImageInfoEnsureSourceImageID (w : World) (u : upRunner) (a : app)
    (sourceImage : String) (sourceImageRef : Reference) (localImageIDSet : Option (List String)) :
    Result Unit × upRunner × app :=
  let a1 : app := { a with imageInfo := { a.imageInfo with
    sourceImageID :=
      w.docker.resolveLocalImageID sourceImageRef localImageIDSet u.localImagesCache.images } }
  if !sourceImageRef.isNamed then (.err (.imageNotFoundLocally sourceImage), u, a1)
  else
    let u1 := { u with requests := u.requests ++ [.imagePull sourceImageRef.str] }
    match w.docker.pullImageWithLogging a.name sourceImageRef.str with
    | .error e => (.err e, u1, a1)
    | .ok digest =>
      let u2 := { u1 with requests := u1.requests ++ [.resolveLocalImageAfterPull digest] }
      let r := w.docker.resolveLocalImageAfterPull sourceImageRef digest
      let a2 : app := { a1 with imageInfo := { a1.imageInfo with
        sourceImageID := r.1, podImage := r.2.1 } }
      match r.2.2 with
      | some e => (.err e, u2, a2)
      | none =>
        if a2.imageInfo.sourceImageID = "" then (.err (.imageIDNotFound sourceImage), u2, a2)
        else (.ok (), u2, a2)

/-- The function `getAppImageEnsureCorrectPodImage`. `u.cfg.KubeConfig.BearerToken`
dereferences the `KubeConfig` pointer. -/
def getAppImageEnsureCorrectPodImage (w : World) (u : upRunner) (a : app)
    (sourceImageRef : Reference) (sourceImage : String) : Result Unit × upRunner × app :=
  match u.cfg.PushImages with
  | some pushImages =>
    let destinationImage :=
      pushImages.DockerRegistry ++ "/" ++ u.cfg.Namespace ++ "/" ++ a.composeService.NameEscaped
    let destinationImagePush := destinationImage ++ ":latest"
    let u1 := { u with requests :=
      u.requests ++ [.imageTag a.imageInfo.sourceImageID destinationImagePush] }
    match w.docker.imageTag a.imageInfo.sourceImageID destinationImagePush with
    | some e => (.err e, u1, a)
    | none =>
      match u.cfg.KubeConfig with
      | none => (.panic, u1, a)
      | some kubeConfig =>
        let u2 := { u1 with requests := u1.requests ++ [.imagePush destinationImagePush] }
        match w.docker.pushImageWithLogging a.name destinationImagePush kubeConfig.BearerToken with
        | .error e => (.err e, u2, a)
        | .ok digest =>
          (.ok (), u2,
            { a with imageInfo := { a.imageInfo with podImage := destinationImage ++ "@" ++ digest } })
  | none =>
    if a.imageInfo.podImage = "" then
      if !sourceImageRef.isNamed then (.err (.imageUnstable sourceImage), u, a)
      else (.ok (), u, { a with imageInfo := { a.imageInfo with podImage := sourceImage } })
    else (.ok (), u, a)

/-- The second half of `getAppImageInfoUser`, once `user` has been parsed. -/
def getAppImageInfoUserResolve (w : World) (u : upRunner) (a : app) (user : Userinfo)
    (sourceImage : String) : Result Unit × upRunner × app :=
  if user.UID = none ∨ (user.Group ≠ "" ∧ user.GID = none) then
    let u1 := { u with requests := u.requests ++ [.userinfoFromImage a.imageInfo.sourceImageID] }
    match w.docker.getUserinfoFromImage a.imageInfo.sourceImageID user with
    | .error e => (.err (.wrapped ("error getting uid/gid from image " ++ sourceImage) e), u1, a)
    | .ok user1 => (.ok (), u1, { a with imageInfo := { a.imageInfo with user := some user1 } })
  else (.ok (), u, { a with imageInfo := { a.imageInfo with user := some user } })

/-- The function `getAppImageInfoUser`. `inspect.Config.User` dereferences the `Config`
pointer of the inspect result. -/
def getAppImageInfoUser (w : World) (u : upRunner) (a : app) (inspect : ImageInspect)
    (sourceImage : String) : Result Unit × upRunner × app :=
  match a.composeService.DockerComposeService.User with
  | none =>
    match inspect.ConfigUser with
    | none => (.panic, u, a)
    | some configUser =>
      match w.docker.parseUserinfo configUser with
      | .error e =>
        (.err (.wrapped ("image " ++ sourceImage ++ " has an invalid user " ++ configUser) e), u, a)
      | .ok user => getAppImageInfoUserResolve w u a user sourceImage
  | some userRaw =>
    match w.docker.parseUserinfo userRaw with
    | .error e =>
      (.err (.wrapped ("docker-compose service " ++ a.name ++ " has an invalid user " ++ userRaw) e),
        u, a)
    | .ok user => getAppImageInfoUserResolve w u a user sourceImage

/-- The part of `getAppImageInfo` after `getAppImageInfoEnsureSourceImageID` has succeeded. -/
def getAppImageInfoInspect (w : World) (u : upRunner) (a : app) (sourceImage : String)
    (sourceImageRef : Reference) : Result Unit × upRunner × app :=
  let u1 := { u with requests := u.requests ++ [.imageInspect a.imageInfo.sourceImageID] }
  match w.docker.imageInspectWithRaw a.imageInfo.sourceImageID with
  | .error e => (.err e, u1, a)
  | .ok (inspect, inspectRaw) =>
    match getAppImageEnsureCorrectPodImage w u1 a sourceImageRef sourceImage with
    | (.err e, u2, a2) => (.err e, u2, a2)
    | (.panic, u2, a2) => (.panic, u2, a2)
    | (.ok _, u2, a2) =>
      match w.docker.inspectImageRawParseHealthcheck inspectRaw with
      | .error e => (.err e, u2, a2)
      | .ok imageHealthcheck =>
        let a3 : app := { a2 with imageInfo := { a2.imageInfo with
          imageHealthcheck := imageHealthcheck } }
        if u2.opts.RunAsUser then getAppImageInfoUser w u2 a3 inspect sourceImage
        else (.ok (), u2, a3)

/-- The function `getAppImageInfo`. The app record is passed in and returned next to the
runner: it stands for the object behind the pointer `app`, which the function mutates. -/
def getAppImageInfo (w : World) (u : upRunner) (a : app) : Result Unit × upRunner × app :=
  if a.composeService.DockerComposeService.Image = "" then (.err (.noImage a.name), u, a)
  else
    match getLocalImageIDSet w u with
    | (.err e, u1) => (.err e, u1, a)
    | (.panic, u1) => (.panic, u1, a)
    | (.ok localImageIDSet, u1) =>
      match w.docker.parseAnyReferenceWithSet a.composeService.DockerComposeService.Image
          localImageIDSet with
      | .error e =>
        (.err (.wrapped ("error while parsing image " ++
          a.composeService.DockerComposeService.Image) e), u1, a)
      | .ok sourceImageRef =>
        match getAppImageInfoEnsureSourceImageID w u1 a
            a.composeService.DockerComposeService.Image sourceImageRef localImageIDSet with
        | (.err e, u2, a2) => (.err e, u2, a2)
        | (.panic, u2, a2) => (.panic, u2, a2)
        | (.ok _, u2, a2) =>
          getAppImageInfoInspect w u2 a2 a.composeService.DockerComposeService.Image
            sourceImageRef

/-- A container daemon that holds one local image, tagged `postgres:11`, with the id
`sha256:0123`. The reference `0123` is the id written as bare hex (not a named reference);
both `0123` and `postgres:11` resolve to the local id. -/
def dockerOneImage : Docker :=
  { imageList := .ok [{ ID := "sha256:0123", RepoTags := ["postgres:11"] }],
    parseAnyReferenceWithSet := fun image _ =>
      if image = "0123" then .ok { isNamed := false, str := "sha256:0123" }
      else .ok { isNamed := true, str := "docker.io/library/" ++ image },
    resolveLocalImageID := fun ref _ _ =>
      if ref.str = "sha256:0123" ∨ ref.str = "docker.io/library/postgres:11" then "sha256:0123"
      else "",
    pullImageWithLogging := fun _ _ => .ok "sha256:d1d1",
    resolveLocalImageAfterPull := fun _ _ =>
      ("sha256:0123", "docker.io/library/postgres@sha256:d1d1", none) }

/-- The world of the daemon `dockerOneImage`. -/
def worldOneImage : World :=
  { docker := dockerOneImage }

/-- An app whose image is the bare hex id of the local image. -/
def appImageByID : app :=
  { composeService := { Name := "db", NameEscaped := "db",
                        DockerComposeService := { Image := "0123" } } }

/-- An app whose image is the named reference of the local image. -/
def appImageByName : app :=
  { composeService := { Name := "db", NameEscaped := "db",
                        DockerComposeService := { Image := "postgres:11" } } }

/-- An app without an image. -/
def appNoImage : app :=
  { composeService := { Name := "db", NameEscaped := "db" },
    imageInfo := { podImage := "kept", sourceImageID := "kept" } }

/-- The runner after its first call of `getLocalImageIDSet` on the daemon `dockerOneImage`. -/
def runnerImagesListed : upRunner :=
  (getLocalImageIDSet worldOneImage {}).2

/-- The pod of `db` right after its creation, before it is scheduled: it reports no condition
and no container status. -/
def podDbNoContainers : Pod :=
  { ObjectMeta := metaDb }

/-- A cluster in which every creation succeeds, the pod list is empty at first, and the watch
reports the pod of `db` once, without any container status, before the channel is closed. -/
def worldDbNoContainers : World :=
  { podWatch := .ok [⟨Added, .pod podDbNoContainers⟩] }

/-! ## Concrete runs of `createPod` -/

/-- A service with an entrypoint, a command, two ports, an environment and a working
directory. -/
def serviceApi : Service :=
  { Name := "Api", NameEscaped := "api", matchesFilter := true,
    Ports := [{ Port := 8080 }, { Port := 53, Protocol := "udp" }],
    DockerComposeService :=
      { Image := "api:1", Entrypoint := ["/bin/api"], Command := ["--serve"],
        Environment := [("MODE", "test")], WorkingDir := "/srv", Restart := "always" } }

/-- The app of `serviceApi` before its image is resolved. -/
def appApi : app :=
  { composeService := serviceApi }

/-- The runner of a project with the one service `serviceApi`, after `initApps`. -/
def runnerApi : upRunner :=
  { cfg := { Services := [serviceApi], EnvironmentID := "test" }, apps := [appApi] }

/-- A run in which the image of every app resolves to one pod image and every creation
succeeds. -/
def worldApi : World :=
  { getAppImageInfo := fun _ => { podImage := "registry.local/test/api:latest" } }

/-- As `worldApi`, but the cluster answers every pod creation with already-exists. -/
def worldApiAlreadyExists : World :=
  { getAppImageInfo := fun _ => { podImage := "registry.local/test/api:latest" },
    podCreate := fun _ => .alreadyExists }

/-- As `worldApi`, but the cluster refuses every pod creation. -/
def worldApiForbidden : World :=
  { getAppImageInfo := fun _ => { podImage := "registry.local/test/api:latest" },
    podCreate := fun _ => .failed (.external "forbidden") }

/-- A run in which the image of no app can be resolved. -/
def worldApiNoImage : World :=
  { getAppImageInfo := fun name => { err := some (.noImage name) } }

/-- A run in which the host aliases cannot be computed. -/
def worldApiNoAliases : World :=
  { getAppImageInfo := fun _ => { podImage := "registry.local/test/api:latest" },
    podAliasesErr := some (.external "service list failed") }

/-- The pod that `createPod` builds for `serviceApi` in `worldApi`. -/
def podApi : Pod :=
  { ObjectMeta := { Name := "test-api", Labels := [("env-id", "test"), ("service", "api")] },
    Spec :=
      { AutomountServiceAccountToken := some false,
        Containers := [
          { Command := ["/bin/api"],
            Env := [{ Name := "MODE", Value := "test" }],
            Image := "registry.local/test/api:latest",
            ImagePullPolicy := "Always",
            Name := "api",
            Ports := [{ ContainerPort := 8080, Protocol := "TCP" },
                      { ContainerPort := 53, Protocol := "UDP" }],
            WorkingDir := "/srv" }],
        RestartPolicy := "Always" } }

/-! ## The command line (`cmd/common.go`) -/

/-- A flag of a `cobra.Command`: its name, its current value, and whether it was set on the
command line. -/
structure Flag where
  Name : String
  Value : String := ""
  Changed : Bool := false
  deriving DecidableEq, Repr

/-- The flag set `cmd.Flags()` of a `cobra.Command`. -/
structure Command where
  flags : List Flag := []
  deriving DecidableEq, Repr

/-- The method `Changed` of the flag set: false for a flag that is not defined. -/
def Command.Changed (cmd : Command) (name : String) : Bool :=
  match cmd.flags.find? (fun f => f.Name = name) with
  | some f => f.Changed
  | none => false

/-- The method `GetString` of the flag set, with its error discarded as `getEnvIDFlag` does: the
value of the flag, and the empty string for a flag that is not defined. -/
def Command.GetString (cmd : Command) (name : String) : String :=
  match cmd.flags.find? (fun f => f.Name = name) with
  | some f => f.Value
  | none => ""

/-- Modelled from the spec: the constant `envIDFlagName`, declared in a file of the package that
is not embedded here; the spec names the flag `--env-id`. -/
def envIDFlagName : String := "env-id"

/-- Modelled from the spec: the constant `envIDEnvVarName`, declared in a file of the package
that is not embedded here; the spec names the variable `KUBECOMPOSE_ENVID`. -/
def envIDEnvVarName : String := "KUBECOMPOSE_ENVID"

/-- The function `validation.IsValidLabelValue` of the cluster API library: the list of
complaints about a label value, empty when the value is valid. A valid value has at most 63
bytes and is empty or consists of alphanumerics, `-`, `_` and `.`, beginning and ending with an
alphanumeric. -/
def IsValidLabelValue (value : String) : List String :=
  (if value.utf8ByteSize > 63 then ["must be no more than 63 characters"] else []) ++
  (if value.data.all (fun c => c.isAlphanum || c = '-' || c = '_' || c = '.')
      ∧ (value.data.head?.map Char.isAlphanum).getD true
      ∧ (value.data.getLast?.map Char.isAlphanum).getD true then []
   else ["a valid label must be an empty string or consist of alphanumeric characters"])

/-- The errors of `getEnvIDFlag`, each with the complaint it quotes. -/
inductive EnvIDError where
  /-- "either the flag --env-id or the environment variable %s must be set" -/
  | notSet
  /-- "the environment variable %s must be a valid label value: %s" -/
  | invalidEnvironmentVariable (complaint : String)
  /-- "the --env-id flag must be a valid label value: %s" -/
  | invalidFlag (complaint : String)
  deriving DecidableEq, Repr

/-- The function `getEnvIDFlag`; `envGetter` is the package variable of that name
(`os.LookupEnv`). -/
def getEnvIDFlag (envGetter : String → Option String) (cmd : Command) :
    Except EnvIDError String :=
  if !cmd.Changed envIDFlagName then
    match envGetter envIDEnvVarName with
    | none => .error .notSet
    | some envID =>
      match IsValidLabelValue envID with
      | complaint :: _ => .error (.invalidEnvironmentVariable complaint)
      | [] => .ok envID
  else
    match IsValidLabelValue (cmd.GetString envIDFlagName) with
    | complaint :: _ => .error (.invalidFlag complaint)
    | [] => .ok (cmd.GetString envIDFlagName)

/-- A command line with `--env-id test`. -/
def cmdEnvIDTest : Command :=
  { flags := [{ Name := "env-id", Value := "test", Changed := true }] }

/-- A command line on which `--env-id` is not given. -/
def cmdNoEnvID : Command :=
  { flags := [{ Name := "env-id" }] }

/-- A process environment in which only `KUBECOMPOSE_ENVID` is set, to a value that is not a
valid label value. -/
def envInvalidEnvID (name : String) : Option String :=
  if name = "KUBECOMPOSE_ENVID" then some "not valid!" else none

/-! ## The compose-file loader (`pkg/docker/compose/config`) -/

/-- A Go `map[string]string`, as an association list without repeated keys: the read
`m[key]`. -/
def mapGet : List (String × String) → String → Option String
  | [], _ => none
  | (k, v) :: rest, key => if k = key then some v else mapGet rest key

/-- The write `m[key] = value` on a Go `map[string]string`. -/
def mapSet : List (String × String) → String → String → List (String × String)
  | [], key, value => [(key, value)]
  | (k, v) :: rest, key, value =>
    if k = key then (key, value) :: rest else (k, v) :: mapSet rest key value

/-- A `float64`, given by its 64-bit pattern (IEEE 754 binary64): one sign bit, eleven bits of
biased exponent, fifty-two bits of fraction. -/
structure float64 where
  bits : Nat
  deriving DecidableEq, Repr

def float64.negative (f : float64) : Bool :=
  f.bits / 2 ^ 63 % 2 = 1

def float64.biasedExponent (f : float64) : Nat :=
  f.bits / 2 ^ 52 % 2048

def float64.fraction (f : float64) : Nat :=
  f.bits % 2 ^ 52

/-- The integer mantissa of a finite value: the fraction, with the hidden bit unless the
value is subnormal. -/
def float64.mantissa (f : float64) : Nat :=
  if f.biasedExponent = 0 then f.fraction else 2 ^ 52 + f.fraction

/-- The absolute value of a finite `f` is `f.mantissa * 2 ^ f.shift / 2 ^ 1077`. -/
def float64.shift (f : float64) : Nat :=
  (if f.biasedExponent = 0 then 1 else f.biasedExponent) + 2

/-- The absolute value of a finite `f`, in units of `2 ^ -1077`. -/
def float64.scaled (f : float64) : Nat :=
  f.mantissa * 2 ^ f.shift

/-- The midpoint between `f` and the next larger value, in units of `2 ^ -1077`. -/
def float64.upper (f : float64) : Nat :=
  f.scaled + 2 ^ (f.shift - 1)

/-- The midpoint between `f` and the next smaller value, in units of `2 ^ -1077`; below a
power of two the values are twice as dense. -/
def float64.lower (f : float64) : Nat :=
  if f.fraction = 0 ∧ 1 < f.biasedExponent then f.scaled - 2 ^ (f.shift - 2)
  else f.scaled - 2 ^ (f.shift - 1)

/-- The decimal number `digits * 10 ^ exponent`. -/
structure decimal where
  digits : Nat
  exponent : Int
  deriving DecidableEq, Repr

/-- The decimal number `d` reads back as `f`: it lies between the two midpoints, which
themselves read back as `f` when the mantissa is even (round to nearest, ties to even). -/
def float64.roundsFrom (f : float64) (d : decimal) : Bool :=
  let value := d.digits * 10 ^ d.exponent.toNat * 2 ^ 1077
  let scale := 10 ^ (-d.exponent).toNat
  if f.mantissa % 2 = 0 then
    decide (f.lower * scale ≤ value ∧ value ≤ f.upper * scale)
  else
    decide (f.lower * scale < value ∧ value < f.upper * scale)

/-- The largest `p` with `10 ^ p` at most the absolute value of `f` (for a finite `f` other
than zero, `p` is between -324 and 308). -/
def float64.decimalExponent (f : float64) : Int :=
  match (List.range 633).find? (fun i =>
      decide (10 ^ ((308 : Int) - i).toNat * 2 ^ 1077 ≤
        f.scaled * 10 ^ ((i : Int) - 308).toNat)) with
  | some i => 308 - i
  | none => -324

/-- The choice between a decimal number `down` below `f` and the next one `up` above `f`:
whichever reads back as `f`; when both do, the nearer one (the even one when they are equally
near), where `remainder / denominator` is the part of the last digit that `down` leaves
out. -/
def float64.nearest (f : float64) (down up : decimal) (remainder denominator : Nat) :
    Option decimal :=
  if f.roundsFrom down then
    if f.roundsFrom up then
      if 2 * remainder < denominator then some down
      else if denominator < 2 * remainder then some up
      else if down.digits % 2 = 0 then some down else some up
    else some down
  else if f.roundsFrom up then some up
  else none

/-- The decimal number of `n` significant digits that stands for `f`, if there is one: the
absolute value of `f` cut after `n` digits, or that number with its last digit raised by one,
as `nearest` chooses. -/
def float64.shortestAt (f : float64) (n : Nat) : Option decimal :=
  let k : Int := f.decimalExponent - n + 1
  let numerator := f.scaled * 10 ^ (-k).toNat
  let denominator := 2 ^ 1077 * 10 ^ k.toNat
  f.nearest { digits := numerator / denominator, exponent := k }
    { digits := numerator / denominator + 1, exponent := k }
    (numerator % denominator) denominator

/-- The shortest decimal number that reads back as `f`: the one with the fewest significant
digits (seventeen always suffice). -/
def float64.shortest (f : float64) : decimal :=
  ((List.range 17).findSome? (fun i => f.shortestAt (i + 1))).getD { digits := 0, exponent := 0 }

/-- The decimal number without zeros at the end of its digits. -/
def decimal.trim : Nat → decimal → decimal
  | 0, d => d
  | fuel + 1, d =>
    if d.digits ≠ 0 ∧ d.digits % 10 = 0 then
      decimal.trim fuel { digits := d.digits / 10, exponent := d.exponent + 1 }
    else d

/-- The layout `d.ddd e±dd` of the Go library for the digits of a number whose first digit has
the weight `10 ^ exp`. -/
def fmtE (digits : List Char) (exp : Int) : List Char :=
  let mantissa :=
    match digits with
    | [] => ['0']
    | [first] => [first]
    | first :: rest => first :: '.' :: rest
  let exponent := Nat.toDigits 10 exp.natAbs
  mantissa ++ ['e', if exp < 0 then '-' else '+'] ++
    (if exponent.length < 2 then '0' :: exponent else exponent)

/-- The layout `ddd.ddd` of the Go library for the digits of a number with `dp` digits before
the decimal point. -/
def fmtF (digits : List Char) (dp : Int) : List Char :=
  let whole :=
    if 0 < dp then digits.take dp.toNat ++ List.replicate (dp.toNat - digits.length) '0'
    else ['0']
  let fraction := List.replicate (-dp).toNat '0' ++ digits.drop dp.toNat
  if fraction.isEmpty then whole else whole ++ '.' :: fraction

/-- Modelled from the spec: the rendering of a `float64` ("Numeric values render as shortest
decimal"), as `strconv.FormatFloat(f, 'g', -1, 64)` of the Go library gives it: the digits of
the shortest decimal number that reads back as `f`, laid out with an exponent when the first
digit has a weight below `10 ^ -4` or of at least `10 ^ 6`, and plainly otherwise; zero is
`0`. -/
def FormatFloat (f : float64) : String :=
  String.mk
    (if f.biasedExponent = 2047 then
      if f.fraction ≠ 0 then "NaN".data
      else if f.negative then "-Inf".data else "+Inf".data
    else
      (if f.negative then ['-'] else []) ++
        (if f.mantissa = 0 then ['0']
        else
          let d := decimal.trim 17 f.shortest
          let digits := Nat.toDigits 10 d.digits
          let dp : Int := digits.length + d.exponent
          if dp - 1 < -4 ∨ 6 ≤ dp - 1 then fmtE digits (dp - 1) else fmtF digits dp))

/-- The struct `environmentValue`, as the tests build it: three pointers, of which the decoder
sets at most one. -/
structure environmentValue where
  StringValue : Option String := none
  Int64Value : Option Int := none
  FloatValue : Option float64 := none
  deriving DecidableEq, Repr

/-- The struct `environmentNameValuePair`, as the tests build it; `Value` is a pointer. -/
structure environmentNameValuePair where
  Name : String
  Value : Option environmentValue := none
  deriving DecidableEq, Repr

/-- Why loading a compose file failed. -/
inductive LoadError where
  | invalidEnvironmentName
  | io (path : String)
  | format (path : String)
  | extendsCycle (path service : String)
  | extendsMissing (path service : String)
  | extendsWithDependsOn (path service : String)
  | tooDeep
  | multipleFiles
  | noFile
  | dependsOnMissing (service dependency : String)
  | dependsOnCycle (service : String)
  deriving DecidableEq, Repr

/-- Modelled from the spec: the value that `parseEnvironment`, whose source is not embedded
here, gives to one pair: "Numeric values render as shortest decimal; absent values resolve
from the process environment at parse time". `environmentGetter` is the field of the config
loader with that name. A pair whose value is present without any of its three members, and a
pair without value whose variable is not set, give no entry (so the tests expect). -/
def environmentEntry (environmentGetter : String → Option String)
    (pair : environmentNameValuePair) : Option String :=
  match pair.Value with
  | none => environmentGetter pair.Name
  | some value =>
    match value.StringValue with
    | some s => some s
    | none =>
      match value.Int64Value with
      | some i => some (toString i)
      | none =>
        match value.FloatValue with
        | some f => some (FormatFloat f)
        | none => none

/-- Modelled from the spec: the loop of `parseEnvironment` over the pairs, carrying the output
map: "Empty name is invalid". -/
def parseEnvironmentLoop (environmentGetter : String → Option String) :
    List environmentNameValuePair → List (String × String) →
      Except LoadError (List (String × String))
  | [], output => .ok output
  | pair :: rest, output =>
    if pair.Name = "" then .error .invalidEnvironmentName
    else
      match environmentEntry environmentGetter pair with
      | some value =>
        parseEnvironmentLoop environmentGetter rest (mapSet output pair.Name value)
      | none => parseEnvironmentLoop environmentGetter rest output

/-- Modelled from the spec: the method `parseEnvironment` of the config loader, whose source is
not embedded here (its tests are): it turns the name/value pairs of an `environment` section
into a map from name to value. -/
def parseEnvironment (environmentGetter : String → Option String)
    (input : List environmentNameValuePair) : Except LoadError (List (String × String)) :=
  parseEnvironmentLoop environmentGetter input []

/-- The process environment of the test `TestConfigLoaderParseEnvironment_Success`. -/
def envParseTest (name : String) : Option String :=
  if name = "CFGLOADER_PARSEENV_VAR1" then some "CFGLOADER_PARSEENV_VAL1" else none

/-- The input of the test `TestConfigLoaderParseEnvironment_Success`. -/
def inputParseTest : List environmentNameValuePair :=
  [{ Name := "CFGLOADER_PARSEENV_VAR1" },
   { Name := "CFGLOADER_PARSEENV_VAR2", Value := some { StringValue := some "" } },
   { Name := "CFGLOADER_PARSEENV_VAR3", Value := some { Int64Value := some 0 } },
   { Name := "CFGLOADER_PARSEENV_VAR4", Value := some { FloatValue := some ⟨0⟩ } },
   { Name := "CFGLOADER_PARSEENV_VAR5", Value := some {} },
   { Name := "CFGLOADER_PARSEENV_VAR6" }]

/-- An environment section with the numbers 1.5, 0.1, 1000000 and -0.00001 as `float64`
values and the number -7 as `int64` value. -/
def inputNumbers : List environmentNameValuePair :=
  [{ Name := "RATE", Value := some { FloatValue := some ⟨0x3FF8000000000000⟩ } },
   { Name := "STEP", Value := some { FloatValue := some ⟨0x3FB999999999999A⟩ } },
   { Name := "LIMIT", Value := some { FloatValue := some ⟨0x412E848000000000⟩ } },
   { Name := "DRIFT", Value := some { FloatValue := some ⟨0xBEE4F8B588E368F1⟩ } },
   { Name := "OFFSET", Value := some { Int64Value := some (-7) } }]

/-- An environment section that names `A` twice. -/
def inputRepeatedName : List environmentNameValuePair :=
  [{ Name := "A", Value := some { StringValue := some "1" } },
   { Name := "A", Value := some { StringValue := some "2" } }]

/-- The struct `composeFileParsedService` (the fields the tests show, without `extends`):
`dependsOn` is the Go map from the name of a dependency to the healthiness required of it,
`service` the value fields of the service. The bit `recStack` lives in the traversal below. -/
structure composeFileParsedService where
  dependsOn : List (String × ServiceHealthiness) := []
  service : DockerComposeService := {}
  deriving DecidableEq, Repr

/-- The struct `composeFileParsed`; `services` is the Go map from name to parsed service, read
with `List.lookup`. -/
structure composeFileParsed where
  services : List (String × composeFileParsedService) := []
  deriving DecidableEq, Repr

/-- A `*composeFileParsed`: the address tells two parsed objects apart, the value is what the
pointer points to. -/
structure composeFileParsedPointer where
  address : Nat
  value : composeFileParsed
  deriving DecidableEq, Repr

/-- The file system behind `fs.OS`, and the decoding of a file's bytes: `Abs` gives the
absolute path of a path, `Stat` tells whether a file exists (an error is an I/O failure other
than not-found), and `Parse` is the outcome of reading the file at an absolute path,
interpolating and decoding it and resolving its `extends` chains. -/
structure FileSystem where
  Abs : String → Except LoadError String := fun path => .ok path
  Stat : String → Except LoadError Bool := fun _ => .ok false
  Parse : String → Except LoadError composeFileParsed := fun path => .error (.io path)

/-- The struct `configLoader`: `loadResolvedFileCache` is the Go map from absolute path to cache
item (here the pointer the item holds). `allocated` counts the parsed objects created so far,
and `reads` records, in order, the files that were read and parsed; the loader never looks at
`reads`. -/
structure configLoader where
  loadResolvedFileCache : List (String × composeFileParsedPointer) := []
  allocated : Nat := 0
  reads : List String := []
  deriving DecidableEq, Repr

/-- Modelled from the spec: `configLoader.loadFile`, whose source is not embedded here:
"`loadFile(path)` reads the raw bytes (any I/O error is surfaced wrapped with the path),
applies variable interpolation ..., then decodes". A success is a newly created parsed
object. -/
def configLoader.loadFile (fileSystem : FileSystem) (c : configLoader) (path : String) :
    Except LoadError composeFileParsedPointer × configLoader :=
  match fileSystem.Parse path with
  | .error e => (.error e, { c with reads := c.reads ++ [path] })
  | .ok parsed =>
    (.ok { address := c.allocated, value := parsed },
      { c with reads := c.reads ++ [path], allocated := c.allocated + 1 })

/-- Modelled from the spec: `configLoader.loadResolvedFile`, whose source is not embedded here:
"`loadResolvedFile(path)` memoizes by absolute path". A path found in the cache is answered
from the cache; any other path is loaded, and a successful load is stored. Whether a failed
load is remembered as well is not said; here it is not. -/
def configLoader.loadResolvedFile (fileSystem : FileSystem) (c : configLoader) (path : String) :
    Except LoadError composeFileParsedPointer × configLoader :=
  match fileSystem.Abs path with
  | .error e => (.error e, c)
  | .ok resolved =>
    match c.loadResolvedFileCache.lookup resolved with
    | some cfParsed => (.ok cfParsed, c)
    | none =>
      match c.loadFile fileSystem resolved with
      | (.error e, c1) => (.error e, c1)
      | (.ok cfParsed, c1) =>
        (.ok cfParsed,
          { c1 with loadResolvedFileCache := (resolved, cfParsed) :: c1.loadResolvedFileCache })

/-- The first error of a sequence of outcomes, as a Go loop that returns at the first
`err != nil` gives it. -/
def firstError : List (Except LoadError Unit) → Except LoadError Unit
  | [] => .ok ()
  | .ok _ :: rest => firstError rest
  | .error e :: _ => .error e

/-- Modelled from the spec: the test of `New` that "unknown names fail": every name in a
`depends_on` of a parsed service must be the name of a parsed service. -/
def resolveDependsOn (services : List (String × composeFileParsedService)) :
    Except LoadError Unit :=
  firstError (services.flatMap (fun entry =>
    entry.2.dependsOn.map (fun d =>
      if (services.lookup d.1).isSome then .ok () else .error (.dependsOnMissing entry.1 d.1))))

/-- Modelled from the spec: "A depth-first traversal using the `recStack` bit detects cycles".
`recStack` lists the services whose bit is set: those the traversal has entered and not left.
The traversal is at most as deep as there are services; `fuel` bounds its depth. -/
def ensureNoDependsOnCycle (services : List (String × composeFileParsedService)) :
    Nat → List String → String → Except LoadError Unit
  | 0, _, _ => .error .tooDeep
  | fuel + 1, recStack, name =>
    if name ∈ recStack then .error (.dependsOnCycle name)
    else
      match services.lookup name with
      | none => .ok ()
      | some cfService =>
        firstError (cfService.dependsOn.map (fun d =>
          ensureNoDependsOnCycle services fuel (name :: recStack) d.1))

/-- The result of `New` in `pkg/docker/compose/config`: `Services` is the Go map from name to
`*Service`, and a key of a service's `DependsOn` is the name of the service it points to. -/
structure ComposeConfig where
  Services : List (String × DockerComposeService) := []
  deriving DecidableEq, Repr

/-- Modelled from the spec: the choice of the file by `New`: "a list of file paths (empty
means: probe `docker-compose.yml` then `docker-compose.yaml` in the working directory via the
filesystem abstraction; I/O failure other than not-found propagates). At most one file is
currently supported; two or more is an error." -/
def selectFile (fileSystem : FileSystem) (files : List String) : Except LoadError String :=
  match files with
  | _ :: _ :: _ => .error .multipleFiles
  | [file] => .ok file
  | [] =>
    match fileSystem.Stat "docker-compose.yml" with
    | .error e => .error e
    | .ok true => .ok "docker-compose.yml"
    | .ok false =>
      match fileSystem.Stat "docker-compose.yaml" with
      | .error e => .error e
      | .ok true => .ok "docker-compose.yaml"
      | .ok false => .error .noFile

/-- Modelled from the spec: what `New` does with the loaded file: "the builder creates a fresh
`Service` per name and resolves each `depends_on` name to that service's reference; unknown
names fail. A depth-first traversal using the `recStack` bit detects cycles." The traversal
starts at every service. -/
def buildServices (cfParsed : composeFileParsed) : Except LoadError ComposeConfig :=
  match resolveDependsOn cfParsed.services with
  | .error e => .error e
  | .ok _ =>
    match firstError (cfParsed.services.map (fun entry =>
        ensureNoDependsOnCycle cfParsed.services (cfParsed.services.length + 1) [] entry.1)) with
    | .error e => .error e
    | .ok _ =>
      .ok { Services := cfParsed.services.map (fun entry =>
              (entry.1, { entry.2.service with DependsOn := entry.2.dependsOn })) }

/-- Modelled from the spec: `New` (§4.E "Graph builder"), whose source is not embedded here
(its tests are). It loads the one file through a new config loader and builds the services.
The part that reads `x-kube-compose` is left out. -/
def New (fileSystem : FileSystem) (files : List String) : Except LoadError ComposeConfig :=
  match selectFile fileSystem files with
  | .error e => .error e
  | .ok file =>
    match (configLoader.loadResolvedFile fileSystem {} file).1 with
    | .error e => .error e
    | .ok cfParsed => buildServices cfParsed.value

/-- The service `dependency` is named in the `depends_on` of the parsed service `name`. -/
def ParsedDependsOnEdge (services : List (String × composeFileParsedService))
    (name dependency : String) : Prop :=
  ∃ cfService, services.lookup name = some cfService ∧
    dependency ∈ cfService.dependsOn.map (fun d => d.1)

/-- The service `dependency` is a key of the `DependsOn` of the service `name` of the
config. -/
def ComposeConfig.DependsOnEdge (cfg : ComposeConfig) (name dependency : String) : Prop :=
  ∃ service, cfg.Services.lookup name = some service ∧
    dependency ∈ service.DependsOn.map (fun d => d.1)

/-- The files of `mockFS` in the tests of `New` that declare `depends_on`, and the file
`/docker-compose.yaml` with its one service; the working directory is the root. -/
def mockFS : FileSystem :=
  { Abs := fun path => .ok (if path = "docker-compose.yaml" then "/docker-compose.yaml" else path)
    Stat := fun path => .ok (decide (path = "docker-compose.yaml"))
    Parse := fun path =>
      if path = "/docker-compose.depends-on.yml" then
        .ok { services := [
          ("service1", { dependsOn := [("service2", ServiceStarted)] }),
          ("service2", { dependsOn := [("service3", ServiceHealthy)] }),
          ("service3", {})] }
      else if path = "/docker-compose.depends-on-cycle.yml" then
        .ok { services := [
          ("service1", { dependsOn := [("service2", ServiceStarted)] }),
          ("service2", { dependsOn := [("service1", ServiceStarted)] })] }
      else if path = "/docker-compose.depends-on-does-not-exist.yml" then
        .ok { services := [("service1", { dependsOn := [("service2", ServiceStarted)] })] }
      else if path = "/docker-compose.yaml" then
        .ok { services := [("testservice", { service := { Image := "ubuntu:latest" } })] }
      else .error (.io path) }

/-! ## The service table and the filter (`internal/app/config`) -/

/-- Modelled from the spec: `Config.FindServiceByName`, whose source is not embedded here (its
tests and callers are): the service stored under a name, nil when there is none. -/
def Config.FindServiceByName (cfg : Config) (name : String) : Option Service :=
  cfg.Services.find? (fun s => s.Name = name)

/-- A pointer to a docker-compose service, as `AddService` receives it: either to an object
that no service of the config holds, or to the object that the service `name` of the config
holds. -/
inductive DockerComposeServiceRef where
  | fresh (value : DockerComposeService)
  | ownedBy (name : String)
  deriving DecidableEq, Repr

/-- Modelled from the spec: `Config.AddService`, whose source is not embedded here (its tests
are): "Service names are unique ...; a duplicate insertion is a programmer error
(panic/abort)", "a single `Service` object is owned by exactly one name in exactly one
`Config`", and (from the tests) a compose service that already declares `depends_on` is
refused. `none` is the panic; otherwise the result is the config with the new service and the
new service itself. `escapeName` computes `NameEscaped`, the "lowercased DNS-1123-safe
derivative of the service name". -/
def Config.AddService (escapeName : String → String) (cfg : Config) (name : String)
    (dockerComposeService : DockerComposeServiceRef) : Option (Config × Service) :=
  if (cfg.FindServiceByName name).isSome then none
  else
    match dockerComposeService with
    | .ownedBy _ => none
    | .fresh value =>
      if value.DependsOn.length ≠ 0 then none
      else
        some ({ cfg with Services := cfg.Services ++
                  [{ Name := name, NameEscaped := escapeName name, DockerComposeService := value }] },
              { Name := name, NameEscaped := escapeName name, DockerComposeService := value })

/-- The service `dependency` is a direct dependency of the service `name` in the config: a
service stored under `name` lists it in `depends_on`, and the config holds it. -/
def DependsOnEdge (cfg : Config) (name dependency : String) : Prop :=
  ∃ t ∈ cfg.Services, t.Name = name ∧
    dependency ∈ t.DockerComposeService.DependsOn.map (fun d => d.1) ∧
    (cfg.FindService dependency).isSome = true

/-- The names of the direct dependencies of the services named in `marked`. -/
def dependsOnOf (cfg : Config) (marked : List String) : List String :=
  (cfg.Services.filter (fun t => t.Name ∈ marked)).flatMap
    (fun t => (t.DockerComposeService.DependsOn.map (fun d => d.1)).filter
      (fun d => (cfg.FindService d).isSome))

/-- One round of marking: the marked names and the direct dependencies of the services they
name. -/
def markRound (cfg : Config) (marked : List String) : List String :=
  marked ++ (dependsOnOf cfg marked).filter (fun d => d ∉ marked)

/-- The given number of rounds of marking. -/
def markRounds (cfg : Config) : Nat → List String → List String
  | 0, marked => marked
  | n + 1, marked => markRounds cfg n (markRound cfg marked)

/-- Modelled from the spec: `Config.AddToFilter`, whose source is not embedded here (its tests
and callers are): "`AddToFilter(s)` marks `s` and transitively every service in its
`depends_on` closure". The closure is reached after as many rounds of marking as the config
has services. -/
def Config.AddToFilter (cfg : Config) (service : Service) : Config :=
  { cfg with Services := cfg.Services.map (fun t =>
      if t.Name ∈ markRounds cfg cfg.Services.length [service.Name] then
        { t with matchesFilter := true }
      else t) }

/-- Modelled from the spec: `Config.ClearFilter`, whose source is not embedded here (its tests
are): "`ClearFilter` resets all marks". -/
def Config.ClearFilter (cfg : Config) : Config :=
  { cfg with Services := cfg.Services.map (fun t => { t with matchesFilter := false }) }

/-- The config of `newTestConfig` in the tests: `a` depends on `b`, and `b` on `c` and `d`. -/
def newTestConfig : Config :=
  { Services := [
      { Name := "a", NameEscaped := "a",
        DockerComposeService := { DependsOn := [("b", ServiceHealthy)] } },
      { Name := "b", NameEscaped := "b",
        DockerComposeService := { DependsOn := [("c", ServiceHealthy), ("d", ServiceHealthy)] } },
      { Name := "c", NameEscaped := "c" },
      { Name := "d", NameEscaped := "d" }] }

/-- The set of names is closed under direct dependencies. -/
def DependsOnClosed (cfg : Config) (marked : List String) : Prop :=
  ∀ a ∈ marked, ∀ b, DependsOnEdge cfg a b → b ∈ marked

/-- The service `a` of `newTestConfig`. -/
def newTestServiceA : Service :=
  { Name := "a", NameEscaped := "a",
    DockerComposeService := { DependsOn := [("b", ServiceHealthy)] } }

/-- The service `b` of `newTestConfig`. -/
def newTestServiceB : Service :=
  { Name := "b", NameEscaped := "b",
    DockerComposeService := { DependsOn := [("c", ServiceHealthy), ("d", ServiceHealthy)] } }

/-! # Theorems -/

/-! ## Helper lemmas: `isPodReady` and the container loop -/

theorem isPodReadyLoop_iff (conditions : List PodCondition) :
    isPodReadyLoop conditions = true ↔
      ∃ c ∈ conditions, c.Type_ = "Ready" ∧ c.Status = "True" := by
  induction conditions with
  | nil => simp [isPodReadyLoop]
  | cons c rest ih =>
    simp only [isPodReadyLoop, PodReady, ConditionTrue, List.mem_cons, exists_eq_or_imp]
    by_cases h : c.Type_ = "Ready" ∧ c.Status = "True"
    · simp only [h, and_self, if_true, true_or]
    · simp only [h, if_false, ih, false_or]

theorem isPodReady_iff (pod : Pod) : isPodReady pod = true ↔ hasReadyTrueCondition pod :=
  isPodReadyLoop_iff pod.Status.Conditions

theorem parsePodStatusLoop_skip (podName : String) (pre rest : List ContainerStatus)
    (hpre : ∀ c ∈ pre, ¬ c.isTerminated ∧ ¬ c.waitingErrImagePull) (k : Nat) :
    parsePodStatusLoop podName (pre ++ rest) k =
      parsePodStatusLoop podName rest (k + runningContainers pre) := by
  induction pre generalizing k with
  | nil => simp [runningContainers]
  | cons c pre ih =>
    have hc := hpre c (List.mem_cons_self _ _)
    have hrest : ∀ d ∈ pre, ¬ d.isTerminated ∧ ¬ d.waitingErrImagePull :=
      fun d hd => hpre d (List.mem_cons_of_mem _ hd)
    have ht : c.State.Terminated = none := by
      cases h : c.State.Terminated with
      | none => rfl
      | some t => exact absurd (by simp [ContainerStatus.isTerminated, h]) hc.1
    have hstep : ∀ j, parsePodStatusLoop podName (pre ++ rest) j =
        parsePodStatusLoop podName rest (j + runningContainers pre) := fun j => ih hrest j
    rw [List.cons_append]
    simp only [parsePodStatusLoop, ht]
    have hcount : ∀ k : Nat, (if c.State.Running.isSome = true then k + 1 else k) +
        runningContainers pre = k + runningContainers (c :: pre) := by
      intro k
      by_cases hr : c.State.Running.isSome = true
      · simp [runningContainers, hr]; omega
      · simp [runningContainers, hr]
    cases hw : c.State.Waiting with
    | none => simp only [hstep, hcount]
    | some w =>
      have hne : w.Reason ≠ "ErrImagePull" := fun he => hc.2 ⟨w, hw, he⟩
      simp only [hne, if_false, hstep, hcount]

theorem parsePodStatusLoop_error_of_first_terminated (podName : String)
    (pre post : List ContainerStatus) (cs : ContainerStatus)
    (hpre : ∀ c ∈ pre, ¬ c.isTerminated) (hcs : cs.terminatedNotCompleted) (k : Nat) :
    ∃ e, parsePodStatusLoop podName (pre ++ cs :: post) k = .inl (.error e) := by
  induction pre generalizing k with
  | nil =>
    obtain ⟨t, ht, hreason⟩ := hcs
    simp only [List.nil_append, parsePodStatusLoop, ht, parsePodStatusTerminatedContainer,
      ne_eq, hreason, not_false_eq_true, if_true]
    exact ⟨_, rfl⟩
  | cons c pre ih =>
    have hc := hpre c (List.mem_cons_self _ _)
    have hrest : ∀ d ∈ pre, ¬ d.isTerminated := fun d hd => hpre d (List.mem_cons_of_mem _ hd)
    have ht : c.State.Terminated = none := by
      cases h : c.State.Terminated with
      | none => rfl
      | some t => exact absurd (by simp [ContainerStatus.isTerminated, h]) hc
    rw [List.cons_append]
    simp only [parsePodStatusLoop, ht]
    cases hw : c.State.Waiting with
    | none => exact ih hrest _
    | some w =>
      by_cases he : w.Reason = "ErrImagePull"
      · simp only [he, if_true]
        exact ⟨_, rfl⟩
      · simp only [he, if_false]
        exact ih hrest _

/-! ## `parsePodStatus` -/

/-- C4, as stated, fails: a pod without a Ready=True condition whose first container terminated
with reason "Completed" and whose second container terminated with reason "Error" is reported
as `Completed`, without error. -/
theorem parsePodStatus_failure_after_completed_not_reported :
    ¬ hasReadyTrueCondition podCompletedThenFailed ∧
    (∃ cs ∈ podCompletedThenFailed.Status.ContainerStatuses, cs.terminatedNotCompleted) ∧
    parsePodStatus podCompletedThenFailed = .ok podStatusCompleted := by
  refine ⟨?_, ?_, rfl⟩
  · rw [← isPodReady_iff]; decide
  · refine ⟨{ Name := "main", State := { Terminated := some { ExitCode := 1, Reason := "Error" } } },
      by simp [podCompletedThenFailed], ⟨_, rfl, by decide⟩⟩

/-- C4, amended: for every pod that has no Ready=True condition and in which the first
terminated container (in the order of the pod's container statuses) has a reason other than
"Completed", `parsePodStatus` returns an error, whatever the states of the other containers. -/
theorem parsePodStatus_error_of_first_terminated_not_completed (pod : Pod)
    (pre post : List ContainerStatus) (cs : ContainerStatus)
    (hready : ¬ hasReadyTrueCondition pod)
    (hsplit : pod.Status.ContainerStatuses = pre ++ cs :: post)
    (hpre : ∀ c ∈ pre, ¬ c.isTerminated)
    (hcs : cs.terminatedNotCompleted) :
    ∃ e, parsePodStatus pod = .error e := by
  have hnot : isPodReady pod = false := by
    cases h : isPodReady pod with
    | false => rfl
    | true => exact absurd ((isPodReady_iff pod).1 h) hready
  obtain ⟨e, he⟩ := parsePodStatusLoop_error_of_first_terminated pod.ObjectMeta.Name pre post cs
    hpre hcs 0
  refine ⟨e, ?_⟩
  simp only [parsePodStatus, hnot, hsplit, he]
  rfl

theorem parsePodStatus_error_of_first_terminated_not_completed_witness :
    ∃ e, parsePodStatus podCreatingThenFailed = .error e :=
  parsePodStatus_error_of_first_terminated_not_completed podCreatingThenFailed
    [{ Name := "helper", State := { Waiting := some { Reason := "ContainerCreating" } } }]
    [{ Name := "late", State := { Terminated := some { Reason := "Completed" } } }]
    { Name := "main", State := { Terminated := some { ExitCode := 137, Reason := "OOMKilled" } } }
    (by rw [← isPodReady_iff]; decide) rfl
    (by intro c hc; simp at hc; subst hc; simp [ContainerStatus.isTerminated])
    ⟨_, rfl, by decide⟩

/-- C5, as stated, fails: a pod without a Ready=True condition whose only terminated container
has reason "Completed", but which lists a container waiting with "ErrImagePull" before it,
makes `parsePodStatus` return an error. -/
theorem parsePodStatus_errImagePull_before_completed :
    ¬ hasReadyTrueCondition podErrImagePullThenCompleted ∧
    (∃ cs ∈ podErrImagePullThenCompleted.Status.ContainerStatuses, cs.isTerminated) ∧
    (∀ cs ∈ podErrImagePullThenCompleted.Status.ContainerStatuses,
      cs.isTerminated → cs.terminatedWith "Completed") ∧
    parsePodStatus podErrImagePullThenCompleted = .error (.errImagePull "main" "test-job" "") := by
  refine ⟨?_, ?_, ?_, rfl⟩
  · rw [← isPodReady_iff]; decide
  · exact ⟨{ Name := "helper", State := { Terminated := some { Reason := "Completed" } } },
      by simp [podErrImagePullThenCompleted], rfl⟩
  · intro cs hcs hterm
    simp only [podErrImagePullThenCompleted, List.mem_cons, List.mem_singleton,
      List.not_mem_nil, or_false] at hcs
    rcases hcs with rfl | rfl
    · simp [ContainerStatus.isTerminated] at hterm
    · exact ⟨_, rfl, rfl⟩

/-- C5, amended: for every pod that has no Ready=True condition, in which at least one
container is terminated, every terminated container has reason "Completed", and no container
listed before the first terminated one is waiting with reason "ErrImagePull", `parsePodStatus`
returns `Completed` without error, even when the terminated container itself or a container
listed after it is waiting with reason "ErrImagePull". -/
theorem parsePodStatus_completed (pod : Pod)
    (pre post : List ContainerStatus) (cs : ContainerStatus)
    (hready : ¬ hasReadyTrueCondition pod)
    (hsplit : pod.Status.ContainerStatuses = pre ++ cs :: post)
    (hpre : ∀ c ∈ pre, ¬ c.isTerminated ∧ ¬ c.waitingErrImagePull)
    (hcs : cs.isTerminated)
    (hall : ∀ c ∈ pod.Status.ContainerStatuses, c.isTerminated → c.terminatedWith "Completed") :
    parsePodStatus pod = .ok podStatusCompleted := by
  have hnot : isPodReady pod = false := by
    cases h : isPodReady pod with
    | false => rfl
    | true => exact absurd ((isPodReady_iff pod).1 h) hready
  obtain ⟨t, ht, hreason⟩ := hall cs (by rw [hsplit]; simp) hcs
  simp only [parsePodStatus, hnot, hsplit, parsePodStatusLoop_skip _ pre _ hpre,
    parsePodStatusLoop, ht, parsePodStatusTerminatedContainer, hreason]
  rfl

theorem parsePodStatus_completed_witness :
    parsePodStatus podCompletedThenErrImagePull = .ok podStatusCompleted :=
  parsePodStatus_completed podCompletedThenErrImagePull
    [{ Name := "main", State := { Waiting := some { Reason := "ContainerCreating" } } }]
    [{ Name := "late", State := { Waiting := some { Reason := "ErrImagePull" } } }]
    { Name := "helper", State := { Terminated := some { Reason := "Completed" } } }
    (by rw [← isPodReady_iff]; decide) rfl
    (by
      intro c hc; simp at hc; subst hc
      exact ⟨by simp [ContainerStatus.isTerminated],
        by rintro ⟨w, hw, hr⟩; simp at hw; subst hw; exact absurd hr (by decide)⟩)
    rfl
    (by
      intro c hc hterm
      simp only [podCompletedThenErrImagePull, List.mem_cons, List.mem_singleton,
        List.not_mem_nil, or_false] at hc
      rcases hc with rfl | rfl | rfl
      · simp [ContainerStatus.isTerminated] at hterm
      · exact ⟨_, rfl, rfl⟩
      · simp [ContainerStatus.isTerminated] at hterm)

/-- C6: for every pod whose conditions contain a Ready condition with status True,
`parsePodStatus` returns `Ready` without error, whatever the states of its containers. -/
theorem parsePodStatus_ready (pod : Pod) (h : hasReadyTrueCondition pod) :
    parsePodStatus pod = .ok podStatusReady := by
  simp only [parsePodStatus, (isPodReady_iff pod).2 h, if_true]

theorem parsePodStatus_ready_witness :
    (∃ cs ∈ podReadyButFailed.Status.ContainerStatuses, cs.terminatedNotCompleted) ∧
    parsePodStatus podReadyButFailed = .ok podStatusReady :=
  ⟨⟨{ Name := "db", State := { Terminated := some { ExitCode := 1, Reason := "Error" } } },
      by simp [podReadyButFailed], ⟨_, rfl, by decide⟩⟩,
    parsePodStatus_ready podReadyButFailed ⟨⟨"Ready", "True"⟩, by simp [podReadyButFailed], rfl, rfl⟩⟩

/-- C7: for every pod that has no Ready=True condition, no terminated container and no
container waiting with reason "ErrImagePull", `parsePodStatus` returns without error; the
result is `Started` if and only if every container status of the pod is running, and it is
`Other` otherwise. -/
theorem parsePodStatus_started_iff_all_running (pod : Pod)
    (hready : ¬ hasReadyTrueCondition pod)
    (hterm : ∀ cs ∈ pod.Status.ContainerStatuses, ¬ cs.isTerminated)
    (hpull : ∀ cs ∈ pod.Status.ContainerStatuses, ¬ cs.waitingErrImagePull) :
    (∃ s, parsePodStatus pod = .ok s) ∧
    (parsePodStatus pod = .ok podStatusStarted ↔
      ∀ cs ∈ pod.Status.ContainerStatuses, cs.isRunning) ∧
    (¬ (∀ cs ∈ pod.Status.ContainerStatuses, cs.isRunning) →
      parsePodStatus pod = .ok podStatusOther) := by
  have hnot : isPodReady pod = false := by
    cases h : isPodReady pod with
    | false => rfl
    | true => exact absurd ((isPodReady_iff pod).1 h) hready
  have hloop : parsePodStatusLoop pod.ObjectMeta.Name pod.Status.ContainerStatuses 0 =
      .inr (runningContainers pod.Status.ContainerStatuses) := by
    have h := parsePodStatusLoop_skip pod.ObjectMeta.Name pod.Status.ContainerStatuses []
      (fun c hc => ⟨hterm c hc, hpull c hc⟩) 0
    simpa [parsePodStatusLoop] using h
  have hcount : runningContainers pod.Status.ContainerStatuses =
      pod.Status.ContainerStatuses.length ↔ ∀ cs ∈ pod.Status.ContainerStatuses, cs.isRunning := by
    unfold runningContainers
    rw [List.filter_length_eq_length]
    rfl
  have hval : parsePodStatus pod =
      if runningContainers pod.Status.ContainerStatuses = pod.Status.ContainerStatuses.length
      then .ok podStatusStarted else .ok podStatusOther := by
    simp only [parsePodStatus, hnot, hloop]
    rfl
  by_cases hall : ∀ cs ∈ pod.Status.ContainerStatuses, cs.isRunning
  · have hv : parsePodStatus pod = .ok podStatusStarted := by
      rw [hval, if_pos (hcount.2 hall)]
    exact ⟨⟨_, hv⟩, ⟨fun _ => hall, fun _ => hv⟩, fun hn => absurd hall hn⟩
  · have hv : parsePodStatus pod = .ok podStatusOther := by
      rw [hval, if_neg (fun h => hall (hcount.1 h))]
    refine ⟨⟨_, hv⟩, ⟨fun h => ?_, fun h => absurd h hall⟩, fun _ => hv⟩
    rw [hv] at h
    cases h

theorem parsePodStatus_started_iff_all_running_witness :
    parsePodStatus podPartlyRunning = .ok podStatusOther :=
  (parsePodStatus_started_iff_all_running podPartlyRunning
    (by rw [← isPodReady_iff]; decide)
    (by
      intro cs hcs
      simp only [podPartlyRunning, List.mem_cons, List.mem_singleton, List.not_mem_nil,
        or_false] at hcs
      rcases hcs with rfl | rfl <;> simp [ContainerStatus.isTerminated])
    (by
      intro cs hcs
      simp only [podPartlyRunning, List.mem_cons, List.mem_singleton, List.not_mem_nil,
        or_false] at hcs
      rcases hcs with rfl | rfl
      · rintro ⟨w, hw, _⟩; simp at hw
      · rintro ⟨w, hw, hr⟩; simp at hw; subst hw; exact absurd hr (by decide))).2.2
    (by
      intro h
      have := h { Name := "sidecar", State := { Waiting := some { Reason := "ContainerCreating" } } }
        (by simp [podPartlyRunning])
      simp [ContainerStatus.isRunning] at this)

/-! ## Helper lemmas: the app table -/

theorem findApp_name {apps : List app} {name : String} {a : app}
    (h : findApp apps name = some a) : a.name = name := by
  have := List.find?_some h
  simpa using this

theorem findApp_setApp_self (apps : List app) (b : app)
    (h : (findApp apps b.name).isSome = true) : findApp (setApp apps b) b.name = some b := by
  induction apps with
  | nil => simp [findApp] at h
  | cons c rest ih =>
    by_cases hc : c.name = b.name
    · simp [setApp, hc, findApp]
    · have hrest : (findApp rest b.name).isSome = true := by
        simpa [findApp, List.find?_cons, hc] using h
      have := ih hrest
      simp only [setApp, hc, if_false]
      simpa [findApp, List.find?_cons, hc] using this

theorem findApp_setApp_of_ne (apps : List app) (b : app) (name : String)
    (h : name ≠ b.name) : findApp (setApp apps b) name = findApp apps name := by
  induction apps with
  | nil => rfl
  | cons c rest ih =>
    by_cases hc : c.name = b.name
    · have hcn : ¬ c.name = name := fun e => h (e.symm.trans hc)
      have hbn : ¬ b.name = name := fun e => h e.symm
      simp [setApp, hc, findApp, List.find?_cons, hbn]
    · simp only [setApp, hc, if_false]
      by_cases hn : c.name = name
      · simp [findApp, List.find?_cons, hn]
      · simpa [findApp, List.find?_cons, hn] using ih

theorem streamLogsLoop_fields (l : List ContainerStatus) (a : app) (n : Nat) :
    (streamLogsLoop l a n).1.composeService = a.composeService ∧
    (streamLogsLoop l a n).1.maxObservedPodStatus = a.maxObservedPodStatus := by
  induction l generalizing a n with
  | nil => exact ⟨rfl, rfl⟩
  | cons c rest ih =>
    simp only [streamLogsLoop]
    split
    · exact ih _ _
    · exact ih _ _

/-- The status table after `updateAppMaxObservedPodStatus`, for every outcome of the call. -/
theorem statusOf_updateAppMaxObservedPodStatus (u : upRunner) (pod : Pod) (name : String) :
    statusOf (updateAppMaxObservedPodStatus u pod).2 name =
      match findAppFromObjectMeta u pod.ObjectMeta, parsePodStatus pod with
      | .ok (some a), .ok s =>
        if name = a.name then some (podStatus.max a.maxObservedPodStatus s) else statusOf u name
      | _, _ => statusOf u name := by
  unfold updateAppMaxObservedPodStatus
  cases hfind : findAppFromObjectMeta u pod.ObjectMeta with
  | err e => rfl
  | panic => rfl
  | ok oa =>
    cases oa with
    | none => rfl
    | some a =>
      have hin : findApp u.apps a.name = some a := by
        unfold findAppFromObjectMeta at hfind
        split at hfind
        · cases hfind
        · cases hfind
        · rename_i composeService _
          injection hfind with h1
          have := findApp_name h1
          rw [this]; exact h1
      -- the app after the log-streaming step
      obtain ⟨a1, hname1, hstatus1⟩ : ∃ a1 : app, a1.name = a.name ∧
          a1.maxObservedPodStatus = a.maxObservedPodStatus ∧
          (if (!u.opts.Detach) = true then
            streamLogsLoop pod.Status.ContainerStatuses a u.completedChannels
           else (a, u.completedChannels)).1 = a1 := by
        by_cases hd : (!u.opts.Detach) = true
        · refine ⟨_, ?_, ?_, by rw [if_pos hd]⟩
          · simp only [app.name, (streamLogsLoop_fields _ a _).1]
          · exact (streamLogsLoop_fields _ a _).2
        · exact ⟨a, rfl, rfl, by rw [if_neg hd]⟩
      obtain ⟨hstatus1, ha1⟩ := hstatus1
      have hsome : (findApp u.apps a1.name).isSome = true := by rw [hname1, hin]; rfl
      by_cases hn : name = a.name
      · have hself : findApp (setApp u.apps a1) a1.name = some a1 := findApp_setApp_self _ _ hsome
        cases hparse : parsePodStatus pod with
        | error e =>
          rw [hname1] at hself
          simp only [ha1, statusOf, hn, hself, hin, Option.map_some', hstatus1]
        | ok s =>
          simp only [ha1, hn, if_true]
          by_cases hgt : s > a1.maxObservedPodStatus
          · have hlt : a.maxObservedPodStatus < s := by rw [← hstatus1]; exact hgt
            have hsome2 : (findApp (setApp u.apps a1)
                ({ a1 with maxObservedPodStatus := s } : app).name).isSome = true := by
              show (findApp (setApp u.apps a1) a1.name).isSome = true
              rw [hself]; rfl
            have := findApp_setApp_self (setApp u.apps a1) { a1 with maxObservedPodStatus := s } hsome2
            have hnm : ({ a1 with maxObservedPodStatus := s } : app).name = a.name := hname1
            rw [hnm] at this
            simp only [if_pos hgt, statusOf, this, Option.map_some', podStatus.max, if_pos hlt]
          · have hlt : ¬ a.maxObservedPodStatus < s := by rw [← hstatus1]; exact hgt
            rw [hname1] at hself
            simp only [if_neg hgt, statusOf, hself, Option.map_some', podStatus.max, if_neg hlt,
              hstatus1]
      · have hn1 : name ≠ a1.name := by rw [hname1]; exact hn
        have hother : findApp (setApp u.apps a1) name = findApp u.apps name :=
          findApp_setApp_of_ne _ _ _ hn1
        cases hparse : parsePodStatus pod with
        | error e => simp only [ha1, statusOf, hother]
        | ok s =>
          simp only [ha1, hn, if_false]
          by_cases hgt : s > a1.maxObservedPodStatus
          · have hn2 : name ≠ ({ a1 with maxObservedPodStatus := s } : app).name := hn1
            simp only [if_pos hgt, statusOf, findApp_setApp_of_ne _ _ _ hn2, hother]
          · simp only [if_neg hgt, statusOf, hother]

theorem podStatus.le_max_left (a b : podStatus) : a ≤ podStatus.max a b := by
  cases a <;> cases b <;> decide

theorem podStatus.le_refl (a : podStatus) : a ≤ a := Nat.le_refl _

theorem updateAppMaxObservedPodStatus_ok_parse (u : upRunner) (pod : Pod) (a : app)
    (hfind : findAppFromObjectMeta u pod.ObjectMeta = .ok (some a))
    (hok : (updateAppMaxObservedPodStatus u pod).1 = .ok ()) :
    ∃ s, parsePodStatus pod = .ok s := by
  cases hparse : parsePodStatus pod with
  | ok s => exact ⟨s, rfl⟩
  | error e =>
    simp only [updateAppMaxObservedPodStatus, hfind, hparse] at hok
    cases hok

/-! ## `updateAppMaxObservedPodStatus` -/

/-- C3: for every app (named `name`) and every pod handed to `updateAppMaxObservedPodStatus`,
the app's `maxObservedPodStatus` after the call is at least its value before the call; when the
call succeeds for a pod of that app it is the maximum of the previous value and
`parsePodStatus(pod)`; when `parsePodStatus` fails it is unchanged; and the status of every
app other than the pod's app is unchanged. -/
theorem updateAppMaxObservedPodStatus_status (u : upRunner) (pod : Pod) (name : String) :
    (∀ prev, statusOf u name = some prev →
      ∃ next, statusOf (updateAppMaxObservedPodStatus u pod).2 name = some next ∧ prev ≤ next) ∧
    (∀ prev, statusOf u name = some prev → podOfApp u pod name →
      (updateAppMaxObservedPodStatus u pod).1 = .ok () →
      ∃ s, parsePodStatus pod = .ok s ∧
        statusOf (updateAppMaxObservedPodStatus u pod).2 name = some (podStatus.max prev s)) ∧
    ((∃ e, parsePodStatus pod = .error e) →
      statusOf (updateAppMaxObservedPodStatus u pod).2 name = statusOf u name) ∧
    (¬ podOfApp u pod name →
      statusOf (updateAppMaxObservedPodStatus u pod).2 name = statusOf u name) := by
  have key := statusOf_updateAppMaxObservedPodStatus u pod name
  have hprev : ∀ a, findAppFromObjectMeta u pod.ObjectMeta = .ok (some a) → name = a.name →
      statusOf u name = some a.maxObservedPodStatus := by
    intro a hfind hn
    unfold findAppFromObjectMeta at hfind
    split at hfind
    · cases hfind
    · cases hfind
    · injection hfind with h1
      have h2 := findApp_name h1
      rw [statusOf, hn, h2, h1]; rfl
  refine ⟨?_, ?_, ?_, ?_⟩
  · intro prev hp
    cases hfind : findAppFromObjectMeta u pod.ObjectMeta with
    | err e => rw [hfind] at key; exact ⟨prev, key.trans hp, podStatus.le_refl _⟩
    | panic => rw [hfind] at key; exact ⟨prev, key.trans hp, podStatus.le_refl _⟩
    | ok oa =>
      cases oa with
      | none => rw [hfind] at key; exact ⟨prev, key.trans hp, podStatus.le_refl _⟩
      | some a =>
        cases hparse : parsePodStatus pod with
        | error e =>
          rw [hfind, hparse] at key; exact ⟨prev, key.trans hp, podStatus.le_refl _⟩
        | ok s =>
          rw [hfind, hparse] at key
          by_cases hn : name = a.name
          · have hpa := hprev a hfind hn
            rw [hp] at hpa
            injection hpa with hpa
            simp only [hn, if_true] at key
            rw [hn]
            exact ⟨_, key, by rw [hpa]; exact podStatus.le_max_left _ _⟩
          · simp only [hn, if_false] at key
            exact ⟨prev, key.trans hp, podStatus.le_refl _⟩
  · rintro prev hp ⟨a, hfind, hname⟩ hok
    obtain ⟨s, hparse⟩ := updateAppMaxObservedPodStatus_ok_parse u pod a hfind hok
    refine ⟨s, hparse, ?_⟩
    have hpa := hprev a hfind hname.symm
    rw [hp] at hpa
    injection hpa with hpa
    rw [hfind, hparse] at key
    simp only [hname, if_true] at key
    rw [key, hpa]
  · rintro ⟨e, hparse⟩
    rw [hparse] at key
    rw [key]
    split <;> first | rfl | (rename_i h; cases h)
  · intro hnot
    rw [key]
    split
    · rename_i a s hfind _
      have hn : ¬ name = a.name := fun h => hnot ⟨a, hfind, h.symm⟩
      simp only [hn, if_false]
    · rfl

theorem updateAppMaxObservedPodStatus_status_witness :
    (updateAppMaxObservedPodStatus runnerDbStarted podDbReady).1 = .ok () ∧
    statusOf runnerDbStarted "db" = some podStatusStarted ∧
    parsePodStatus podDbReady = .ok podStatusReady ∧
    statusOf (updateAppMaxObservedPodStatus runnerDbStarted podDbReady).2 "db" =
      some podStatusReady := by
  obtain ⟨s, hs, h⟩ := (updateAppMaxObservedPodStatus_status runnerDbStarted podDbReady "db").2.1
    podStatusStarted rfl ⟨{ composeService := serviceDb, maxObservedPodStatus := podStatusStarted },
      rfl, rfl⟩ rfl
  have hparse : parsePodStatus podDbReady = .ok podStatusReady := rfl
  rw [hparse] at hs
  injection hs with hs
  subst hs
  exact ⟨rfl, rfl, rfl, h⟩

/-! ## `runWatchPodsEvent`, `findAppFromObjectMeta` -/

/-- C9: for every watch event of type Deleted whose pod maps to a known app,
`runWatchPodsEvent` returns the external-modification error; for every event whose type is
none of Added, Modified, Deleted it returns an error; in both cases the runner is left exactly
as it was, so no pod is launched and no app's `maxObservedPodStatus` changes. -/
theorem runWatchPodsEvent_deleted_or_unexpected (w : World) (u : upRunner) (event : Event) :
    (∀ pod a, event.Type_ = Deleted → event.Object = .pod pod →
      findAppFromObjectMeta u pod.ObjectMeta = .ok (some a) →
      runWatchPodsEvent w u event = (.err .resourcesModifiedExternally, u)) ∧
    (event.Type_ ≠ Added → event.Type_ ≠ Modified → event.Type_ ≠ Deleted →
      (∃ e, (runWatchPodsEvent w u event).1 = .err e) ∧ (runWatchPodsEvent w u event).2 = u) := by
  constructor
  · intro pod a htype hobj hfind
    have h1 : ¬ (event.Type_ = Added ∨ event.Type_ = Modified) := by
      rw [htype]; decide
    unfold runWatchPodsEvent
    rw [if_neg h1, if_pos htype, hobj]
    simp only [hfind]
  · intro h1 h2 h3
    have h12 : ¬ (event.Type_ = Added ∨ event.Type_ = Modified) := by
      rintro (h | h)
      · exact h1 h
      · exact h2 h
    unfold runWatchPodsEvent
    rw [if_neg h12, if_neg h3]
    exact ⟨⟨_, rfl⟩, rfl⟩

theorem runWatchPodsEvent_deleted_or_unexpected_witness :
    runWatchPodsEvent {} runnerDbStarted ⟨Deleted, .pod podDbReady⟩ =
      (.err .resourcesModifiedExternally, runnerDbStarted) ∧
    ((∃ e, (runWatchPodsEvent {} runnerDbStarted ⟨"ERROR", .status "gone"⟩).1 = .err e) ∧
      (runWatchPodsEvent {} runnerDbStarted ⟨"ERROR", .status "gone"⟩).2 = runnerDbStarted) :=
  ⟨(runWatchPodsEvent_deleted_or_unexpected {} runnerDbStarted ⟨Deleted, .pod podDbReady⟩).1
      podDbReady { composeService := serviceDb, maxObservedPodStatus := podStatusStarted }
      rfl rfl rfl,
    (runWatchPodsEvent_deleted_or_unexpected {} runnerDbStarted ⟨"ERROR", .status "gone"⟩).2
      (by decide) (by decide) (by decide)⟩

/-- C10 fails on the code: for a pod of a foreign fleet, `FindFromObjectMeta` returns nil
with no error, and `findAppFromObjectMeta` then dereferences the nil service: it panics, and so
do `updateAppMaxObservedPodStatus` and `runWatchPodsEvent` for a Deleted event of that pod. -/
theorem findAppFromObjectMeta_foreign_panics :
    FindFromObjectMeta runnerDbStarted.cfg podForeign.ObjectMeta = .ok none ∧
    findAppFromObjectMeta runnerDbStarted podForeign.ObjectMeta = .panic ∧
    (updateAppMaxObservedPodStatus runnerDbStarted podForeign).1 = .panic ∧
    (runWatchPodsEvent {} runnerDbStarted ⟨Deleted, .pod podForeign⟩).1 = .panic :=
  ⟨rfl, rfl, rfl, rfl⟩

/-! ## `createPodsIfNeeded`, the watch reducer -/

/-- C1 fails on the code: `web` is not yet launched and its only dependency `db`, declared
`started`, has `maxObservedPodStatus = Ready`, which is at least `Started`; every creation
would succeed, yet `createPodsIfNeeded` invokes `createPod` for nothing and leaves `web` in
`appsToBeStarted` (the runner is unchanged). -/
theorem createPodsIfNeeded_started_dependency_ready :
    "web" ∈ runnerDbReady.appsToBeStarted ∧
    (findApp runnerDbReady.apps "web").map
      (fun a => a.composeService.DockerComposeService.DependsOn) = some [("db", ServiceStarted)] ∧
    statusOf runnerDbReady "db" = some podStatusReady ∧
    podStatusStarted ≤ podStatusReady ∧
    createPodsIfNeeded {} runnerDbReady = (.ok (), runnerDbReady) :=
  ⟨by decide, rfl, rfl, by decide, rfl⟩

/-- C8 fails on the code: in the run of the project `web -> db (started)` in which the watch
reports the pod of `db` as pending and then as running and ready, `run` returns without error
with `checkIfPodsReady` true, while the selected app `web` has never been launched: it is
still in `appsToBeStarted`, `createPod` was invoked for `db` only, and the status of `web` is
`Other`. -/
theorem run_ready_with_app_not_launched :
    (run worldDbReadyAtOnce cfgWebDb {}).1 = .ok () ∧
    checkIfPodsReady (run worldDbReadyAtOnce cfgWebDb {}).2 = true ∧
    cfgWebDb.MatchesFilter serviceWeb = true ∧
    (run worldDbReadyAtOnce cfgWebDb {}).2.appsToBeStarted = ["web"] ∧
    (run worldDbReadyAtOnce cfgWebDb {}).2.createPodCalls.map (fun c => c.appName) = ["db"] ∧
    statusOf (run worldDbReadyAtOnce cfgWebDb {}).2 "web" = some podStatusOther :=
  ⟨rfl, rfl, rfl, rfl, rfl, rfl⟩

/-! ## The launch gate -/

theorem Continues.refl (P : createPodCall → Prop) (u : upRunner) : Continues P u u :=
  ⟨[], by simp, by simp⟩

theorem Continues.of_eq (P : createPodCall → Prop) (u1 u2 : upRunner)
    (h : u2.createPodCalls = u1.createPodCalls) : Continues P u1 u2 :=
  ⟨[], by simp [h], by simp⟩

theorem Continues.trans {P : createPodCall → Prop} {u1 u2 u3 : upRunner}
    (h12 : Continues P u1 u2) (h23 : Continues P u2 u3) : Continues P u1 u3 := by
  obtain ⟨n1, e1, p1⟩ := h12
  obtain ⟨n2, e2, p2⟩ := h23
  refine ⟨n1 ++ n2, by rw [e2, e1, List.append_assoc], ?_⟩
  intro c hc
  rcases List.mem_append.1 hc with h | h
  · exact p1 c h
  · exact p2 c h

theorem Continues.mono {P Q : createPodCall → Prop} (hPQ : ∀ c, P c → Q c) {u1 u2 : upRunner}
    (h : Continues P u1 u2) : Continues Q u1 u2 := by
  obtain ⟨n, e, p⟩ := h
  exact ⟨n, e, fun c hc => hPQ c (p c hc)⟩

theorem getAppImageInfoOnce_createPodCalls (w : World) (u : upRunner) (a : app) :
    (getAppImageInfoOnce w u a).2.createPodCalls = u.createPodCalls := by
  unfold getAppImageInfoOnce
  split <;> rfl

theorem createServicesAndGetPodHostAliasesOnce_createPodCalls (w : World) (u : upRunner) :
    (createServicesAndGetPodHostAliasesOnce w u).2.2.createPodCalls = u.createPodCalls := by
  unfold createServicesAndGetPodHostAliasesOnce
  split <;> rfl

theorem createPodObject_createPodCalls (w : World) (u : upRunner) (name : String) :
    (createPodObject w u name).2.createPodCalls = u.createPodCalls := by
  unfold createPodObject
  split
  · rfl
  · rename_i a _
    have hu1 := getAppImageInfoOnce_createPodCalls w u a
    split
    · rename_i e u1 h1
      rw [h1] at hu1
      exact hu1
    · rename_i u1 h1
      rw [h1] at hu1
      have hu1 : u1.createPodCalls = u.createPodCalls := hu1
      split
      · exact hu1
      · have hu2 := createServicesAndGetPodHostAliasesOnce_createPodCalls w u1
        simp only
        split
        · rename_i v e u2 h2
          rw [h2] at hu2
          exact hu2.trans hu1
        · rename_i v u2 h2
          rw [h2] at hu2
          have hu2 : u2.createPodCalls = u.createPodCalls := hu2.trans hu1
          split
          · exact hu2
          · split <;> exact hu2

/-- Each call of `createPod` adds exactly one invocation to the history: the app it is called
for, in the app table and config of the state it is called in. -/
theorem createPod_createPodCalls (w : World) (u : upRunner) (name : String) :
    (createPod w u name).2.createPodCalls = u.createPodCalls ++ [⟨name, u.apps, u.cfg⟩] := by
  have h := createPodObject_createPodCalls w
    { u with createPodCalls := u.createPodCalls ++ [⟨name, u.apps, u.cfg⟩] } name
  unfold createPod
  simp only
  split
  · rename_i u2 h2
    rw [h2] at h
    exact h
  · rename_i e u2 h2
    rw [h2] at h
    exact h
  · rename_i pod u2 h2
    rw [h2] at h
    split <;> exact h

theorem createPodsIfNeededDependsOn_true (u : upRunner)
    (dependsOn : List (String × ServiceHealthiness)) (createPod : Bool)
    (h : createPodsIfNeededDependsOn u dependsOn createPod = .ok true) :
    createPod = true ∧ dependenciesMet u.cfg u.apps dependsOn := by
  induction dependsOn generalizing createPod with
  | nil =>
    simp only [createPodsIfNeededDependsOn] at h
    injection h with h
    exact ⟨h, fun d hd => absurd hd (List.not_mem_nil d)⟩
  | cons d rest ih =>
    obtain ⟨dcService, healthiness⟩ := d
    simp only [createPodsIfNeededDependsOn] at h
    cases hfs : u.cfg.FindService dcService with
    | none => rw [hfs] at h; cases h
    | some composeService =>
      rw [hfs] at h
      simp only at h
      cases hfa : findApp u.apps composeService.Name with
      | none => rw [hfa] at h; cases h
      | some app2 =>
        rw [hfa] at h
        simp only at h
        by_cases hh : healthiness = ServiceHealthy
        · rw [if_pos hh] at h
          obtain ⟨hflag, hrest⟩ := ih _ h
          have hst : app2.maxObservedPodStatus = podStatusReady := by
            by_contra hne
            rw [if_pos hne] at hflag
            cases hflag
          have hc : createPod = true := by
            simpa [hst] using hflag
          refine ⟨hc, ?_⟩
          intro d hd
          rcases List.mem_cons.1 hd with rfl | hd
          · exact ⟨composeService, app2, hfs, hfa, fun _ => hst,
              fun hs => absurd (hh.symm.trans hs) (by decide)⟩
          · exact hrest d hd
        · rw [if_neg hh] at h
          obtain ⟨hflag, hrest⟩ := ih _ h
          have hst : app2.maxObservedPodStatus = podStatusStarted := by
            by_contra hne
            rw [if_pos hne] at hflag
            cases hflag
          have hc : createPod = true := by
            simpa [hst] using hflag
          refine ⟨hc, ?_⟩
          intro d hd
          rcases List.mem_cons.1 hd with rfl | hd
          · exact ⟨composeService, app2, hfs, hfa, fun hs => absurd hs hh,
              fun _ => by rw [hst]; exact podStatus.le_refl _⟩
          · exact hrest d hd

theorem createPodsIfNeededLoop_continues (w : World) (names : List String) (u : upRunner) :
    Continues createPodCall.dependenciesMet u (createPodsIfNeededLoop w names u).2 := by
  induction names generalizing u with
  | nil => exact Continues.refl _ _
  | cons name rest ih =>
    simp only [createPodsIfNeededLoop]
    cases hfa : findApp u.apps name with
    | none => exact Continues.refl _ _
    | some app1 =>
      simp only
      cases hdep : createPodsIfNeededDependsOn u
          app1.composeService.DockerComposeService.DependsOn true with
      | panic => exact Continues.refl _ _
      | err e => exact Continues.refl _ _
      | ok b =>
        cases b with
        | false => exact ih u
        | true =>
          have hmet := (createPodsIfNeededDependsOn_true u _ _ hdep).2
          have hstep : Continues createPodCall.dependenciesMet u (createPod w u name).2 :=
            ⟨[⟨name, u.apps, u.cfg⟩], createPod_createPodCalls w u name, by
              intro c hc
              rw [List.mem_singleton] at hc
              subst hc
              exact ⟨app1, hfa, hmet⟩⟩
          simp only
          split
          · rename_i v u1 h1
            rw [h1] at hstep
            exact hstep.trans (ih _)
          · rename_i e u1 h1
            rw [h1] at hstep
            exact hstep
          · rename_i u1 h1
            rw [h1] at hstep
            exact hstep

theorem runStartInitialPodsLoop_continues (w : World) (names : List String) (u : upRunner) :
    Continues createPodCall.noDependsOn u (runStartInitialPodsLoop w names u).2 := by
  induction names generalizing u with
  | nil => exact Continues.refl _ _
  | cons name rest ih =>
    simp only [runStartInitialPodsLoop]
    cases hfa : findApp u.apps name with
    | none => exact Continues.refl _ _
    | some a =>
      simp only
      by_cases hlen : a.composeService.DockerComposeService.DependsOn.length ≠ 0
      · rw [if_pos hlen]
        exact ih u
      · rw [if_neg hlen]
        have hnil : a.composeService.DockerComposeService.DependsOn = [] :=
          List.length_eq_zero.1 (not_not.1 hlen)
        have hstep : Continues createPodCall.noDependsOn u (createPod w u name).2 :=
          ⟨[⟨name, u.apps, u.cfg⟩], createPod_createPodCalls w u name, by
            intro c hc
            rw [List.mem_singleton] at hc
            subst hc
            exact ⟨a, hfa, hnil⟩⟩
        split
        · rename_i v u1 h1
          rw [h1] at hstep
          exact hstep.trans (ih _)
        · rename_i e u1 h1
          rw [h1] at hstep
          exact hstep
        · rename_i u1 h1
          rw [h1] at hstep
          exact hstep

theorem createPodCall.dependenciesMet_of_noDependsOn (c : createPodCall)
    (h : c.noDependsOn) : c.dependenciesMet := by
  obtain ⟨a, hfa, hnil⟩ := h
  exact ⟨a, hfa, by rw [hnil]; exact fun d hd => absurd hd (List.not_mem_nil d)⟩

theorem updateAppMaxObservedPodStatus_createPodCalls (u : upRunner) (pod : Pod) :
    (updateAppMaxObservedPodStatus u pod).2.createPodCalls = u.createPodCalls := by
  unfold updateAppMaxObservedPodStatus
  split
  · rfl
  · rfl
  · rfl
  · simp only
    split
    · rfl
    · split <;> split <;> rfl

theorem createPodsIfNeeded_continues (w : World) (u : upRunner) :
    Continues createPodCall.dependenciesMet u (createPodsIfNeeded w u).2 :=
  createPodsIfNeededLoop_continues w u.appsToBeStarted u

theorem runStartInitialPods_continues (w : World) (u : upRunner) :
    Continues createPodCall.noDependsOn u (runStartInitialPods w u).2 :=
  runStartInitialPodsLoop_continues w u.appsToBeStarted u

theorem runWatchPodsEvent_continues (w : World) (u : upRunner) (event : Event) :
    Continues createPodCall.dependenciesMet u (runWatchPodsEvent w u event).2 := by
  unfold runWatchPodsEvent
  split
  · split
    · exact Continues.refl _ _
    · exact Continues.refl _ _
    · rename_i pod _
      have hup : Continues createPodCall.dependenciesMet u
          (updateAppMaxObservedPodStatus u pod).2 :=
        Continues.of_eq _ _ _ (updateAppMaxObservedPodStatus_createPodCalls u pod)
      split
      · rename_i v u1 h1
        rw [h1] at hup
        exact hup.trans (createPodsIfNeeded_continues w u1)
      · rename_i e u1 h1
        rw [h1] at hup
        exact hup
      · rename_i u1 h1
        rw [h1] at hup
        exact hup
  · split
    · split
      · exact Continues.refl _ _
      · exact Continues.refl _ _
      · split
        · exact Continues.refl _ _
        · exact Continues.refl _ _
        · exact Continues.refl _ _
        · exact createPodsIfNeeded_continues w u
    · exact Continues.refl _ _

theorem initAppsToBeStartedLoop_createPodCalls (apps : List app) (colorIndex : Nat)
    (u : upRunner) :
    (initAppsToBeStartedLoop apps colorIndex u).createPodCalls = u.createPodCalls := by
  induction apps generalizing colorIndex u with
  | nil => rfl
  | cons a rest ih =>
    simp only [initAppsToBeStartedLoop]
    split
    · exact ih _ _
    · rw [ih]
      split <;> split <;> rfl

/-- In every state a run can pass through, every recorded invocation of `createPod` happened
with the dependencies of its app met. -/
theorem Reachable.createPodCalls_dependenciesMet {w : World} {cfg : Config} {opts : Options}
    {u : upRunner} (h : Reachable w cfg opts u) :
    ∀ c ∈ u.createPodCalls, c.dependenciesMet := by
  have step : ∀ u1 u2 : upRunner, Continues createPodCall.dependenciesMet u1 u2 →
      (∀ c ∈ u1.createPodCalls, c.dependenciesMet) → ∀ c ∈ u2.createPodCalls, c.dependenciesMet := by
    rintro u1 u2 ⟨new, e, p⟩ h1 c hc
    rw [e] at hc
    rcases List.mem_append.1 hc with h | h
    · exact h1 c h
    · exact p c h
  induction h with
  | init =>
    intro c hc
    have : (initAppsToBeStarted (initApps { cfg := cfg, opts := opts })).createPodCalls = [] := by
      unfold initAppsToBeStarted
      rw [initAppsToBeStartedLoop_createPodCalls]
      rfl
    rw [this] at hc
    exact absurd hc (List.not_mem_nil c)
  | reorder u l1 l2 _ _ _ ih => exact ih
  | startInitialPods u _ ih =>
    exact step _ _ (Continues.mono createPodCall.dependenciesMet_of_noDependsOn
      (runStartInitialPods_continues w u)) ih
  | updateStatus u pod _ ih =>
    exact step _ _ (Continues.of_eq _ _ _ (updateAppMaxObservedPodStatus_createPodCalls u pod)) ih
  | createPods u _ ih => exact step _ _ (createPodsIfNeeded_continues w u) ih
  | watchEvent u event _ ih => exact step _ _ (runWatchPodsEvent_continues w u event) ih

theorem Reachable.updateAppMaxObservedPodStatusAll {w : World} {cfg : Config} {opts : Options}
    (items : List Pod) (u : upRunner) (h : Reachable w cfg opts u) :
    Reachable w cfg opts (updateAppMaxObservedPodStatusAll items u).2 := by
  induction items generalizing u with
  | nil => exact h
  | cons pod rest ih =>
    have hstep := Reachable.updateStatus u pod h
    simp only [KubeCompose.updateAppMaxObservedPodStatusAll]
    split
    · rename_i v u1 h1
      rw [h1] at hstep
      exact ih u1 hstep
    · rename_i e u1 h1
      rw [h1] at hstep
      exact hstep
    · rename_i u1 h1
      rw [h1] at hstep
      exact hstep

theorem Reachable.runListPodsAndCreateThemIfNeeded {w : World} {cfg : Config} {opts : Options}
    (u : upRunner) (h : Reachable w cfg opts u) :
    Reachable w cfg opts (runListPodsAndCreateThemIfNeeded w u).2 := by
  unfold KubeCompose.runListPodsAndCreateThemIfNeeded
  split
  · exact h
  · rename_i items _
    have hall := Reachable.updateAppMaxObservedPodStatusAll items u h
    split
    · rename_i v u1 h1
      rw [h1] at hall
      exact Reachable.createPods u1 hall
    · rename_i e u1 h1
      rw [h1] at hall
      exact hall
    · rename_i u1 h1
      rw [h1] at hall
      exact hall

theorem Reachable.runWatchPodsLoop {w : World} {cfg : Config} {opts : Options}
    (events : List Event) (u : upRunner) (h : Reachable w cfg opts u) :
    Reachable w cfg opts (runWatchPodsLoop w events u).2 := by
  induction events generalizing u with
  | nil => exact h
  | cons event rest ih =>
    have hstep := Reachable.watchEvent u event h
    simp only [KubeCompose.runWatchPodsLoop]
    split
    · rename_i v u1 h1
      rw [h1] at hstep
      split
      · exact hstep
      · exact ih u1 hstep
    · rename_i e u1 h1
      rw [h1] at hstep
      exact hstep
    · rename_i u1 h1
      rw [h1] at hstep
      exact hstep

theorem Reachable.runWatchPods {w : World} {cfg : Config} {opts : Options}
    (u : upRunner) (h : Reachable w cfg opts u) :
    Reachable w cfg opts (runWatchPods w u).2 := by
  unfold KubeCompose.runWatchPods
  split
  · exact h
  · split
    · exact h
    · exact Reachable.runWatchPodsLoop _ u h

/-- The state in which `run` ends is one of the states a run can pass through. -/
theorem Reachable.run (w : World) (cfg : Config) (opts : Options) :
    Reachable w cfg opts (run w cfg opts).2 := by
  unfold KubeCompose.run
  simp only
  have hinit := @Reachable.init w cfg opts
  have h0 := Reachable.startInitialPods _ hinit
  split
  · exact hinit
  · split
    · exact hinit
    · split
      · rename_i v u1 h1
        rw [h1] at h0
        have h2 := Reachable.runListPodsAndCreateThemIfNeeded u1 h0
        split
        · rename_i v2 u2 h3
          rw [h3] at h2
          exact Reachable.runWatchPods u2 h2
        · rename_i e u2 h3
          rw [h3] at h2
          exact h2
        · rename_i u2 h3
          rw [h3] at h2
          exact h2
      · rename_i e u1 h1
        rw [h1] at h0
        exact h0
      · rename_i u1 h1
        rw [h1] at h0
        exact h0

/-- C2: in every state a run of the up runner passes through, every invocation of `createPod`
(by `runStartInitialPods` or `createPodsIfNeeded`) happened in a state where every dependency
of its app declared `healthy` had `maxObservedPodStatus = Ready` and every dependency declared
`started` had `maxObservedPodStatus ≥ Started`; and every invocation that `runStartInitialPods`
makes, from any state, is for an app whose `depends_on` is empty. -/
theorem createPod_only_when_dependencies_met (w : World) (cfg : Config) (opts : Options)
    (u : upRunner) :
    (Reachable w cfg opts u → ∀ c ∈ u.createPodCalls, c.dependenciesMet) ∧
    (∃ new, (runStartInitialPods w u).2.createPodCalls = u.createPodCalls ++ new ∧
      ∀ c ∈ new, c.noDependsOn) :=
  ⟨Reachable.createPodCalls_dependenciesMet, runStartInitialPods_continues w u⟩

theorem createPod_only_when_dependencies_met_witness :
    (run worldDbStartedThenReady cfgWebDb {}).1 = .ok () ∧
    (run worldDbStartedThenReady cfgWebDb {}).2.createPodCalls.map (fun c => c.appName) =
      ["db", "web"] ∧
    ∀ c ∈ (run worldDbStartedThenReady cfgWebDb {}).2.createPodCalls, c.dependenciesMet :=
  ⟨rfl, rfl,
    (createPod_only_when_dependencies_met worldDbStartedThenReady cfgWebDb {}
      (run worldDbStartedThenReady cfgWebDb {}).2).1 (Reachable.run _ _ _)⟩

/-! ## `GetReadinessProbe`, `getRestartPolicyforService` -/

/-- C19: for every app, `GetReadinessProbe` returns no probe when the compose healthcheck is
disabled; otherwise it returns the probe translated from the compose healthcheck when the
service declares one, else the probe translated from the image healthcheck when the image has
one, else no probe. A declared compose healthcheck takes precedence over the image
healthcheck. -/
theorem GetReadinessProbe_precedence (a : app) :
    (a.composeService.DockerComposeService.HealthcheckDisabled = true →
      a.GetReadinessProbe = none) ∧
    (a.composeService.DockerComposeService.HealthcheckDisabled = false →
      ∀ healthcheck, a.composeService.DockerComposeService.Healthcheck = some healthcheck →
      a.GetReadinessProbe = createReadinessProbeFromDockerHealthcheck healthcheck) ∧
    (a.composeService.DockerComposeService.HealthcheckDisabled = false →
      a.composeService.DockerComposeService.Healthcheck = none →
      ∀ healthcheck, a.imageInfo.imageHealthcheck = some healthcheck →
      a.GetReadinessProbe = createReadinessProbeFromDockerHealthcheck healthcheck) ∧
    (a.composeService.DockerComposeService.HealthcheckDisabled = false →
      a.composeService.DockerComposeService.Healthcheck = none →
      a.imageInfo.imageHealthcheck = none → a.GetReadinessProbe = none) := by
  refine ⟨?_, ?_, ?_, ?_⟩
  · intro hd
    simp [app.GetReadinessProbe, hd]
  · intro hd healthcheck hc
    simp [app.GetReadinessProbe, hd, hc]
  · intro hd hc healthcheck hi
    simp [app.GetReadinessProbe, hd, hc, hi]
  · intro hd hc hi
    simp [app.GetReadinessProbe, hd, hc, hi]

theorem GetReadinessProbe_precedence_witness :
    appWithTwoHealthchecks.GetReadinessProbe =
      some { ExecCommand := ["pg_isready"], PeriodSeconds := 5, FailureThreshold := 3 } :=
  (GetReadinessProbe_precedence appWithTwoHealthchecks).2.1 rfl
    { Test := ["CMD", "pg_isready"], Interval := 5, Retries := 3 } rfl

/-- C20: for every value of the compose restart field, `getRestartPolicyforService` returns
`Never` for "no", `Always` for "always", `OnFailure` for "on-failure", and `Never` for every
other string, the empty (unset) value included. -/
theorem getRestartPolicyforService_cases (a : app) (r : String)
    (hr : a.composeService.DockerComposeService.Restart = r) :
    (r = "no" → getRestartPolicyforService a = RestartPolicyNever) ∧
    (r = "always" → getRestartPolicyforService a = RestartPolicyAlways) ∧
    (r = "on-failure" → getRestartPolicyforService a = RestartPolicyOnFailure) ∧
    (r ≠ "no" → r ≠ "always" → r ≠ "on-failure" →
      getRestartPolicyforService a = RestartPolicyNever) ∧
    (r = "" → getRestartPolicyforService a = RestartPolicyNever) := by
  subst hr
  refine ⟨?_, ?_, ?_, ?_, ?_⟩
  · intro h
    simp [getRestartPolicyforService, h]
  · intro h
    simp [getRestartPolicyforService, h]
  · intro h
    simp [getRestartPolicyforService, h]
  · intro h1 h2 h3
    simp [getRestartPolicyforService, h1, h2, h3]
  · intro h
    simp [getRestartPolicyforService, h]

theorem getRestartPolicyforService_cases_witness :
    getRestartPolicyforService appWithTwoHealthchecks = "OnFailure" ∧
    getRestartPolicyforService { composeService := serviceDb } = "Never" :=
  ⟨(getRestartPolicyforService_cases appWithTwoHealthchecks "on-failure" rfl).2.2.1 rfl,
    (getRestartPolicyforService_cases { composeService := serviceDb } "" rfl).2.2.2.2 rfl⟩

/-! ## `initAppsToBeStarted` -/

/-- C18 fails on the code: with nine selected apps and a palette of seven colors, the eighth
app visited is assigned no color at all (its `color` keeps the zero value, which is not in the
palette): the branch that resets `colorIndex` to 0 does not assign. The ninth app is the one
that gets the first palette color. -/
theorem initAppsToBeStarted_eighth_app_not_colored :
    colorSupported.length = 7 ∧
    (initAppsToBeStarted (initApps { cfg := cfgNine })).appsToBeStarted =
      ["s1", "s2", "s3", "s4", "s5", "s6", "s7", "s8", "s9"] ∧
    (initAppsToBeStarted (initApps { cfg := cfgNine })).apps.map (fun a => (a.name, a.color)) =
      [("s1", 409600), ("s2", 147456), ("s3", 344064), ("s4", 81920), ("s5", 212992),
       ("s6", 278528), ("s7", 475136), ("s8", 0), ("s9", 409600)] ∧
    0 ∉ colorSupported ∧
    colorSupported.head? = some 409600 :=
  ⟨rfl, rfl, rfl, by decide, rfl⟩

/-! ## The virtual-IP wait -/

theorem findAppFromObjectMeta_findApp {u : upRunner} {objectMeta : ObjectMeta} {a : app}
    (h : findAppFromObjectMeta u objectMeta = .ok (some a)) : findApp u.apps a.name = some a := by
  unfold findAppFromObjectMeta at h
  split at h
  · cases h
  · cases h
  · injection h with h1
    have h2 := findApp_name h1
    rw [h2]
    exact h1

/-- C14 fails on the code: with `expected = 2 > 0`, the list phase succeeds and leaves both
apps that have a port with a non-empty cluster IP, yet `waitForServiceClusterIP` opens the
watch, because `remaining` was counted before the list phase. If the channel delivers nothing
the wait fails ("channel unexpectedly closed"); it returns nil only after it has consumed an
event. -/
theorem waitForServiceClusterIP_watches_after_complete_list :
    (waitForServiceClusterIPList worldListAssignsAll runnerPorts 2).1 = .ok "7" ∧
    (waitForServiceClusterIPList worldListAssignsAll runnerPorts 2).2.apps.map
      (fun a => (a.name, a.hasService, a.serviceClusterIP)) =
      [("db", true, "10.0.0.1"), ("job", false, ""), ("web", true, "10.0.0.2")] ∧
    (waitForServiceClusterIP worldListAssignsAll runnerPorts 2).1 = .err .channelClosed ∧
    (waitForServiceClusterIP worldListAssignsAll runnerPorts 2).2.requests =
      [.serviceList, .serviceWatch] ∧
    (waitForServiceClusterIP worldListAssignsAllThenEvent runnerPorts 2).1 = .ok () ∧
    (waitForServiceClusterIP worldListAssignsAllThenEvent runnerPorts 2).2.requests =
      [.serviceList, .serviceWatch, .serviceWatchReceive] :=
  ⟨rfl, rfl, rfl, rfl, rfl, rfl⟩

/-- C16: for every list result containing fewer virtual-IP objects than the expected count,
`waitForServiceClusterIPList` returns the external-modification error and leaves the app
table as it was, so no app's `serviceClusterIP` changes. -/
theorem waitForServiceClusterIPList_short (w : World) (u : upRunner) (expected : Int)
    (serviceList : ServiceList) (hlist : w.serviceList = .ok serviceList)
    (hshort : (serviceList.Items.length : Int) < expected) :
    (waitForServiceClusterIPList w u expected).1 = .err .resourcesModifiedExternally ∧
    (waitForServiceClusterIPList w u expected).2.apps = u.apps ∧
    ∀ name, clusterIPOf (waitForServiceClusterIPList w u expected).2 name = clusterIPOf u name := by
  have h : waitForServiceClusterIPList w u expected =
      (.err .resourcesModifiedExternally, { u with requests := u.requests ++ [.serviceList] }) := by
    unfold waitForServiceClusterIPList
    simp only [hlist, if_pos hshort]
  rw [h]
  exact ⟨rfl, rfl, fun _ => rfl⟩

theorem waitForServiceClusterIPList_short_witness :
    (waitForServiceClusterIPList worldListShort runnerPorts 2).1 =
      .err .resourcesModifiedExternally ∧
    (waitForServiceClusterIPList worldListShort runnerPorts 2).2.apps = runnerPorts.apps :=
  ⟨(waitForServiceClusterIPList_short worldListShort runnerPorts 2
      { Items := [v1ServiceDb "10.0.0.1"], ResourceVersion := "7" } rfl (by decide)).1,
    (waitForServiceClusterIPList_short worldListShort runnerPorts 2
      { Items := [v1ServiceDb "10.0.0.1"], ResourceVersion := "7" } rfl (by decide)).2.1⟩

/-- C17: for every Added or Modified virtual-IP event whose object maps to a known app: if
the object's type is ClusterIP, the app's `serviceClusterIP` becomes the object's cluster IP
and no other app's IP changes; if the type is not ClusterIP,
`waitForServiceClusterIPWatchEvent` returns the external-modification error and the runner is
unchanged. For every Deleted event of an object that maps to a known app it returns the
external-modification error. -/
theorem waitForServiceClusterIPWatchEvent_known (u : upRunner) (event : Event)
    (service : V1Service) (a : app)
    (hobj : event.Object = .service service)
    (hfind : findAppFromObjectMeta u service.ObjectMeta = .ok (some a)) :
    ((event.Type_ = Added ∨ event.Type_ = Modified) → service.Spec.Type_ = "ClusterIP" →
      (waitForServiceClusterIPWatchEvent u event).1 = .ok () ∧
      clusterIPOf (waitForServiceClusterIPWatchEvent u event).2 a.name =
        some service.Spec.ClusterIP ∧
      ∀ name, name ≠ a.name →
        clusterIPOf (waitForServiceClusterIPWatchEvent u event).2 name = clusterIPOf u name) ∧
    ((event.Type_ = Added ∨ event.Type_ = Modified) → service.Spec.Type_ ≠ "ClusterIP" →
      waitForServiceClusterIPWatchEvent u event = (.err .resourcesModifiedExternally, u)) ∧
    (event.Type_ = Deleted →
      waitForServiceClusterIPWatchEvent u event = (.err .resourcesModifiedExternally, u)) := by
  have hin := findAppFromObjectMeta_findApp hfind
  refine ⟨?_, ?_, ?_⟩
  · intro htype hkind
    have hne : ¬ service.Spec.Type_ ≠ "ClusterIP" := not_not.2 hkind
    have hval : waitForServiceClusterIPWatchEvent u event =
        (.ok (), { u with apps :=
          (setApp u.apps { a with serviceClusterIP := service.Spec.ClusterIP }) }) := by
      unfold waitForServiceClusterIPWatchEvent
      rw [if_pos htype, hobj]
      simp only [waitForServiceClusterIPUpdate, hfind, if_neg hne]
    rw [hval]
    refine ⟨rfl, ?_, ?_⟩
    · have hsome : (findApp u.apps
          ({ a with serviceClusterIP := service.Spec.ClusterIP } : app).name).isSome = true := by
        show (findApp u.apps a.name).isSome = true
        rw [hin]; rfl
      have := findApp_setApp_self u.apps { a with serviceClusterIP := service.Spec.ClusterIP } hsome
      have hname : ({ a with serviceClusterIP := service.Spec.ClusterIP } : app).name = a.name := rfl
      rw [hname] at this
      simp only [clusterIPOf, this, Option.map_some']
    · intro name hname
      have hn : name ≠ ({ a with serviceClusterIP := service.Spec.ClusterIP } : app).name := hname
      simp only [clusterIPOf, findApp_setApp_of_ne _ _ _ hn]
  · intro htype hkind
    unfold waitForServiceClusterIPWatchEvent
    rw [if_pos htype, hobj]
    simp only [waitForServiceClusterIPUpdate, hfind, if_pos hkind]
  · intro htype
    have h1 : ¬ (event.Type_ = Added ∨ event.Type_ = Modified) := by
      rw [htype]; decide
    unfold waitForServiceClusterIPWatchEvent
    rw [if_neg h1, if_pos htype, hobj]
    simp only [hfind]

theorem waitForServiceClusterIPWatchEvent_known_witness :
    clusterIPOf
      (waitForServiceClusterIPWatchEvent runnerPorts
        ⟨Modified, .service (v1ServiceWeb "10.0.0.2")⟩).2 "web" = some "10.0.0.2" ∧
    waitForServiceClusterIPWatchEvent runnerPorts
        ⟨Added, .service { ObjectMeta := metaWeb, Spec := { Type_ := "NodePort" } }⟩ =
      (.err .resourcesModifiedExternally, runnerPorts) ∧
    waitForServiceClusterIPWatchEvent runnerPorts ⟨Deleted, .service (v1ServiceWeb "10.0.0.2")⟩ =
      (.err .resourcesModifiedExternally, runnerPorts) :=
  ⟨((waitForServiceClusterIPWatchEvent_known runnerPorts
        ⟨Modified, .service (v1ServiceWeb "10.0.0.2")⟩ (v1ServiceWeb "10.0.0.2")
        { composeService := serviceWebPort } rfl rfl).1 (Or.inr rfl) rfl).2.1,
    (waitForServiceClusterIPWatchEvent_known runnerPorts
        ⟨Added, .service { ObjectMeta := metaWeb, Spec := { Type_ := "NodePort" } }⟩
        { ObjectMeta := metaWeb, Spec := { Type_ := "NodePort" } }
        { composeService := serviceWebPort } rfl rfl).2.1 (Or.inl rfl) (by decide),
    (waitForServiceClusterIPWatchEvent_known runnerPorts
        ⟨Deleted, .service (v1ServiceWeb "10.0.0.2")⟩ (v1ServiceWeb "10.0.0.2")
        { composeService := serviceWebPort } rfl rfl).2.2 rfl⟩

/-! ## Helper lemmas: the app table during the virtual-IP wait -/

theorem setApp_map_composeService (apps : List app) (a0 b : app)
    (h : findApp apps b.name = some a0) (hcs : b.composeService = a0.composeService) :
    (setApp apps b).map (fun a => a.composeService) = apps.map (fun a => a.composeService) := by
  induction apps with
  | nil => rfl
  | cons c rest ih =>
    by_cases hc : c.name = b.name
    · have hfound : findApp (c :: rest) b.name = some c := by
        simp [findApp, List.find?_cons, hc]
      rw [hfound] at h
      injection h with h
      subst h
      simp [setApp, hc, hcs]
    · have hrest : findApp rest b.name = some a0 := by
        simpa [findApp, List.find?_cons, hc] using h
      simp only [setApp, hc, if_false, List.map_cons, ih hrest]

theorem waitForServiceClusterIPUpdate_composeService (u : upRunner) (service : V1Service) :
    (waitForServiceClusterIPUpdate u service).2.apps.map (fun a => a.composeService) =
      u.apps.map (fun a => a.composeService) := by
  unfold waitForServiceClusterIPUpdate
  split
  · rfl
  · rfl
  · rfl
  · rename_i a hfind
    split
    · rfl
    · exact setApp_map_composeService u.apps a _ (findAppFromObjectMeta_findApp hfind) rfl

theorem waitForServiceClusterIPListLoop_composeService (items : List V1Service) (u : upRunner) :
    (waitForServiceClusterIPListLoop items u).2.apps.map (fun a => a.composeService) =
      u.apps.map (fun a => a.composeService) := by
  induction items generalizing u with
  | nil => rfl
  | cons service rest ih =>
    have hstep := waitForServiceClusterIPUpdate_composeService u service
    simp only [waitForServiceClusterIPListLoop]
    split
    · rename_i v u1 h1
      rw [h1] at hstep
      rw [ih u1]
      exact hstep
    · rename_i e u1 h1
      rw [h1] at hstep
      exact hstep
    · rename_i u1 h1
      rw [h1] at hstep
      exact hstep

theorem waitForServiceClusterIPList_composeService (w : World) (u : upRunner) (expected : Int) :
    (waitForServiceClusterIPList w u expected).2.apps.map (fun a => a.composeService) =
      u.apps.map (fun a => a.composeService) := by
  unfold waitForServiceClusterIPList
  simp only
  split
  · rfl
  · rename_i serviceList _
    split
    · rfl
    · have hloop := waitForServiceClusterIPListLoop_composeService serviceList.Items
        { u with requests := u.requests ++ [.serviceList] }
      split
      · rename_i v u1 h1
        rw [h1] at hloop
        exact hloop
      · rename_i e u1 h1
        rw [h1] at hloop
        exact hloop
      · rename_i u1 h1
        rw [h1] at hloop
        exact hloop

theorem waitForServiceClusterIPWatchEvent_composeService (u : upRunner) (event : Event) :
    (waitForServiceClusterIPWatchEvent u event).2.apps.map (fun a => a.composeService) =
      u.apps.map (fun a => a.composeService) := by
  unfold waitForServiceClusterIPWatchEvent
  split
  · split
    · rfl
    · rfl
    · rename_i service _
      have hstep := waitForServiceClusterIPUpdate_composeService u service
      split
      · rename_i v u1 h1
        rw [h1] at hstep
        exact hstep
      · rename_i e u1 h1
        rw [h1] at hstep
        exact hstep
      · rename_i u1 h1
        rw [h1] at hstep
        exact hstep
  · split
    · split
      · rfl
      · rfl
      · split <;> rfl
    · rfl

theorem waitForServiceClusterIPCountRemainingLoop_zero (l : List app) (k : Nat) :
    waitForServiceClusterIPCountRemainingLoop l k = 0 ↔
      k = 0 ∧ ∀ a ∈ l, a.hasService = true → a.serviceClusterIP ≠ "" := by
  induction l generalizing k with
  | nil => simp [waitForServiceClusterIPCountRemainingLoop]
  | cons a rest ih =>
    simp only [waitForServiceClusterIPCountRemainingLoop, ih, List.mem_cons, forall_eq_or_imp]
    by_cases h : a.hasService = true ∧ a.serviceClusterIP = ""
    · rw [if_pos h]
      constructor
      · rintro ⟨hk, _⟩
        omega
      · rintro ⟨_, ha, _⟩
        exact absurd h.2 (ha h.1)
    · rw [if_neg h]
      constructor
      · rintro ⟨hk, hrest⟩
        exact ⟨hk, fun hs he => h ⟨hs, he⟩, hrest⟩
      · rintro ⟨hk, _, hrest⟩
        exact ⟨hk, hrest⟩

theorem waitForServiceClusterIPCountRemainingLoop_unassigned (l : List app) (k : Nat)
    (h : ∀ a ∈ l, a.serviceClusterIP = "") :
    waitForServiceClusterIPCountRemainingLoop l k =
      k + (l.filter (fun a => a.hasService)).length := by
  induction l generalizing k with
  | nil => simp [waitForServiceClusterIPCountRemainingLoop]
  | cons a rest ih =>
    have ha := h a (List.mem_cons_self _ _)
    have hrest : ∀ b ∈ rest, b.serviceClusterIP = "" := fun b hb => h b (List.mem_cons_of_mem _ hb)
    simp only [waitForServiceClusterIPCountRemainingLoop, ih _ hrest, ha, and_true]
    by_cases hs : a.hasService = true
    · simp [hs]; omega
    · simp [hs]

theorem waitForServiceClusterIPWatch_ok (events : List Event) (remaining : Nat) (u u1 : upRunner)
    (h : waitForServiceClusterIPWatch events remaining u = (.ok (), u1)) :
    waitForServiceClusterIPCountRemaining u1 = 0 ∧
    u1.apps.map (fun a => a.composeService) = u.apps.map (fun a => a.composeService) := by
  induction events generalizing remaining u with
  | nil => simp [waitForServiceClusterIPWatch] at h
  | cons event rest ih =>
    have hstep := waitForServiceClusterIPWatchEvent_composeService
      { u with requests := u.requests ++ [.serviceWatchReceive] } event
    simp only [waitForServiceClusterIPWatch] at h
    split at h
    · rename_i v u2 h2
      rw [h2] at hstep
      have hstep : u2.apps.map (fun a => a.composeService) =
          u.apps.map (fun a => a.composeService) := hstep
      split at h
      · split at h
        · rename_i hzero
          injection h with _ hu
          subst hu
          exact ⟨hzero, hstep⟩
        · obtain ⟨hc, hm⟩ := ih _ _ h
          exact ⟨hc, hm.trans hstep⟩
      · obtain ⟨hc, hm⟩ := ih _ _ h
        exact ⟨hc, hm.trans hstep⟩
    · cases h
    · cases h

theorem waitForServiceClusterIP_ok (w : World) (u u1 : upRunner) (expected : Int)
    (h : waitForServiceClusterIP w u expected = (.ok (), u1)) :
    (waitForServiceClusterIPCountRemaining u = 0 ∨ waitForServiceClusterIPCountRemaining u1 = 0) ∧
    u1.apps.map (fun a => a.composeService) = u.apps.map (fun a => a.composeService) := by
  have hlist := waitForServiceClusterIPList_composeService w u expected
  unfold waitForServiceClusterIP at h
  simp only at h
  split at h
  · cases h
  · cases h
  · rename_i v u2 h2
    rw [h2] at hlist
    have hlist : u2.apps.map (fun a => a.composeService) =
        u.apps.map (fun a => a.composeService) := hlist
    split at h
    · rename_i hzero
      injection h with _ hu
      subst hu
      exact ⟨Or.inl hzero, hlist⟩
    · split at h
      · cases h
      · obtain ⟨hc, hm⟩ := waitForServiceClusterIPWatch_ok _ _ _ _ h
        exact ⟨Or.inr hc, hm.trans hlist⟩

theorem set_length_append (pre : List HostAlias) (x y : HostAlias) (rest : List HostAlias) :
    (pre ++ x :: rest).set pre.length y = pre ++ y :: rest := by
  induction pre with
  | nil => rfl
  | cons p pre ih => simp [ih]

theorem getPodHostAliasesCoreLoop_eq (l : List app) (pre : List HostAlias) (k : Nat)
    (hk : (l.filter (fun a => a.hasService)).length = k) :
    getPodHostAliasesCoreLoop l pre.length (pre ++ List.replicate k ⟨"", []⟩) =
      some (pre ++ (l.filter (fun a => a.hasService)).map hostAliasOf) := by
  induction l generalizing pre k with
  | nil =>
    simp only [List.filter_nil, List.length_nil] at hk
    subst hk
    simp [getPodHostAliasesCoreLoop]
  | cons a rest ih =>
    by_cases hs : a.hasService = true
    · simp only [List.filter_cons, hs, if_true, List.length_cons] at hk
      subst hk
      have hlt : pre.length <
          (pre ++ List.replicate ((rest.filter (fun a => a.hasService)).length + 1)
            (⟨"", []⟩ : HostAlias)).length := by
        simp
      simp only [getPodHostAliasesCoreLoop, hs, if_true, hlt, List.replicate_succ,
        set_length_append]
      have := ih (pre ++ [⟨a.serviceClusterIP, [a.name]⟩]) _ rfl
      simp only [List.length_append, List.length_singleton, List.append_assoc,
        List.singleton_append] at this
      rw [this]
      simp [List.filter_cons, hs, hostAliasOf]
    · have hs2 : a.hasService = false := by simpa using hs
      simp only [List.filter_cons, hs2] at hk
      simp only [getPodHostAliasesCoreLoop, hs2]
      rw [ih pre k (by simpa using hk)]
      simp [List.filter_cons, hs2]

theorem filter_hasService_length (l : List app) :
    (l.filter (fun a => a.hasService)).length =
      ((l.map (fun a => a.composeService)).filter (fun c => decide (c.Ports.length > 0))).length := by
  induction l with
  | nil => rfl
  | cons a rest ih =>
    by_cases hs : a.hasService = true
    · have hs2 : decide (a.composeService.Ports.length > 0) = true := hs
      simp [List.filter_cons, hs, hs2, ih]
    · have hs1 : a.hasService = false := by simpa using hs
      have hs2 : decide (a.composeService.Ports.length > 0) = false := hs1
      simp [List.filter_cons, hs1, hs2, ih]

/-- C15: whenever `getPodHostAliasesCore(expected)` succeeds, starting from a state where no
app has a cluster IP and `expected` is the number of apps with at least one port, the apps
are the ones it started with, and the returned table has, in the order of the app table,
exactly one entry for each app that declares at least one port and none for an app without
ports; the entry of an app has the hostnames `[name of the app]` and the ip
`serviceClusterIP` of the app, which is non-empty. -/
theorem getPodHostAliasesCore_table (w : World) (u u1 : upRunner) (expected : Int)
    (hostAliases : List HostAlias)
    (hstart : ∀ a ∈ u.apps, a.serviceClusterIP = "")
    (hexpected : expected = ((u.apps.filter (fun a => a.hasService)).length : Int))
    (hok : getPodHostAliasesCore w u expected = (.ok hostAliases, u1)) :
    u1.apps.map (fun a => a.composeService) = u.apps.map (fun a => a.composeService) ∧
    hostAliases = (u1.apps.filter (fun a => a.hasService)).map
      (fun a => ⟨a.serviceClusterIP, [a.name]⟩) ∧
    (∀ a ∈ u1.apps, a.hasService = true → a.serviceClusterIP ≠ "") := by
  unfold getPodHostAliasesCore at hok
  split at hok
  · cases hok
  · cases hok
  · rename_i v u2 hwait
    have hv : v = () := rfl
    subst hv
    obtain ⟨hcount, hmap⟩ := waitForServiceClusterIP_ok w u u2 expected hwait
    have hlen : (u2.apps.filter (fun a => a.hasService)).length =
        (u.apps.filter (fun a => a.hasService)).length := by
      rw [filter_hasService_length, filter_hasService_length, hmap]
    have hnonneg : ¬ expected < 0 := by
      rw [hexpected]; omega
    have htoNat : expected.toNat = (u2.apps.filter (fun a => a.hasService)).length := by
      rw [hexpected, hlen]; simp
    rw [if_neg hnonneg, htoNat] at hok
    have hfill := getPodHostAliasesCoreLoop_eq u2.apps [] _ rfl
    simp only [List.length_nil, List.nil_append] at hfill
    rw [hfill] at hok
    simp only at hok
    injection hok with hres hu
    injection hres with hres
    subst hu
    refine ⟨hmap, hres.symm, ?_⟩
    rcases hcount with h0 | h0
    · -- nothing was missing at the start: no app has a port
      have hunassigned := waitForServiceClusterIPCountRemainingLoop_unassigned u.apps 0 hstart
      have hzero : (u.apps.filter (fun a => a.hasService)).length = 0 := by
        unfold waitForServiceClusterIPCountRemaining at h0
        omega
      rw [← hlen] at hzero
      intro a ha hs
      have hmem : a ∈ u2.apps.filter (fun a => a.hasService) := List.mem_filter.2 ⟨ha, hs⟩
      rw [List.length_eq_zero.1 hzero] at hmem
      exact absurd hmem (List.not_mem_nil a)
    · exact ((waitForServiceClusterIPCountRemainingLoop_zero u2.apps 0).1 h0).2

theorem getPodHostAliasesCore_table_witness :
    (getPodHostAliasesCore worldListThenWatch runnerPorts 2).1 =
      .ok [⟨"10.0.0.1", ["db"]⟩, ⟨"10.0.0.2", ["web"]⟩] ∧
    ∀ a ∈ (getPodHostAliasesCore worldListThenWatch runnerPorts 2).2.apps,
      a.hasService = true → a.serviceClusterIP ≠ "" :=
  ⟨rfl,
    (getPodHostAliasesCore_table worldListThenWatch runnerPorts
      (getPodHostAliasesCore worldListThenWatch runnerPorts 2).2 2
      [⟨"10.0.0.1", ["db"]⟩, ⟨"10.0.0.2", ["web"]⟩] (by decide) rfl rfl).2.2⟩

/-! ## The image resolver -/

/-- C11 fails on the code: on a runner as `Run` sets it up, the first call of
`getLocalImageIDSet` requests the image list and returns the id set, but it leaves
`localImagesCache.once` nil, because the struct assigned inside the guarded function names no
`once`; the second call then calls `Do` through the nil pointer and panics. This holds for
every daemon and every runner with a fresh guard. -/
theorem getLocalImageIDSet_second_call_panics :
    (∀ (w : World) (u : upRunner), u.localImagesCache.once = some false →
      (getLocalImageIDSet w u).2.localImagesCache.once = none ∧
      (getLocalImageIDSet w (getLocalImageIDSet w u).2).1 = .panic) ∧
    ({} : upRunner).localImagesCache.once = some false ∧
    (getLocalImageIDSet worldOneImage {}).1 = .ok (some ["sha256:0123"]) ∧
    (getLocalImageIDSet worldOneImage {}).2.requests = [.imageList] ∧
    (getLocalImageIDSet worldOneImage (getLocalImageIDSet worldOneImage {}).2).1 = .panic := by
  refine ⟨?_, rfl, rfl, rfl, rfl⟩
  intro w u hu
  have h1 : (getLocalImageIDSet w u).2.localImagesCache.once = none := by
    unfold getLocalImageIDSet initLocalImages
    rw [hu]
    simp only
    cases w.docker.imageList <;> rfl
  refine ⟨h1, ?_⟩
  generalize (getLocalImageIDSet w u).2 = u1 at h1
  unfold getLocalImageIDSet initLocalImages
  rw [h1]

/-- C12 fails on the code: the guard "only when the image was not found locally" is missing.
For the reference `0123` (not named), which resolves to the local id `sha256:0123`,
`getAppImageInfoEnsureSourceImageID` returns the error "could not find image locally"; for the
named reference `postgres:11`, which resolves to the same local id, it pulls the image all the
same. -/
theorem getAppImageInfoEnsureSourceImageID_ignores_local_image :
    dockerOneImage.resolveLocalImageID { isNamed := false, str := "sha256:0123" }
      runnerImagesListed.localImagesCache.imageIDSet runnerImagesListed.localImagesCache.images =
      "sha256:0123" ∧
    (getAppImageInfoEnsureSourceImageID worldOneImage runnerImagesListed appImageByID "0123"
      { isNamed := false, str := "sha256:0123" }
      runnerImagesListed.localImagesCache.imageIDSet).1 = .err (.imageNotFoundLocally "0123") ∧
    dockerOneImage.resolveLocalImageID { isNamed := true, str := "docker.io/library/postgres:11" }
      runnerImagesListed.localImagesCache.imageIDSet runnerImagesListed.localImagesCache.images =
      "sha256:0123" ∧
    (getAppImageInfoEnsureSourceImageID worldOneImage runnerImagesListed appImageByName
      "postgres:11" { isNamed := true, str := "docker.io/library/postgres:11" }
      runnerImagesListed.localImagesCache.imageIDSet).1 = .ok () ∧
    (getAppImageInfoEnsureSourceImageID worldOneImage runnerImagesListed appImageByName
      "postgres:11" { isNamed := true, str := "docker.io/library/postgres:11" }
      runnerImagesListed.localImagesCache.imageIDSet).2.1.requests =
      [.imageList, .imagePull "docker.io/library/postgres:11",
       .resolveLocalImageAfterPull "sha256:d1d1"] :=
  ⟨rfl, rfl, rfl, rfl, rfl⟩

/-- C13: for every app whose compose service image is the empty string, `getAppImageInfo`
returns an error and leaves the runner and the app exactly as they were: no request has been
made to the container daemon, and the `imageInfo` fields of the app are unchanged. -/
theorem getAppImageInfo_empty_image (w : World) (u : upRunner) (a : app)
    (h : a.composeService.DockerComposeService.Image = "") :
    getAppImageInfo w u a = (.err (.noImage a.name), u, a) ∧
    (getAppImageInfo w u a).2.1.requests = u.requests ∧
    (getAppImageInfo w u a).2.2.imageInfo = a.imageInfo := by
  have hval : getAppImageInfo w u a = (.err (.noImage a.name), u, a) := by
    unfold getAppImageInfo
    rw [if_pos h]
  rw [hval]
  exact ⟨rfl, rfl, rfl⟩

theorem getAppImageInfo_empty_image_witness :
    getAppImageInfo worldOneImage {} appNoImage = (.err (.noImage "db"), {}, appNoImage) ∧
    (getAppImageInfo worldOneImage {} appNoImage).2.1.requests = [] :=
  ⟨(getAppImageInfo_empty_image worldOneImage {} appNoImage rfl).1,
    (getAppImageInfo_empty_image worldOneImage {} appNoImage rfl).2.1⟩

/-! ## A pod without container statuses -/

/-- C29: for every pod that has no Ready=True condition and reports an empty list of container
statuses, `parsePodStatus` returns `Started` without error; and a dependent declared with
condition `started` can then be launched before any container of its dependency is running:
in the run of the project `web -> db (started)` in which the watch reports the pod of `db`
without container statuses, `createPod` is invoked for `web` in a state where `db` has
`maxObservedPodStatus = Started`. -/
theorem parsePodStatus_no_containers (pod : Pod)
    (hready : ¬ hasReadyTrueCondition pod)
    (hempty : pod.Status.ContainerStatuses = []) :
    parsePodStatus pod = .ok podStatusStarted ∧
    (run worldDbNoContainers cfgWebDb {}).2.createPodCalls.map
      (fun c => (c.appName, (findApp c.apps "db").map (fun a => a.maxObservedPodStatus))) =
      [("db", some podStatusOther), ("web", some podStatusStarted)] := by
  have hnot : isPodReady pod = false := by
    cases h : isPodReady pod with
    | false => rfl
    | true => exact absurd ((isPodReady_iff pod).1 h) hready
  refine ⟨?_, rfl⟩
  simp only [parsePodStatus, hnot, hempty, parsePodStatusLoop]
  rfl

theorem parsePodStatus_no_containers_witness :
    podDbNoContainers.Status.ContainerStatuses = [] ∧
    parsePodStatus podDbNoContainers = .ok podStatusStarted :=
  ⟨rfl, (parsePodStatus_no_containers podDbNoContainers
    (by rw [← isPodReady_iff]; decide) rfl).1⟩

/-! ## `getEnvIDFlag` -/

/-- C23: `getEnvIDFlag` succeeds with the id `id` if and only if either the flag `--env-id` is
set, `id` is its value and `id` is a valid label value (the environment variable is not
looked at), or the flag is not set, the environment variable exists with value `id` and `id`
is a valid label value; in every other case an error is returned; on success the returned id
is a valid label value. -/
theorem getEnvIDFlag_iff (envGetter : String → Option String) (cmd : Command) (id : String) :
    (getEnvIDFlag envGetter cmd = .ok id ↔
      (cmd.Changed envIDFlagName = true ∧ cmd.GetString envIDFlagName = id ∧
        IsValidLabelValue id = []) ∨
      (cmd.Changed envIDFlagName = false ∧ envGetter envIDEnvVarName = some id ∧
        IsValidLabelValue id = [])) ∧
    (getEnvIDFlag envGetter cmd = .ok id → IsValidLabelValue id = []) ∧
    ((∀ id1, getEnvIDFlag envGetter cmd ≠ .ok id1) → ∃ e, getEnvIDFlag envGetter cmd = .error e) := by
  have hiff : getEnvIDFlag envGetter cmd = .ok id ↔
      (cmd.Changed envIDFlagName = true ∧ cmd.GetString envIDFlagName = id ∧
        IsValidLabelValue id = []) ∨
      (cmd.Changed envIDFlagName = false ∧ envGetter envIDEnvVarName = some id ∧
        IsValidLabelValue id = []) := by
    rcases Bool.eq_false_or_eq_true (cmd.Changed envIDFlagName) with hc | hc
    · have hval : getEnvIDFlag envGetter cmd =
          match IsValidLabelValue (cmd.GetString envIDFlagName) with
          | complaint :: _ => .error (.invalidFlag complaint)
          | [] => .ok (cmd.GetString envIDFlagName) := by
        unfold getEnvIDFlag
        rw [hc]
        rfl
      rw [hval]
      constructor
      · intro h
        cases hv : IsValidLabelValue (cmd.GetString envIDFlagName) with
        | nil =>
          rw [hv] at h
          injection h with h
          subst h
          exact Or.inl ⟨hc, rfl, hv⟩
        | cons complaint rest =>
          rw [hv] at h
          cases h
      · rintro (⟨_, h, hvalid⟩ | ⟨hf, _, _⟩)
        · subst h
          rw [hvalid]
        · rw [hc] at hf
          cases hf
    · have hval : getEnvIDFlag envGetter cmd =
          match envGetter envIDEnvVarName with
          | none => .error .notSet
          | some envID =>
            match IsValidLabelValue envID with
            | complaint :: _ => .error (.invalidEnvironmentVariable complaint)
            | [] => .ok envID := by
        unfold getEnvIDFlag
        rw [hc]
        rfl
      rw [hval]
      constructor
      · intro h
        cases he : envGetter envIDEnvVarName with
        | none =>
          rw [he] at h
          cases h
        | some envID =>
          rw [he] at h
          cases hv : IsValidLabelValue envID with
          | nil =>
            simp only [hv] at h
            injection h with h
            subst h
            exact Or.inr ⟨hc, rfl, hv⟩
          | cons complaint rest =>
            simp only [hv] at h
            cases h
      · rintro (⟨ht, _, _⟩ | ⟨_, he, hvalid⟩)
        · rw [hc] at ht
          cases ht
        · rw [he]
          simp only [hvalid]
  refine ⟨hiff, ?_, ?_⟩
  · intro h
    rcases hiff.1 h with ⟨_, _, hv⟩ | ⟨_, _, hv⟩ <;> exact hv
  · intro hno
    cases hres : getEnvIDFlag envGetter cmd with
    | error e => exact ⟨e, rfl⟩
    | ok id1 => exact absurd hres (hno id1)

theorem getEnvIDFlag_iff_witness :
    getEnvIDFlag envInvalidEnvID cmdEnvIDTest = .ok "test" ∧
    IsValidLabelValue "test" = [] ∧
    (∃ e, getEnvIDFlag envInvalidEnvID cmdNoEnvID = .error e) ∧
    (∃ e, getEnvIDFlag (fun _ => none) cmdNoEnvID = .error e) :=
  ⟨(getEnvIDFlag_iff envInvalidEnvID cmdEnvIDTest "test").1.2 (Or.inl ⟨rfl, rfl, by decide⟩),
    (getEnvIDFlag_iff envInvalidEnvID cmdEnvIDTest "test").2.1 rfl,
    (getEnvIDFlag_iff envInvalidEnvID cmdNoEnvID "").2.2 (by
      intro id1 h
      have hv := (getEnvIDFlag_iff envInvalidEnvID cmdNoEnvID id1).1.1 h
      rcases hv with ⟨hc, _⟩ | ⟨_, he, hvalid⟩
      · exact absurd hc (by decide)
      · have : id1 = "not valid!" := by
          have h2 : envInvalidEnvID envIDEnvVarName = some "not valid!" := rfl
          rw [h2] at he
          injection he with he
          exact he.symm
        subst this
        exact absurd hvalid (by decide)),
    ⟨.notSet, rfl⟩⟩

/-! ## `parseEnvironment` -/

theorem mapGet_mapSet_self (m : List (String × String)) (key value : String) :
    mapGet (mapSet m key value) key = some value := by
  induction m with
  | nil => simp [mapSet, mapGet]
  | cons kv rest ih =>
    obtain ⟨k, v⟩ := kv
    by_cases h : k = key
    · simp [mapSet, mapGet, h]
    · simp [mapSet, mapGet, h, ih]

theorem mapGet_mapSet_of_ne (m : List (String × String)) (key value other : String)
    (h : other ≠ key) : mapGet (mapSet m key value) other = mapGet m other := by
  induction m with
  | nil =>
    have h2 : ¬ key = other := fun e => h e.symm
    simp [mapSet, mapGet, h2]
  | cons kv rest ih =>
    obtain ⟨k, v⟩ := kv
    by_cases hk : k = key
    · have h2 : ¬ key = other := fun e => h e.symm
      have h3 : ¬ k = other := fun e => h (e.symm.trans hk)
      simp [mapSet, mapGet, hk, h2]
    · by_cases ho : k = other
      · subst ho
        simp [mapSet, mapGet, h]
      · simp [mapSet, mapGet, hk, ho, ih]

theorem parseEnvironmentLoop_ok (environmentGetter : String → Option String)
    (input : List environmentNameValuePair)
    (output : List (String × String))
    (hnames : ∀ p ∈ input, p.Name ≠ "")
    (hnodup : (input.map (fun p => p.Name)).Nodup) :
    ∃ out, parseEnvironmentLoop environmentGetter input output = .ok out ∧
      (∀ p ∈ input, mapGet out p.Name =
        match environmentEntry environmentGetter p with
        | some v => some v
        | none => mapGet output p.Name) ∧
      (∀ n, n ∉ input.map (fun p => p.Name) → mapGet out n = mapGet output n) := by
  induction input generalizing output with
  | nil => exact ⟨output, rfl, fun p hp => absurd hp (List.not_mem_nil p), fun _ _ => rfl⟩
  | cons p rest ih =>
    have hp : p.Name ≠ "" := hnames p (List.mem_cons_self _ _)
    have hrest : ∀ q ∈ rest, q.Name ≠ "" := fun q hq => hnames q (List.mem_cons_of_mem _ hq)
    rw [List.map_cons, List.nodup_cons] at hnodup
    obtain ⟨hnotin, hnd⟩ := hnodup
    have hne : ∀ q ∈ rest, q.Name ≠ p.Name := by
      intro q hq e
      exact hnotin (e ▸ List.mem_map_of_mem (fun p => p.Name) hq)
    simp only [parseEnvironmentLoop, hp, if_false]
    cases hentry : environmentEntry environmentGetter p with
    | none =>
      obtain ⟨out, hout, hin, hother⟩ := ih output hrest hnd
      refine ⟨out, hout, ?_, ?_⟩
      · intro q hq
        rcases List.mem_cons.1 hq with rfl | hq
        · rw [hentry]
          exact hother _ hnotin
        · exact hin q hq
      · intro n hn
        exact hother n (fun h => hn (by rw [List.map_cons]; exact List.mem_cons_of_mem _ h))
    | some v =>
      obtain ⟨out, hout, hin, hother⟩ := ih (mapSet output p.Name v) hrest hnd
      refine ⟨out, hout, ?_, ?_⟩
      · intro q hq
        rcases List.mem_cons.1 hq with rfl | hq
        · rw [hentry, hother _ hnotin]
          exact mapGet_mapSet_self _ _ _
        · rw [hin q hq, mapGet_mapSet_of_ne _ _ _ _ (hne q hq)]
      · intro n hn
        have hnp : n ≠ p.Name := fun e => hn (by rw [List.map_cons, e]; exact List.mem_cons_self _ _)
        rw [hother n (fun h => hn (by rw [List.map_cons]; exact List.mem_cons_of_mem _ h)),
          mapGet_mapSet_of_ne _ _ _ _ hnp]

theorem parseEnvironmentLoop_error (environmentGetter : String → Option String)
    (input : List environmentNameValuePair)
    (output : List (String × String)) (h : ∃ p ∈ input, p.Name = "") :
    parseEnvironmentLoop environmentGetter input output =
      .error .invalidEnvironmentName := by
  induction input generalizing output with
  | nil =>
    obtain ⟨p, hp, _⟩ := h
    exact absurd hp (List.not_mem_nil p)
  | cons q rest ih =>
    by_cases hq : q.Name = ""
    · simp only [parseEnvironmentLoop, hq, if_true]
    · have hrest : ∃ p ∈ rest, p.Name = "" := by
        obtain ⟨p, hp, hname⟩ := h
        rcases List.mem_cons.1 hp with rfl | hp
        · exact absurd hname hq
        · exact ⟨p, hp, hname⟩
      simp only [parseEnvironmentLoop, hq, if_false]
      split
      · exact ih _ hrest
      · exact ih _ hrest

/-- C28, as stated, fails: in a list that names `A` twice, with the string values "1" and
"2", all names are non-empty, but the resulting map gives `A` the value "2", so the pair with
the string value "1" does not map its name to that string. -/
theorem parseEnvironment_repeated_name :
    (∀ p ∈ inputRepeatedName, p.Name ≠ "") ∧
    (⟨"A", some { StringValue := some "1" }⟩ : environmentNameValuePair) ∈ inputRepeatedName ∧
    parseEnvironment envParseTest inputRepeatedName = .ok [("A", "2")] ∧
    mapGet [("A", "2")] "A" ≠ some "1" := by
  refine ⟨?_, by simp [inputRepeatedName], rfl, by decide⟩
  intro p hp
  simp only [inputRepeatedName, List.mem_cons, List.mem_singleton, List.not_mem_nil,
    or_false] at hp
  rcases hp with rfl | rfl <;> decide

/-- C28, amended: for every list of environment name/value pairs with non-empty, pairwise
distinct names, `parseEnvironment` succeeds and returns a map in which: a pair with a string
value maps its name to that string; a pair with an int64 or float64 value maps its name to the
shortest decimal rendering (0 and 0.0 both render as "0"); a pair with an absent value maps
its name to the process-environment value when the variable is set and is omitted from the
map when it is not set. For every list containing a pair with an empty name,
`parseEnvironment` fails. -/
theorem parseEnvironment_distinct_names (environmentGetter : String → Option String)
    (input : List environmentNameValuePair) :
    ((∀ p ∈ input, p.Name ≠ "") → (input.map (fun p => p.Name)).Nodup →
      ∃ output, parseEnvironment environmentGetter input = .ok output ∧
        ∀ p ∈ input,
          (∀ value s, p.Value = some value → value.StringValue = some s →
            mapGet output p.Name = some s) ∧
          (∀ value i, p.Value = some value → value.StringValue = none →
            value.Int64Value = some i → mapGet output p.Name = some (toString i)) ∧
          (∀ value f, p.Value = some value → value.StringValue = none →
            value.Int64Value = none → value.FloatValue = some f →
            mapGet output p.Name = some (FormatFloat f)) ∧
          (p.Value = none → mapGet output p.Name = environmentGetter p.Name)) ∧
    toString (0 : Int) = "0" ∧
    FormatFloat ⟨0⟩ = "0" ∧
    ((∃ p ∈ input, p.Name = "") →
      ∃ e, parseEnvironment environmentGetter input = .error e) := by
  refine ⟨?_, rfl, by decide, ?_⟩
  · intro hnames hnodup
    obtain ⟨out, hout, hin, _⟩ :=
      parseEnvironmentLoop_ok environmentGetter input [] hnames hnodup
    refine ⟨out, hout, ?_⟩
    intro p hp
    have hget := hin p hp
    refine ⟨?_, ?_, ?_, ?_⟩
    · intro value s hv hs
      rw [hget]
      simp [environmentEntry, hv, hs]
    · intro value i hv hs hi
      rw [hget]
      simp [environmentEntry, hv, hs, hi]
    · intro value f hv hs hi hf
      rw [hget]
      simp [environmentEntry, hv, hs, hi, hf]
    · intro hv
      rw [hget]
      simp only [environmentEntry, hv]
      cases environmentGetter p.Name <;> rfl
  · intro h
    exact ⟨_, parseEnvironmentLoop_error environmentGetter input [] h⟩

theorem parseEnvironment_distinct_names_witness :
    (∃ output, parseEnvironment envParseTest inputParseTest = .ok output ∧
      mapGet output "CFGLOADER_PARSEENV_VAR1" = some "CFGLOADER_PARSEENV_VAL1" ∧
      mapGet output "CFGLOADER_PARSEENV_VAR2" = some "" ∧
      mapGet output "CFGLOADER_PARSEENV_VAR3" = some "0" ∧
      mapGet output "CFGLOADER_PARSEENV_VAR4" = some "0" ∧
      mapGet output "CFGLOADER_PARSEENV_VAR6" = none) ∧
    ∃ e, parseEnvironment envParseTest [{ Name := "" }] = .error e := by
  obtain ⟨output, hout, h⟩ :=
    (parseEnvironment_distinct_names envParseTest inputParseTest).1
      (by
        intro p hp
        simp only [inputParseTest, List.mem_cons, List.mem_singleton, List.not_mem_nil,
          or_false] at hp
        rcases hp with rfl | rfl | rfl | rfl | rfl | rfl <;> decide)
      (by decide)
  refine ⟨⟨output, hout, ?_, ?_, ?_, ?_, ?_⟩, ?_⟩
  · exact (h { Name := "CFGLOADER_PARSEENV_VAR1" } (by simp [inputParseTest])).2.2.2 rfl
  · exact (h { Name := "CFGLOADER_PARSEENV_VAR2", Value := some { StringValue := some "" } }
      (by simp [inputParseTest])).1 _ "" rfl rfl
  · exact (h { Name := "CFGLOADER_PARSEENV_VAR3", Value := some { Int64Value := some 0 } }
      (by simp [inputParseTest])).2.1 _ 0 rfl rfl rfl
  · exact ((h { Name := "CFGLOADER_PARSEENV_VAR4", Value := some { FloatValue := some ⟨0⟩ } }
      (by simp [inputParseTest])).2.2.1 _ ⟨0⟩ rfl rfl rfl rfl).trans
        (congrArg some (parseEnvironment_distinct_names envParseTest inputParseTest).2.2.1)
  · exact (h { Name := "CFGLOADER_PARSEENV_VAR6" } (by simp [inputParseTest])).2.2.2 rfl
  · exact (parseEnvironment_distinct_names envParseTest [{ Name := "" }]).2.2.2
      ⟨{ Name := "" }, by simp, rfl⟩

theorem nearest_roundsFrom (f : float64) (down up : decimal) (remainder denominator : Nat)
    (d : decimal) (h : f.nearest down up remainder denominator = some d) :
    f.roundsFrom d = true := by
  unfold float64.nearest at h
  split at h
  · rename_i hdown
    split at h
    · rename_i hup
      split at h
      · exact (Option.some.inj h) ▸ hdown
      · split at h
        · exact (Option.some.inj h) ▸ hup
        · split at h
          · exact (Option.some.inj h) ▸ hdown
          · exact (Option.some.inj h) ▸ hup
    · exact (Option.some.inj h) ▸ hdown
  · split at h
    · rename_i hup
      exact (Option.some.inj h) ▸ hup
    · exact Option.noConfusion h

/-- A decimal number that `shortestAt` gives for `f` reads back as `f`. -/
theorem shortestAt_roundsFrom (f : float64) (n : Nat) (d : decimal)
    (h : f.shortestAt n = some d) : f.roundsFrom d = true :=
  nearest_roundsFrom f _ _ _ _ d h

/-- When one of the first seventeen digit counts gives a decimal number for `f`, then
`shortest` is such a number: it reads back as `f`, and no smaller digit count gives one. -/
theorem shortest_roundsFrom (f : float64) (d : decimal)
    (h : (List.range 17).findSome? (fun i => f.shortestAt (i + 1)) = some d) :
    f.shortest = d ∧ f.roundsFrom d = true ∧
      ∃ n, f.shortestAt (n + 1) = some d ∧ ∀ m, m < n → f.shortestAt (m + 1) = none := by
  refine ⟨by unfold float64.shortest; rw [h]; rfl, ?_, ?_⟩
  · obtain ⟨i, _, hi⟩ := List.exists_of_findSome?_eq_some h
    exact shortestAt_roundsFrom f (i + 1) d hi
  · rw [List.findSome?_eq_some_iff] at h
    obtain ⟨l₁, i, l₂, hrange, hi, hbefore⟩ := h
    have hlen : l₁.length < (List.range 17).length := by
      rw [hrange]; simp
    have hget : (List.range 17)[l₁.length]? = some i := by
      rw [hrange, List.getElem?_append_right (Nat.le_refl _)]
      simp
    have hieq : i = l₁.length := by
      rw [List.getElem?_eq_getElem hlen, List.getElem_range] at hget
      exact (Option.some.inj hget).symm
    refine ⟨i, hi, ?_⟩
    intro m hm
    have hm1 : m < l₁.length := hieq ▸ hm
    have hmem : m ∈ l₁ := by
      have h17 : m < (List.range 17).length := Nat.lt_trans hm1 hlen
      have : (List.range 17)[m]? = some m := by
        rw [List.getElem?_eq_getElem h17, List.getElem_range]
      rw [hrange, List.getElem?_append_left hm1] at this
      exact List.mem_iff_getElem?.2 ⟨m, this⟩
    exact hbefore m hmem

set_option exponentiation.threshold 2000

set_option maxRecDepth 100000

/-- The renderings of 1.5, 0.1, 1000000, -0.00001 and -7 in the map of `inputNumbers`. -/
theorem parseEnvironment_numbers :
    (parseEnvironment envParseTest inputNumbers).toOption =
      some [("RATE", "1.5"), ("STEP", "0.1"), ("LIMIT", "1e+06"), ("DRIFT", "-1e-05"),
        ("OFFSET", "-7")] := by
  decide

/-! ## `AddService`, `AddToFilter`, `ClearFilter` -/

/-- C25: for every config that already contains a service named `name`, `AddService(name, s)`
aborts for every compose service `s`; `AddService` also aborts when `s` is the object already
held by a service of the config, and when `s` already declares `depends_on` entries. -/
theorem AddService_aborts (escapeName : String → String) (cfg : Config) (name : String) :
    ((∃ t ∈ cfg.Services, t.Name = name) →
      ∀ s, Config.AddService escapeName cfg name s = none) ∧
    (∀ owner, (∃ t ∈ cfg.Services, t.Name = owner) →
      Config.AddService escapeName cfg name (.ownedBy owner) = none) ∧
    (∀ value : DockerComposeService, value.DependsOn ≠ [] →
      Config.AddService escapeName cfg name (.fresh value) = none) := by
  refine ⟨?_, ?_, ?_⟩
  · rintro ⟨t, ht, hname⟩ s
    have hfound : (cfg.FindServiceByName name).isSome = true := by
      unfold Config.FindServiceByName
      rw [List.find?_isSome]
      exact ⟨t, ht, by simp [hname]⟩
    simp [Config.AddService, hfound]
  · intro owner _
    unfold Config.AddService
    split <;> rfl
  · intro value hdeps
    have hlen : value.DependsOn.length ≠ 0 := fun h => hdeps (List.length_eq_zero.1 h)
    unfold Config.AddService
    split
    · rfl
    · simp only [hlen, ne_eq, not_false_eq_true, if_true]

theorem AddService_aborts_witness :
    Config.AddService id newTestConfig "a" (.fresh {}) = none ∧
    Config.AddService id newTestConfig "z" (.ownedBy "a") = none ∧
    Config.AddService id newTestConfig "z"
      (.fresh { DependsOn := [("a", ServiceStarted)] }) = none ∧
    (Config.AddService id newTestConfig "z" (.fresh {})).isSome = true :=
  ⟨(AddService_aborts id newTestConfig "a").1
      ⟨{ Name := "a", NameEscaped := "a",
         DockerComposeService := { DependsOn := [("b", ServiceHealthy)] } },
        by simp [newTestConfig], rfl⟩ (.fresh {}),
    (AddService_aborts id newTestConfig "z").2.1 "a"
      ⟨{ Name := "a", NameEscaped := "a",
         DockerComposeService := { DependsOn := [("b", ServiceHealthy)] } },
        by simp [newTestConfig], rfl⟩,
    (AddService_aborts id newTestConfig "z").2.2 { DependsOn := [("a", ServiceStarted)] }
      (by simp),
    rfl⟩

theorem mem_dependsOnOf (cfg : Config) (marked : List String) (x : String) :
    x ∈ dependsOnOf cfg marked ↔ ∃ a ∈ marked, DependsOnEdge cfg a x := by
  unfold dependsOnOf DependsOnEdge
  simp only [List.mem_flatMap, List.mem_filter, decide_eq_true_eq, List.mem_map]
  constructor
  · rintro ⟨t, ⟨ht, hmark⟩, hx, hfound⟩
    exact ⟨t.Name, hmark, t, ht, rfl, hx, hfound⟩
  · rintro ⟨a, ha, t, ht, hname, hx, hfound⟩
    exact ⟨t, ⟨ht, by rw [hname]; exact ha⟩, hx, hfound⟩

theorem mem_markRound (cfg : Config) (marked : List String) (x : String) :
    x ∈ markRound cfg marked ↔ x ∈ marked ∨ ∃ a ∈ marked, DependsOnEdge cfg a x := by
  unfold markRound
  simp only [List.mem_append, List.mem_filter, mem_dependsOnOf, decide_eq_true_eq]
  constructor
  · rintro (h | ⟨h, _⟩)
    · exact Or.inl h
    · exact Or.inr h
  · rintro (h | h)
    · exact Or.inl h
    · by_cases hx : x ∈ marked
      · exact Or.inl hx
      · exact Or.inr ⟨h, by simpa using hx⟩

theorem DependsOnEdge.mem_names {cfg : Config} {a b : String} (h : DependsOnEdge cfg a b) :
    b ∈ cfg.Services.map (fun t => t.Name) := by
  obtain ⟨_, _, _, _, hfound⟩ := h
  unfold Config.FindService at hfound
  rw [List.find?_isSome] at hfound
  obtain ⟨t, ht, hname⟩ := hfound
  exact List.mem_map.2 ⟨t, ht, by simpa using hname⟩

theorem markRound_subset_names (cfg : Config) (marked : List String)
    (h : ∀ x ∈ marked, x ∈ cfg.Services.map (fun t => t.Name)) :
    ∀ x ∈ markRound cfg marked, x ∈ cfg.Services.map (fun t => t.Name) := by
  intro x hx
  rcases (mem_markRound cfg marked x).1 hx with hx | ⟨a, _, hedge⟩
  · exact h x hx
  · exact hedge.mem_names

theorem markRounds_subset_names (cfg : Config) (n : Nat) (marked : List String)
    (h : ∀ x ∈ marked, x ∈ cfg.Services.map (fun t => t.Name)) :
    ∀ x ∈ markRounds cfg n marked, x ∈ cfg.Services.map (fun t => t.Name) := by
  induction n generalizing marked with
  | zero => exact h
  | succ n ih => exact ih _ (markRound_subset_names cfg marked h)

theorem mem_markRounds_of_mem (cfg : Config) (n : Nat) (marked : List String) (x : String)
    (h : x ∈ marked) : x ∈ markRounds cfg n marked := by
  induction n generalizing marked with
  | zero => exact h
  | succ n ih => exact ih _ ((mem_markRound cfg marked x).2 (Or.inl h))

theorem DependsOnClosed.markRound {cfg : Config} {marked : List String}
    (h : DependsOnClosed cfg marked) :
    (∀ x, x ∈ KubeCompose.markRound cfg marked ↔ x ∈ marked) ∧
    DependsOnClosed cfg (KubeCompose.markRound cfg marked) := by
  have hmem : ∀ x, x ∈ KubeCompose.markRound cfg marked ↔ x ∈ marked := by
    intro x
    rw [mem_markRound]
    constructor
    · rintro (hx | ⟨a, ha, hedge⟩)
      · exact hx
      · exact h a ha x hedge
    · exact Or.inl
  refine ⟨hmem, ?_⟩
  intro a ha b hedge
  exact (hmem b).2 (h a ((hmem a).1 ha) b hedge)

theorem DependsOnClosed.markRounds {cfg : Config} (n : Nat) {marked : List String}
    (h : DependsOnClosed cfg marked) : DependsOnClosed cfg (KubeCompose.markRounds cfg n marked) := by
  induction n generalizing marked with
  | zero => exact h
  | succ n ih => exact ih h.markRound.2

theorem markRound_card (cfg : Config) (marked : List String)
    (h : ¬ DependsOnClosed cfg marked) :
    marked.toFinset.card + 1 ≤ (markRound cfg marked).toFinset.card := by
  unfold DependsOnClosed at h
  push_neg at h
  obtain ⟨a, ha, b, hedge, hb⟩ := h
  have hsub : marked.toFinset ⊂ (markRound cfg marked).toFinset := by
    rw [Finset.ssubset_iff_of_subset]
    · exact ⟨b, List.mem_toFinset.2 ((mem_markRound cfg marked b).2 (Or.inr ⟨a, ha, hedge⟩)),
        fun hmem => hb (List.mem_toFinset.1 hmem)⟩
    · intro x hx
      exact List.mem_toFinset.2 ((mem_markRound cfg marked x).2 (Or.inl (List.mem_toFinset.1 hx)))
  exact Finset.card_lt_card hsub

theorem markRounds_closed_or_card (cfg : Config) (n : Nat) (marked : List String) :
    DependsOnClosed cfg (markRounds cfg n marked) ∨
      marked.toFinset.card + n ≤ (markRounds cfg n marked).toFinset.card := by
  induction n generalizing marked with
  | zero => exact Or.inr (Nat.le_refl _)
  | succ n ih =>
    by_cases hclosed : DependsOnClosed cfg marked
    · exact Or.inl (DependsOnClosed.markRounds n hclosed.markRound.2)
    · rcases ih (markRound cfg marked) with h | h
      · exact Or.inl h
      · right
        have := markRound_card cfg marked hclosed
        show marked.toFinset.card + (n + 1) ≤
          (markRounds cfg n (markRound cfg marked)).toFinset.card
        omega

/-- After as many rounds as the config has services, the marked names are closed under direct
dependencies. -/
theorem markRounds_closed (cfg : Config) (name : String)
    (hname : name ∈ cfg.Services.map (fun t => t.Name)) :
    DependsOnClosed cfg (markRounds cfg cfg.Services.length [name]) := by
  rcases markRounds_closed_or_card cfg cfg.Services.length [name] with h | h
  · exact h
  · exfalso
    have hsub : (markRounds cfg cfg.Services.length [name]).toFinset ⊆
        (cfg.Services.map (fun t => t.Name)).toFinset := by
      intro x hx
      rw [List.mem_toFinset] at hx ⊢
      exact markRounds_subset_names cfg _ [name]
        (fun y hy => by rw [List.mem_singleton] at hy; rw [hy]; exact hname) x hx
    have h1 := Finset.card_le_card hsub
    have h2 := List.toFinset_card_le (cfg.Services.map (fun t => t.Name))
    have h3 : ([name] : List String).toFinset.card = 1 := by simp
    rw [List.length_map] at h2
    omega

theorem DependsOnClosed.mem_of_transGen {cfg : Config} {marked : List String}
    (h : DependsOnClosed cfg marked) {a b : String} (ha : a ∈ marked)
    (hab : Relation.TransGen (DependsOnEdge cfg) a b) : b ∈ marked := by
  induction hab with
  | single hedge => exact h a ha _ hedge
  | tail _ hedge ih => exact h _ ih _ hedge

/-- C24: for every config and every service `s` in it, `AddToFilter(s)` keeps the services of
the config, and afterwards `MatchesFilter(t)` is true for `s` itself and for every service `t`
in the transitive `depends_on` closure of `s`; and for every config, after `ClearFilter` no
service matches the filter. -/
theorem AddToFilter_closure (cfg : Config) (s : Service) (hs : s ∈ cfg.Services) :
    (cfg.AddToFilter s).Services.map (fun t => t.Name) = cfg.Services.map (fun t => t.Name) ∧
    (∀ t ∈ (cfg.AddToFilter s).Services,
      (t.Name = s.Name ∨ Relation.TransGen (DependsOnEdge cfg) s.Name t.Name) →
      (cfg.AddToFilter s).MatchesFilter t = true) ∧
    (∀ t ∈ cfg.ClearFilter.Services, cfg.ClearFilter.MatchesFilter t = false) := by
  have hname : s.Name ∈ cfg.Services.map (fun t => t.Name) := List.mem_map_of_mem _ hs
  have hclosed := markRounds_closed cfg s.Name hname
  have hself : s.Name ∈ markRounds cfg cfg.Services.length [s.Name] :=
    mem_markRounds_of_mem cfg _ _ _ (List.mem_singleton.2 rfl)
  refine ⟨?_, ?_, ?_⟩
  · unfold Config.AddToFilter
    simp only [List.map_map]
    apply List.map_congr_left
    intro t _
    simp only [Function.comp]
    split <;> rfl
  · intro t ht hreach
    unfold Config.AddToFilter at ht
    simp only [List.mem_map] at ht
    obtain ⟨t0, _, rfl⟩ := ht
    have hmarked : t0.Name ∈ markRounds cfg cfg.Services.length [s.Name] := by
      have hn : (if t0.Name ∈ markRounds cfg cfg.Services.length [s.Name] then
          { t0 with matchesFilter := true } else t0).Name = t0.Name := by
        split <;> rfl
      rw [hn] at hreach
      rcases hreach with h | h
      · rw [h]; exact hself
      · exact hclosed.mem_of_transGen hself h
    simp only [Config.MatchesFilter, hmarked, if_true]
  · intro t ht
    unfold Config.ClearFilter at ht
    simp only [List.mem_map] at ht
    obtain ⟨t0, _, rfl⟩ := ht
    rfl

theorem AddToFilter_closure_witness :
    (newTestConfig.AddToFilter newTestServiceA).Services.map
      (fun t => (t.Name, t.matchesFilter)) =
      [("a", true), ("b", true), ("c", true), ("d", true)] ∧
    (newTestConfig.AddToFilter newTestServiceA).MatchesFilter
      { Name := "d", NameEscaped := "d", matchesFilter := true } = true :=
  ⟨rfl,
    (AddToFilter_closure newTestConfig newTestServiceA
      (by simp [newTestConfig, newTestServiceA])).2.1
      { Name := "d", NameEscaped := "d", matchesFilter := true }
      (by decide)
      (Or.inr (Relation.TransGen.tail
        (Relation.TransGen.single
          (show DependsOnEdge newTestConfig "a" "b" from
            ⟨newTestServiceA, by simp [newTestConfig, newTestServiceA], rfl,
              by simp [newTestServiceA], rfl⟩))
        (show DependsOnEdge newTestConfig "b" "d" from
          ⟨newTestServiceB, by simp [newTestConfig, newTestServiceB], rfl,
            by simp [newTestServiceB], rfl⟩)))⟩

/-! ## `loadResolvedFile` -/

/-- C27: for every path and every config loader, if `loadResolvedFile(path)` succeeds then a
second `loadResolvedFile(path)` on the loader it leaves succeeds and returns the identical
parsed object (the same address, pointing to the same value), and leaves the loader as it
was: nothing is read or parsed again, and nothing new is created. The first call reads at
most the one file. -/
theorem loadResolvedFile_memoizes (fileSystem : FileSystem) (c c1 : configLoader)
    (path : String) (cfParsed : composeFileParsedPointer)
    (h : c.loadResolvedFile fileSystem path = (.ok cfParsed, c1)) :
    c1.loadResolvedFile fileSystem path = (.ok cfParsed, c1) ∧
    (c1.loadResolvedFile fileSystem path).2.reads = c1.reads ∧
    (c1.loadResolvedFile fileSystem path).2.allocated = c1.allocated ∧
    (c1.reads = c.reads ∨ ∃ resolved, fileSystem.Abs path = .ok resolved ∧
      c1.reads = c.reads ++ [resolved]) := by
  have key : c1.loadResolvedFile fileSystem path = (.ok cfParsed, c1) ∧
      (c1.reads = c.reads ∨ ∃ resolved, fileSystem.Abs path = .ok resolved ∧
        c1.reads = c.reads ++ [resolved]) := by
    unfold configLoader.loadResolvedFile at h ⊢
    cases habs : fileSystem.Abs path with
    | error e => rw [habs] at h; simp at h
    | ok resolved =>
      rw [habs] at h
      simp only at h ⊢
      cases hcache : c.loadResolvedFileCache.lookup resolved with
      | some found =>
        rw [hcache] at h
        simp only [Prod.mk.injEq, Except.ok.injEq] at h
        obtain ⟨rfl, rfl⟩ := h
        rw [hcache]
        exact ⟨rfl, Or.inl rfl⟩
      | none =>
        rw [hcache] at h
        simp only [configLoader.loadFile] at h
        cases hparse : fileSystem.Parse resolved with
        | error e => rw [hparse] at h; simp at h
        | ok parsed =>
          rw [hparse] at h
          simp only [Prod.mk.injEq, Except.ok.injEq] at h
          obtain ⟨rfl, rfl⟩ := h
          refine ⟨?_, Or.inr ⟨resolved, rfl, rfl⟩⟩
          simp [List.lookup]
  refine ⟨key.1, ?_, ?_, key.2⟩
  · rw [key.1]
  · rw [key.1]

theorem loadResolvedFile_memoizes_witness :
    (configLoader.loadResolvedFile mockFS {} "/docker-compose.yaml").2.reads =
      ["/docker-compose.yaml"] ∧
    (configLoader.loadResolvedFile mockFS
      (configLoader.loadResolvedFile mockFS {} "/docker-compose.yaml").2
      "/docker-compose.yaml").1.toOption.map (fun cfParsed => cfParsed.address) = some 0 ∧
    (configLoader.loadResolvedFile mockFS
      (configLoader.loadResolvedFile mockFS {} "/docker-compose.yaml").2
      "/docker-compose.yaml").2.reads = ["/docker-compose.yaml"] :=
  ⟨rfl, rfl,
    (loadResolvedFile_memoizes mockFS {}
      (configLoader.loadResolvedFile mockFS {} "/docker-compose.yaml").2
      "/docker-compose.yaml"
      { address := 0,
        value := { services := [("testservice", { service := { Image := "ubuntu:latest" } })] } }
      rfl).2.1.trans rfl⟩

/-! ## `New`: the `depends_on` graph -/

theorem firstError_ok_iff (outcomes : List (Except LoadError Unit)) :
    firstError outcomes = .ok () ↔ ∀ r ∈ outcomes, r = .ok () := by
  induction outcomes with
  | nil => simp [firstError]
  | cons r rest ih =>
    cases r with
    | ok u => simp [firstError, ih]
    | error e => simp [firstError]

theorem firstError_error (outcomes : List (Except LoadError Unit)) (e : LoadError)
    (h : firstError outcomes = .error e) : .error e ∈ outcomes := by
  induction outcomes with
  | nil => simp [firstError] at h
  | cons r rest ih =>
    cases r with
    | ok u =>
      simp only [firstError] at h
      exact List.mem_cons_of_mem _ (ih h)
    | error e1 =>
      simp only [firstError, Except.error.injEq] at h
      subst h
      exact List.mem_cons_self _ _

theorem lookup_mem {β : Type} (entries : List (String × β)) (name : String) (value : β)
    (h : entries.lookup name = some value) : (name, value) ∈ entries := by
  induction entries with
  | nil => simp [List.lookup] at h
  | cons entry rest ih =>
    obtain ⟨k, v⟩ := entry
    by_cases hk : name = k
    · subst hk
      simp [List.lookup] at h
      subst h
      exact List.mem_cons_self _ _
    · have hbeq : (name == k) = false := by simpa using hk
      simp only [List.lookup, hbeq] at h
      exact List.mem_cons_of_mem _ (ih h)

theorem lookup_map_value {β γ : Type} (f : β → γ) (entries : List (String × β)) (name : String) :
    (entries.map (fun entry => (entry.1, f entry.2))).lookup name =
      (entries.lookup name).map f := by
  induction entries with
  | nil => rfl
  | cons entry rest ih =>
    obtain ⟨k, v⟩ := entry
    by_cases hk : name = k
    · subst hk
      simp [List.lookup]
    · have hbeq : (name == k) = false := by simpa using hk
      simp only [List.map_cons, List.lookup, hbeq, ih]

theorem resolveDependsOn_ok (services : List (String × composeFileParsedService))
    (h : resolveDependsOn services = .ok ()) (name : String)
    (cfService : composeFileParsedService) (hname : services.lookup name = some cfService)
    (d : String × ServiceHealthiness) (hd : d ∈ cfService.dependsOn) :
    (services.lookup d.1).isSome = true := by
  unfold resolveDependsOn at h
  rw [firstError_ok_iff] at h
  have hmem := lookup_mem services name cfService hname
  have := h (if (services.lookup d.1).isSome then .ok () else .error (.dependsOnMissing name d.1))
    (List.mem_flatMap.2 ⟨(name, cfService), hmem, List.mem_map.2 ⟨d, hd, rfl⟩⟩)
  by_contra hnone
  simp [hnone] at this

theorem resolveDependsOn_error (services : List (String × composeFileParsedService))
    (e : LoadError) (h : resolveDependsOn services = .error e) :
    ∃ service dependency, e = .dependsOnMissing service dependency := by
  unfold resolveDependsOn at h
  have hmem := firstError_error _ e h
  simp only [List.mem_flatMap, List.mem_map] at hmem
  obtain ⟨entry, _, d, _, hd⟩ := hmem
  by_cases hfound : (services.lookup d.1).isSome = true
  · simp [hfound] at hd
  · simp only [hfound, Bool.false_eq_true, if_false, Except.error.injEq] at hd
    exact ⟨entry.1, d.1, hd.symm⟩

/-- One step of the traversal: when the traversal of a service succeeds, so does the traversal of
each of its dependencies, one level deeper and with the service on the stack. -/
theorem ensureNoDependsOnCycle_step (services : List (String × composeFileParsedService))
    (fuel : Nat) (recStack : List String) (name dependency : String)
    (h : ensureNoDependsOnCycle services fuel recStack name = .ok ())
    (hedge : ParsedDependsOnEdge services name dependency) :
    ∃ fuel0, fuel = fuel0 + 1 ∧
      ensureNoDependsOnCycle services fuel0 (name :: recStack) dependency = .ok () := by
  cases fuel with
  | zero => simp [ensureNoDependsOnCycle] at h
  | succ fuel0 =>
    refine ⟨fuel0, rfl, ?_⟩
    obtain ⟨cfService, hlookup, hdep⟩ := hedge
    rw [List.mem_map] at hdep
    obtain ⟨d, hd, rfl⟩ := hdep
    simp only [ensureNoDependsOnCycle] at h
    by_cases hstack : name ∈ recStack
    · simp [hstack] at h
    · simp only [hstack, if_false, hlookup] at h
      rw [firstError_ok_iff] at h
      exact h _ (List.mem_map.2 ⟨d, hd, rfl⟩)

theorem ensureNoDependsOnCycle_path (services : List (String × composeFileParsedService))
    (a b : String) (hpath : Relation.TransGen (ParsedDependsOnEdge services) a b)
    (fuel : Nat) (recStack : List String)
    (h : ensureNoDependsOnCycle services fuel recStack a = .ok ()) :
    ∃ fuel1 recStack1, a ∈ recStack1 ∧
      ensureNoDependsOnCycle services fuel1 recStack1 b = .ok () := by
  induction hpath with
  | single hedge =>
    obtain ⟨fuel0, _, h0⟩ := ensureNoDependsOnCycle_step services fuel recStack a _ h hedge
    exact ⟨fuel0, a :: recStack, List.mem_cons_self _ _, h0⟩
  | tail _ hedge ih =>
    obtain ⟨fuel1, recStack1, hmem, h1⟩ := ih
    obtain ⟨fuel0, _, h0⟩ := ensureNoDependsOnCycle_step services fuel1 recStack1 _ _ h1 hedge
    exact ⟨fuel0, _ :: recStack1, List.mem_cons_of_mem _ hmem, h0⟩

theorem ensureNoDependsOnCycle_of_mem (services : List (String × composeFileParsedService))
    (fuel : Nat) (recStack : List String) (name : String) (hmem : name ∈ recStack) :
    ensureNoDependsOnCycle services fuel recStack name ≠ .ok () := by
  cases fuel with
  | zero => simp [ensureNoDependsOnCycle]
  | succ fuel0 => simp [ensureNoDependsOnCycle, hmem]

/-- A traversal that succeeds did not start on a cycle. -/
theorem ensureNoDependsOnCycle_sound (services : List (String × composeFileParsedService))
    (fuel : Nat) (name : String)
    (h : ensureNoDependsOnCycle services fuel [] name = .ok ()) :
    ¬ Relation.TransGen (ParsedDependsOnEdge services) name name := by
  intro hpath
  obtain ⟨fuel1, recStack1, hmem, h1⟩ :=
    ensureNoDependsOnCycle_path services name name hpath fuel [] h
  exact ensureNoDependsOnCycle_of_mem services fuel1 recStack1 name hmem h1

/-- The traversal never runs out of fuel: its stack holds distinct names of services, so it is
never deeper than there are services. -/
theorem ensureNoDependsOnCycle_ne_tooDeep (services : List (String × composeFileParsedService))
    (fuel : Nat) (recStack : List String) (name : String)
    (hnodup : recStack.Nodup)
    (hsub : ∀ x ∈ recStack, x ∈ services.map (fun entry => entry.1))
    (hfuel : services.length < fuel + recStack.length) :
    ensureNoDependsOnCycle services fuel recStack name ≠ .error .tooDeep := by
  induction fuel generalizing recStack name with
  | zero =>
    exfalso
    have hle := (List.subperm_of_subset hnodup hsub).length_le
    rw [List.length_map] at hle
    omega
  | succ fuel0 ih =>
    simp only [ensureNoDependsOnCycle]
    by_cases hstack : name ∈ recStack
    · simp [hstack]
    · simp only [hstack, if_false]
      cases hlookup : services.lookup name with
      | none => simp
      | some cfService =>
        simp only
        intro herr
        have hmem := firstError_error _ _ herr
        rw [List.mem_map] at hmem
        obtain ⟨d, _, hd⟩ := hmem
        refine ih (name :: recStack) d.1 (List.nodup_cons.2 ⟨hstack, hnodup⟩) ?_ ?_ hd
        · intro x hx
          rcases List.mem_cons.1 hx with rfl | hx
          · exact List.mem_map.2 ⟨(x, cfService), lookup_mem services x cfService hlookup, rfl⟩
          · exact hsub x hx
        · simp only [List.length_cons]
          omega

theorem ensureNoDependsOnCycle_error (services : List (String × composeFileParsedService))
    (fuel : Nat) (recStack : List String) (name : String) (e : LoadError)
    (h : ensureNoDependsOnCycle services fuel recStack name = .error e) :
    e = .tooDeep ∨ ∃ service, e = .dependsOnCycle service := by
  induction fuel generalizing recStack name with
  | zero =>
    simp only [ensureNoDependsOnCycle, Except.error.injEq] at h
    exact Or.inl h.symm
  | succ fuel0 ih =>
    simp only [ensureNoDependsOnCycle] at h
    by_cases hstack : name ∈ recStack
    · simp only [hstack, if_true, Except.error.injEq] at h
      exact Or.inr ⟨name, h.symm⟩
    · simp only [hstack, if_false] at h
      cases hlookup : services.lookup name with
      | none => rw [hlookup] at h; simp at h
      | some cfService =>
        rw [hlookup] at h
        simp only at h
        have hmem := firstError_error _ _ h
        rw [List.mem_map] at hmem
        obtain ⟨d, _, hd⟩ := hmem
        exact ih _ _ hd

/-- What `buildServices` answers: a config exactly when every `depends_on` names a service and
no service is on a cycle, and otherwise one of the two errors about `depends_on`. -/
theorem buildServices_cases (cfParsed : composeFileParsed) :
    (buildServices cfParsed = .ok { Services := cfParsed.services.map (fun entry =>
        (entry.1, { entry.2.service with DependsOn := entry.2.dependsOn })) } ∧
      (∀ name cfService, cfParsed.services.lookup name = some cfService →
        ∀ d ∈ cfService.dependsOn, (cfParsed.services.lookup d.1).isSome = true) ∧
      (∀ name, ¬ Relation.TransGen (ParsedDependsOnEdge cfParsed.services) name name)) ∨
    (∃ e, buildServices cfParsed = .error e ∧
      ((∃ service dependency, e = .dependsOnMissing service dependency) ∨
        ∃ service, e = .dependsOnCycle service)) := by
  unfold buildServices
  cases hresolve : resolveDependsOn cfParsed.services with
  | error e => exact Or.inr ⟨e, rfl, Or.inl (resolveDependsOn_error _ e hresolve)⟩
  | ok u =>
    simp only
    cases hcycle : firstError (cfParsed.services.map (fun entry =>
        ensureNoDependsOnCycle cfParsed.services (cfParsed.services.length + 1) [] entry.1)) with
    | error e =>
      refine Or.inr ⟨e, rfl, Or.inr ?_⟩
      have hmem := firstError_error _ _ hcycle
      rw [List.mem_map] at hmem
      obtain ⟨entry, _, hentry⟩ := hmem
      rcases ensureNoDependsOnCycle_error _ _ _ _ _ hentry with hdeep | hcyc
      · exfalso
        subst hdeep
        exact ensureNoDependsOnCycle_ne_tooDeep cfParsed.services _ [] entry.1 List.nodup_nil
          (fun x hx => by simp at hx) (by simp) hentry
      · exact hcyc
    | ok u1 =>
      refine Or.inl ⟨rfl, ?_, ?_⟩
      · intro name cfService hname d hd
        exact resolveDependsOn_ok _ hresolve name cfService hname d hd
      · intro name hpath
        have hsome : ∃ cfService, cfParsed.services.lookup name = some cfService := by
          rcases Relation.TransGen.head'_iff.1 hpath with ⟨_, ⟨cfService, hl, _⟩, _⟩
          exact ⟨cfService, hl⟩
        obtain ⟨cfService, hl⟩ := hsome
        rw [firstError_ok_iff] at hcycle
        have := hcycle _ (List.mem_map.2 ⟨(name, cfService), lookup_mem _ _ _ hl, rfl⟩)
        exact ensureNoDependsOnCycle_sound _ _ name this hpath

theorem ComposeConfig.DependsOnEdge_of_parsed (cfParsed : composeFileParsed) (a b : String) :
    ComposeConfig.DependsOnEdge { Services := cfParsed.services.map (fun entry =>
        (entry.1, { entry.2.service with DependsOn := entry.2.dependsOn })) } a b ↔
      ParsedDependsOnEdge cfParsed.services a b := by
  unfold ComposeConfig.DependsOnEdge ParsedDependsOnEdge
  simp only
  rw [lookup_map_value (fun cfService : composeFileParsedService =>
    ({ cfService.service with DependsOn := cfService.dependsOn } : DockerComposeService))]
  constructor
  · rintro ⟨service, hs, hb⟩
    cases hl : cfParsed.services.lookup a with
    | none => rw [hl] at hs; simp at hs
    | some cfService =>
      rw [hl] at hs
      simp only [Option.map_some', Option.some.injEq] at hs
      subst hs
      exact ⟨cfService, rfl, hb⟩
  · rintro ⟨cfService, hl, hb⟩
    exact ⟨_, by rw [hl]; rfl, hb⟩

theorem New_eq_buildServices (fileSystem : FileSystem) (files : List String)
    (file resolved : String) (cfParsed : composeFileParsed)
    (hfile : selectFile fileSystem files = .ok file)
    (habs : fileSystem.Abs file = .ok resolved)
    (hparse : fileSystem.Parse resolved = .ok cfParsed) :
    New fileSystem files = buildServices cfParsed := by
  simp [New, hfile, configLoader.loadResolvedFile, habs, configLoader.loadFile, hparse,
    List.lookup]

theorem New_ok_inv (fileSystem : FileSystem) (files : List String) (cfg : ComposeConfig)
    (h : New fileSystem files = .ok cfg) :
    ∃ cfParsed, buildServices cfParsed = .ok cfg := by
  unfold New at h
  cases hfile : selectFile fileSystem files with
  | error e => rw [hfile] at h; simp at h
  | ok file =>
    rw [hfile] at h
    simp only at h
    cases hload : (configLoader.loadResolvedFile fileSystem {} file).1 with
    | error e => rw [hload] at h; simp at h
    | ok cfParsed =>
      rw [hload] at h
      exact ⟨cfParsed.value, h⟩

/-- C26: for every config produced by a successful `New`, every `depends_on` reference of a
service of the config points to a service of the config and the `depends_on` graph over the
services has no cycle; and for every input file, once loaded, whose `depends_on` declarations
contain a cycle or name a service that does not exist, `New` fails, with the error about the
cycle or about the missing service. -/
theorem New_dependsOn (fileSystem : FileSystem) (files : List String) :
    (∀ cfg, New fileSystem files = .ok cfg →
      (∀ name service, cfg.Services.lookup name = some service →
        ∀ d ∈ service.DependsOn, (cfg.Services.lookup d.1).isSome = true) ∧
      (∀ name, ¬ Relation.TransGen cfg.DependsOnEdge name name)) ∧
    (∀ file resolved cfParsed, selectFile fileSystem files = .ok file →
      fileSystem.Abs file = .ok resolved → fileSystem.Parse resolved = .ok cfParsed →
      ((∃ name, Relation.TransGen (ParsedDependsOnEdge cfParsed.services) name name) ∨
        (∃ name cfService d, cfParsed.services.lookup name = some cfService ∧
          d ∈ cfService.dependsOn ∧ cfParsed.services.lookup d.1 = none)) →
      ∃ e, New fileSystem files = .error e ∧
        ((∃ service dependency, e = .dependsOnMissing service dependency) ∨
          ∃ service, e = .dependsOnCycle service)) := by
  constructor
  · intro cfg h
    obtain ⟨cfParsed, hbuild⟩ := New_ok_inv fileSystem files cfg h
    rcases buildServices_cases cfParsed with ⟨hok, hvalid, hacyclic⟩ | ⟨e, herr, _⟩
    · rw [hok] at hbuild
      simp only [Except.ok.injEq] at hbuild
      subst hbuild
      constructor
      · intro name service hname d hd
        simp only at hname ⊢
        rw [lookup_map_value (fun cfService : composeFileParsedService =>
          ({ cfService.service with DependsOn := cfService.dependsOn } : DockerComposeService))]
          at hname ⊢
        cases hl : cfParsed.services.lookup name with
        | none => rw [hl] at hname; simp at hname
        | some cfService =>
          rw [hl] at hname
          simp only [Option.map_some', Option.some.injEq] at hname
          subst hname
          have := hvalid name cfService hl d hd
          rw [Option.isSome_map']
          exact this
      · intro name hpath
        exact hacyclic name (Relation.TransGen.mono
          (fun a b hab => (ComposeConfig.DependsOnEdge_of_parsed cfParsed a b).1 hab) hpath)
    · rw [herr] at hbuild
      simp at hbuild
  · intro file resolved cfParsed hfile habs hparse hbad
    rw [New_eq_buildServices fileSystem files file resolved cfParsed hfile habs hparse]
    rcases buildServices_cases cfParsed with ⟨_, hvalid, hacyclic⟩ | herr
    · exfalso
      rcases hbad with ⟨name, hpath⟩ | ⟨name, cfService, d, hl, hd, hnone⟩
      · exact hacyclic name hpath
      · have := hvalid name cfService hl d hd
        rw [hnone] at this
        simp at this
    · exact herr

theorem New_dependsOn_witness :
    New mockFS ["/docker-compose.depends-on.yml"] = .ok { Services := [
      ("service1", { DependsOn := [("service2", ServiceStarted)] }),
      ("service2", { DependsOn := [("service3", ServiceHealthy)] }),
      ("service3", {})] } ∧
    ¬ Relation.TransGen (ComposeConfig.DependsOnEdge { Services := [
      ("service1", { DependsOn := [("service2", ServiceStarted)] }),
      ("service2", { DependsOn := [("service3", ServiceHealthy)] }),
      ("service3", {})] }) "service1" "service1" ∧
    (∃ e, New mockFS ["/docker-compose.depends-on-cycle.yml"] = .error e ∧
      ((∃ service dependency, e = .dependsOnMissing service dependency) ∨
        ∃ service, e = .dependsOnCycle service)) :=
  ⟨rfl,
    ((New_dependsOn mockFS ["/docker-compose.depends-on.yml"]).1 _ rfl).2 "service1",
    (New_dependsOn mockFS ["/docker-compose.depends-on-cycle.yml"]).2
      "/docker-compose.depends-on-cycle.yml" "/docker-compose.depends-on-cycle.yml"
      { services := [
          ("service1", { dependsOn := [("service2", ServiceStarted)] }),
          ("service2", { dependsOn := [("service1", ServiceStarted)] })] }
      rfl rfl rfl
      (Or.inl ⟨"service1", Relation.TransGen.tail
        (Relation.TransGen.single
          (show ParsedDependsOnEdge _ "service1" "service2" from
            ⟨{ dependsOn := [("service2", ServiceStarted)] }, rfl, by simp⟩))
        (show ParsedDependsOnEdge _ "service2" "service1" from
          ⟨{ dependsOn := [("service1", ServiceStarted)] }, rfl, by simp⟩)⟩)⟩

/-! ## `createPod`: the pod and the must-become-ready set -/

theorem getAppImageInfoOnce_appsThatNeedToBeReady (w : World) (u : upRunner) (a : app) :
    (getAppImageInfoOnce w u a).2.appsThatNeedToBeReady = u.appsThatNeedToBeReady := by
  unfold getAppImageInfoOnce
  split <;> rfl

theorem createServicesAndGetPodHostAliasesOnce_appsThatNeedToBeReady (w : World)
    (u : upRunner) :
    (createServicesAndGetPodHostAliasesOnce w u).2.2.appsThatNeedToBeReady =
      u.appsThatNeedToBeReady := by
  unfold createServicesAndGetPodHostAliasesOnce
  split <;> rfl

theorem getAppImageInfoOnce_findApp (w : World) (u : upRunner) (name : String) (a : app)
    (ha : findApp u.apps name = some a) :
    ∃ a1, findApp (getAppImageInfoOnce w u a).2.apps name = some a1 ∧
      a1.composeService = a.composeService := by
  unfold getAppImageInfoOnce
  split
  · exact ⟨a, ha, rfl⟩
  · have hname : a.name = name := findApp_name ha
    refine ⟨{ a with imageInfo := { w.getAppImageInfo a.name with onceDone := true } }, ?_, rfl⟩
    have := findApp_setApp_self u.apps
      { a with imageInfo := { w.getAppImageInfo a.name with onceDone := true } }
      (by
        show (findApp u.apps a.name).isSome = true
        rw [hname, ha]
        rfl)
    rw [← hname]
    exact this

theorem findApp_map (f : app → app) (hf : ∀ a, (f a).name = a.name) (apps : List app)
    (name : String) : findApp (apps.map f) name = (findApp apps name).map f := by
  induction apps with
  | nil => rfl
  | cons c rest ih =>
    by_cases hc : c.name = name
    · simp [findApp, List.find?_cons, hc, hf]
    · have hfc : ¬ (f c).name = name := by rw [hf]; exact hc
      simpa [findApp, List.find?_cons, hc, hfc] using ih

theorem createServicesAndGetPodHostAliasesOnce_findApp (w : World) (u : upRunner)
    (name : String) (a1 : app) (ha : findApp u.apps name = some a1) :
    ∃ a2, findApp (createServicesAndGetPodHostAliasesOnce w u).2.2.apps name = some a2 ∧
      a2.composeService = a1.composeService ∧ a2.imageInfo = a1.imageInfo := by
  unfold createServicesAndGetPodHostAliasesOnce
  split
  · exact ⟨a1, ha, rfl, rfl⟩
  · simp only
    rw [findApp_map _ (fun a => by split <;> rfl), ha]
    refine ⟨_, rfl, ?_, ?_⟩ <;> simp only <;> cases w.serviceClusterIPs a1.name <;> rfl

theorem mem_setAdd (set : List String) (name x : String) :
    x ∈ setAdd set name ↔ x ∈ set ∨ x = name := by
  unfold setAdd
  split
  · rename_i h
    constructor
    · exact Or.inl
    · rintro (hx | rfl)
      · exact hx
      · exact h
  · simp

theorem createPodObject_appsThatNeedToBeReady (w : World) (u : upRunner) (name : String) :
    (createPodObject w u name).2.appsThatNeedToBeReady = u.appsThatNeedToBeReady := by
  unfold createPodObject
  split
  · rfl
  · rename_i a _
    have hu1 := getAppImageInfoOnce_appsThatNeedToBeReady w u a
    split
    · rename_i e u1 h1
      rw [h1] at hu1
      exact hu1
    · rename_i u1 h1
      rw [h1] at hu1
      have hu1 : u1.appsThatNeedToBeReady = u.appsThatNeedToBeReady := hu1
      split
      · exact hu1
      · have hu2 := createServicesAndGetPodHostAliasesOnce_appsThatNeedToBeReady w u1
        simp only
        split
        · rename_i v e u2 h2
          rw [h2] at hu2
          exact hu2.trans hu1
        · rename_i v u2 h2
          rw [h2] at hu2
          have hu2 : u2.appsThatNeedToBeReady = u.appsThatNeedToBeReady := hu2.trans hu1
          split
          · exact hu2
          · split <;> exact hu2

/-- What `createPodObject` answers, step by step, for an app that is in the table. -/
theorem createPodObject_cases (w : World) (u : upRunner) (name : String) (a : app)
    (ha : findApp u.apps name = some a) :
    (∃ e, (getAppImageInfoOnce w u a).1 = some e ∧
      createPodObject w u name = (.err e, (getAppImageInfoOnce w u a).2)) ∨
    ((getAppImageInfoOnce w u a).1 = none ∧
      ∃ a1, findApp (getAppImageInfoOnce w u a).2.apps name = some a1 ∧
        a1.composeService = a.composeService ∧
        ((∃ e, (createServicesAndGetPodHostAliasesOnce w (getAppImageInfoOnce w u a).2).2.1 =
              some e ∧
            createPodObject w u name = (.err e,
              (createServicesAndGetPodHostAliasesOnce w (getAppImageInfoOnce w u a).2).2.2)) ∨
          ((createServicesAndGetPodHostAliasesOnce w (getAppImageInfoOnce w u a).2).2.1 = none ∧
            ∃ a2, findApp
                (createServicesAndGetPodHostAliasesOnce w
                  (getAppImageInfoOnce w u a).2).2.2.apps name = some a2 ∧
              a2.composeService = a.composeService ∧ a2.imageInfo = a1.imageInfo ∧
              createPodObject w u name =
                ((match createPodSecurityContext
                    (createServicesAndGetPodHostAliasesOnce w
                      (getAppImageInfoOnce w u a).2).2.2.opts a2 with
                  | none => .panic
                  | some securityContext =>
                    .ok
                      { Spec :=
                          { AutomountServiceAccountToken := some false,
                            Containers := [
                              { Command := a2.composeService.DockerComposeService.Entrypoint,
                                Env := createPodEnvVars
                                  a1.composeService.DockerComposeService.Environment,
                                Image := a2.imageInfo.podImage,
                                ImagePullPolicy := PullAlways,
                                Name := a2.composeService.NameEscaped,
                                Ports := createPodContainerPorts a1.composeService.Ports,
                                ReadinessProbe := a1.GetReadinessProbe,
                                WorkingDir :=
                                  a2.composeService.DockerComposeService.WorkingDir }],
                            HostAliases :=
                              (createServicesAndGetPodHostAliasesOnce w
                                (getAppImageInfoOnce w u a).2).1,
                            RestartPolicy := getRestartPolicyforService a2,
                            SecurityContext := securityContext },
                        ObjectMeta := InitObjectMeta
                          (createServicesAndGetPodHostAliasesOnce w
                            (getAppImageInfoOnce w u a).2).2.2.cfg a2.composeService }),
                  (createServicesAndGetPodHostAliasesOnce w
                    (getAppImageInfoOnce w u a).2).2.2)))) := by
  obtain ⟨a1, ha1, hcs1⟩ := getAppImageInfoOnce_findApp w u name a ha
  obtain ⟨a2, ha2, hcs2, hinfo2⟩ :=
    createServicesAndGetPodHostAliasesOnce_findApp w (getAppImageInfoOnce w u a).2 name a1 ha1
  unfold createPodObject
  rw [ha]
  simp only
  rcases hinfo : getAppImageInfoOnce w u a with ⟨r1, u1⟩
  rw [hinfo] at ha1 ha2
  simp only at ha1 ha2 ⊢
  cases r1 with
  | some e => exact Or.inl ⟨e, rfl, rfl⟩
  | none =>
    refine Or.inr ⟨rfl, a1, ha1, hcs1, ?_⟩
    simp only [ha1]
    rcases halias : createServicesAndGetPodHostAliasesOnce w u1 with ⟨v, r2, u2⟩
    rw [halias] at ha2
    simp only at ha2 ⊢
    cases r2 with
    | some e => exact Or.inl ⟨e, rfl, rfl⟩
    | none =>
      refine Or.inr ⟨rfl, a2, ha2, hcs2.trans hcs1, hinfo2, ?_⟩
      simp only [ha2]
      cases createPodSecurityContext u2.opts a2 <;> rfl

/-- C21: for every app for which `createPod` reaches pod construction, the pod handed to the
cluster has exactly one container, named `NameEscaped`, whose command is the entrypoint of the
compose service, whose args are unset (whatever the compose command is), whose image is
`imageInfo.podImage` of the app with pull policy `Always`, and whose ports are the ports of the
service in order with upper-cased protocol; `AutomountServiceAccountToken` is false. -/
theorem createPodObject_container (w : World) (u u2 : upRunner) (name : String) (a : app)
    (pod : Pod) (ha : findApp u.apps name = some a)
    (h : createPodObject w u name = (.ok pod, u2)) :
    ∃ a2 container, findApp u2.apps name = some a2 ∧
      a2.composeService = a.composeService ∧
      pod.Spec.Containers = [container] ∧
      container.Name = a.composeService.NameEscaped ∧
      container.Command = a.composeService.DockerComposeService.Entrypoint ∧
      container.Args = [] ∧
      container.Image = a2.imageInfo.podImage ∧
      container.ImagePullPolicy = "Always" ∧
      container.Ports = a.composeService.Ports.map (fun port =>
        { ContainerPort := port.Port, Protocol := ToUpper port.Protocol }) ∧
      pod.Spec.AutomountServiceAccountToken = some false := by
  rcases createPodObject_cases w u name a ha with
    ⟨e, _, herr⟩ | ⟨_, a1, _, hcs1, ⟨e, _, herr⟩ | ⟨_, a2, ha2, hcs2, _, hpod⟩⟩
  · rw [herr] at h
    simp at h
  · rw [herr] at h
    simp at h
  · rw [hpod] at h
    cases hsc : createPodSecurityContext
        (createServicesAndGetPodHostAliasesOnce w (getAppImageInfoOnce w u a).2).2.2.opts a2 with
    | none =>
      rw [hsc] at h
      simp at h
    | some securityContext =>
      rw [hsc] at h
      simp only [Prod.mk.injEq, Result.ok.injEq] at h
      obtain ⟨hp, hu2⟩ := h
      subst hp
      subst hu2
      refine ⟨a2, _, ha2, hcs2, rfl, ?_, ?_, rfl, rfl, rfl, ?_, rfl⟩
      · simp only [hcs2]
      · simp only [hcs2]
      · simp only [hcs1, createPodContainerPorts]

theorem createPodObject_container_witness :
    findApp runnerApi.apps "Api" = some appApi ∧
    (createPodObject worldApi runnerApi "Api").1 = .ok podApi ∧
    ∃ a2 container,
      findApp (createPodObject worldApi runnerApi "Api").2.apps "Api" = some a2 ∧
      a2.composeService = appApi.composeService ∧
      podApi.Spec.Containers = [container] ∧
      container.Name = appApi.composeService.NameEscaped ∧
      container.Command = appApi.composeService.DockerComposeService.Entrypoint ∧
      container.Args = [] ∧
      container.Image = a2.imageInfo.podImage ∧
      container.ImagePullPolicy = "Always" ∧
      container.Ports = appApi.composeService.Ports.map (fun port =>
        { ContainerPort := port.Port, Protocol := ToUpper port.Protocol }) ∧
      podApi.Spec.AutomountServiceAccountToken = some false :=
  ⟨rfl, rfl,
    createPodObject_container worldApi runnerApi (createPodObject worldApi runnerApi "Api").2
      "Api" appApi podApi rfl rfl⟩

/-- C22: for every app in the table: when `createPod` gets as far as the pod-create call and
the cluster answers with success or already-exists, `createPod` returns no error and the app
is in `appsThatNeedToBeReady` afterwards; when image resolution, the host-alias computation or
the pod creation fails with another error, `createPod` returns that error and
`appsThatNeedToBeReady` is as before. Every member of `appsThatNeedToBeReady` is still a
member after `createPod`, whatever its outcome. -/
theorem createPod_appsThatNeedToBeReady (w : World) (u : upRunner) (name : String) (a : app)
    (ha : findApp u.apps name = some a) :
    (∀ pod u2,
      createPodObject w { u with createPodCalls := u.createPodCalls ++ [⟨name, u.apps, u.cfg⟩] }
        name = (.ok pod, u2) →
      ((w.podCreate pod = .created ∨ w.podCreate pod = .alreadyExists) →
        (createPod w u name).1 = .ok () ∧
        name ∈ (createPod w u name).2.appsThatNeedToBeReady) ∧
      (∀ e, w.podCreate pod = .failed e →
        (createPod w u name).1 = .err e ∧
        (createPod w u name).2.appsThatNeedToBeReady = u.appsThatNeedToBeReady)) ∧
    (∀ e,
      (getAppImageInfoOnce w
        { u with createPodCalls := u.createPodCalls ++ [⟨name, u.apps, u.cfg⟩] } a).1 = some e →
      (createPod w u name).1 = .err e ∧
      (createPod w u name).2.appsThatNeedToBeReady = u.appsThatNeedToBeReady) ∧
    (∀ e,
      (getAppImageInfoOnce w
        { u with createPodCalls := u.createPodCalls ++ [⟨name, u.apps, u.cfg⟩] } a).1 = none →
      (createServicesAndGetPodHostAliasesOnce w
        (getAppImageInfoOnce w
          { u with createPodCalls := u.createPodCalls ++ [⟨name, u.apps, u.cfg⟩] } a).2).2.1 =
        some e →
      (createPod w u name).1 = .err e ∧
      (createPod w u name).2.appsThatNeedToBeReady = u.appsThatNeedToBeReady) ∧
    (∀ x ∈ u.appsThatNeedToBeReady, x ∈ (createPod w u name).2.appsThatNeedToBeReady) := by
  have hset := createPodObject_appsThatNeedToBeReady w
    { u with createPodCalls := u.createPodCalls ++ [⟨name, u.apps, u.cfg⟩] } name
  have hcases := createPodObject_cases w
    { u with createPodCalls := u.createPodCalls ++ [⟨name, u.apps, u.cfg⟩] } name a ha
  have herr : ∀ e u2,
      createPodObject w { u with createPodCalls := u.createPodCalls ++ [⟨name, u.apps, u.cfg⟩] }
        name = (.err e, u2) →
      (createPod w u name).1 = .err e ∧
      (createPod w u name).2.appsThatNeedToBeReady = u.appsThatNeedToBeReady := by
    intro e u2 h
    rw [h] at hset
    simp only [createPod, h]
    exact ⟨trivial, hset⟩
  refine ⟨?_, ?_, ?_, ?_⟩
  · intro pod u2 h
    rw [h] at hset
    have hset : u2.appsThatNeedToBeReady = u.appsThatNeedToBeReady := hset
    constructor
    · rintro (hc | hc)
      · simp only [createPod, h, hc]
        exact ⟨trivial, (mem_setAdd _ _ _).2 (Or.inr rfl)⟩
      · simp only [createPod, h, hc]
        exact ⟨trivial, (mem_setAdd _ _ _).2 (Or.inr rfl)⟩
    · intro e hc
      simp only [createPod, h, hc]
      exact ⟨trivial, hset⟩
  · intro e he
    rcases hcases with ⟨e1, he1, hobj⟩ | ⟨hnone, _⟩
    · rw [he] at he1
      injection he1 with he1
      subst he1
      exact herr _ _ hobj
    · rw [he] at hnone
      simp at hnone
  · intro e hnone he
    rcases hcases with ⟨e1, he1, _⟩ | ⟨_, a1, _, _, ⟨e2, he2, hobj⟩ | ⟨hnone2, _⟩⟩
    · rw [hnone] at he1
      simp at he1
    · rw [he] at he2
      injection he2 with he2
      subst he2
      exact herr _ _ hobj
    · rw [he] at hnone2
      simp at hnone2
  · intro x hx
    unfold createPod
    simp only
    split
    · rename_i u2 h
      rw [h] at hset
      rw [show u2.appsThatNeedToBeReady = u.appsThatNeedToBeReady from hset]
      exact hx
    · rename_i e u2 h
      rw [h] at hset
      rw [show u2.appsThatNeedToBeReady = u.appsThatNeedToBeReady from hset]
      exact hx
    · rename_i pod u2 h
      rw [h] at hset
      have hset : u2.appsThatNeedToBeReady = u.appsThatNeedToBeReady := hset
      split
      · rw [hset]
        exact hx
      · exact (mem_setAdd _ _ _).2 (Or.inl (hset ▸ hx))
      · exact (mem_setAdd _ _ _).2 (Or.inl (hset ▸ hx))

theorem createPod_appsThatNeedToBeReady_witness :
    ((createPod worldApiAlreadyExists runnerApi "Api").1 = .ok () ∧
      "Api" ∈ (createPod worldApiAlreadyExists runnerApi "Api").2.appsThatNeedToBeReady) ∧
    (createPod worldApiForbidden runnerApi "Api").1 = .err (.external "forbidden") ∧
    (createPod worldApiNoImage runnerApi "Api").1 = .err (.noImage "Api") ∧
    (createPod worldApiNoAliases runnerApi "Api").1 = .err (.external "service list failed") ∧
    (createPod worldApiNoAliases runnerApi "Api").2.appsThatNeedToBeReady = [] :=
  ⟨((createPod_appsThatNeedToBeReady worldApiAlreadyExists runnerApi "Api" appApi rfl).1
      podApi _ rfl).1 (Or.inr rfl),
    (((createPod_appsThatNeedToBeReady worldApiForbidden runnerApi "Api" appApi rfl).1
      podApi _ rfl).2 _ rfl).1,
    ((createPod_appsThatNeedToBeReady worldApiNoImage runnerApi "Api" appApi rfl).2.1
      _ rfl).1,
    ((createPod_appsThatNeedToBeReady worldApiNoAliases runnerApi "Api" appApi rfl).2.2.1
      _ rfl rfl).1,
    ((createPod_appsThatNeedToBeReady worldApiNoAliases runnerApi "Api" appApi rfl).2.2.1
      _ rfl rfl).2⟩

end KubeCompose
